import Mathlib

/-!
# SQLite history backend (`src/main/SQLiteBackend.h`): embedding and verification

The backend stores samples of one measuring point in the table
`PeriodicValues(MeasuringPointID INT, Value DOUBLE, Timestamp DATETIME)` and
answers the historian's queries by building SQL text and running it with
`sqlite3_exec`.  Timestamps are kept as the text `YYYY-MM-DD HH:MM:SS`; every
comparison and ordering the queries ask for is a comparison of that text.

The file has three layers.

* The time codec: `convertUnixSecondsToTimestampString` and
  `convertTimestampStringToUnixSeconds`, together with the library routines
  they call (open62541's `UA_DateTime_*`, its bundled `__secs_to_tm` and
  `__tm_to_secs`, libc's `strftime` and `sscanf`).
* The store: a table is the list of its rows in insertion order, and
  `sqlite3_exec` is the row scan that feeds a callback and aborts when the
  callback returns non-zero.
* The backend functions themselves, one definition per C function.

Machine integers are `Int`/`Nat` with explicit wrap-around where the C code
can leave the range.
-/

namespace SQLiteBackend

/-! ## Constants -/

/-- The constant `static const size_t END_OF_DATA = SIZE_MAX;` on a 64-bit target. -/
def END_OF_DATA : Nat := 18446744073709551615

/-- Embedding of `UA_DATETIME_SEC`: number of 100 ns ticks in a second. -/
def UA_DATETIME_SEC : Int := 10000000

/-- Embedding of `UA_DATETIME_MSEC`: ticks in a millisecond. -/
def UA_DATETIME_MSEC : Int := 10000

/-- Embedding of `UA_DATETIME_USEC`: ticks in a microsecond. -/
def UA_DATETIME_USEC : Int := 10

/-- Embedding of `UA_DATETIME_UNIX_EPOCH`: ticks between 1601-01-01 and 1970-01-01. -/
def UA_DATETIME_UNIX_EPOCH : Int := 116444736000000000

/-- Two's-complement reading of an integer in 64 bits: what a `UA_Int64`
holds after an arithmetic result left the range. -/
def wrapInt64 (x : Int) : Int := (x + 9223372036854775808) % 18446744073709551616 - 9223372036854775808

/-- Conversion to `size_t` (64 bits). -/
def toSizeT (x : Int) : Nat := (x % 18446744073709551616).toNat

/-- Conversion to `UA_UInt16`. -/
def toUInt16 (x : Int) : Nat := (x % 65536).toNat

/-! ## Calendar arithmetic bundled with open62541 (`deps/libc_time.c`) -/

/-- The broken-down time `struct mytm` (the fields of `struct tm` that are used). -/
structure mytm where
  tm_sec : Int
  tm_min : Int
  tm_hour : Int
  tm_mday : Int
  tm_mon : Int
  tm_year : Int
deriving DecidableEq, Repr

/-- Embedding of `LEAPOCH`: 2000-03-01 00:00:00 in unix seconds. -/
def LEAPOCH : Int := 946684800 + 86400 * (31 + 29)

def DAYS_PER_400Y : Int := 365 * 400 + 97
def DAYS_PER_100Y : Int := 365 * 100 + 24
def DAYS_PER_4Y : Int := 365 * 4 + 1

/-- Month lengths of a year that starts on the first of March. -/
def days_in_month : List Int := [31, 30, 31, 30, 31, 31, 30, 31, 30, 31, 31, 29]

/-- The loop `for (months=0; days_in_month[months] <= remdays; months++)
remdays -= days_in_month[months];` of `__secs_to_tm`, run over the table;
it returns the final `(months, remdays)`. -/
def monthLoop : List Int → Int → Int → Int × Int
  | [], months, remdays => (months, remdays)
  | d :: ds, months, remdays =>
    if d ≤ remdays then monthLoop ds (months + 1) (remdays - d) else (months, remdays)

/-- Modelled from the spec: `__secs_to_tm` of open62541's bundled libc time
code is not under `src/`; the spec's Time Codec fixes "a single fixed calendar
convention shared by both directions", here the proleptic Gregorian calendar
in UTC, computed the way the library does it (days since 2000-03-01 split
into 400-, 100-, 4- and 1-year cycles).  `none` is the library's `-1`.  C's
`/` and `%` truncate toward zero (`Int.tdiv`, `Int.tmod`). -/
def secs_to_tm (t : Int) : Option mytm :=
  if t < -2147483648 * 31622400 ∨ t > 2147483647 * 31622400 then none else
  let secs := t - LEAPOCH
  let days0 := secs.tdiv 86400
  let remsecs0 := secs.tmod 86400
  let remsecs := if remsecs0 < 0 then remsecs0 + 86400 else remsecs0
  let days := if remsecs0 < 0 then days0 - 1 else days0
  let qc_cycles0 := days.tdiv DAYS_PER_400Y
  let remdays0 := days.tmod DAYS_PER_400Y
  let remdays1 := if remdays0 < 0 then remdays0 + DAYS_PER_400Y else remdays0
  let qc_cycles := if remdays0 < 0 then qc_cycles0 - 1 else qc_cycles0
  let c_cycles0 := remdays1.tdiv DAYS_PER_100Y
  let c_cycles := if c_cycles0 = 4 then c_cycles0 - 1 else c_cycles0
  let remdays2 := remdays1 - c_cycles * DAYS_PER_100Y
  let q_cycles0 := remdays2.tdiv DAYS_PER_4Y
  let q_cycles := if q_cycles0 = 25 then q_cycles0 - 1 else q_cycles0
  let remdays3 := remdays2 - q_cycles * DAYS_PER_4Y
  let remyears0 := remdays3.tdiv 365
  let remyears := if remyears0 = 4 then remyears0 - 1 else remyears0
  let remdays4 := remdays3 - remyears * 365
  let years := remyears + 4 * q_cycles + 100 * c_cycles + 400 * qc_cycles
  let ml := monthLoop days_in_month 0 remdays4
  if years + 100 > 2147483647 ∨ years + 100 < -2147483648 then none else
  let mon0 := ml.1 + 2
  some { tm_year := if mon0 ≥ 12 then years + 100 + 1 else years + 100
         tm_mon := if mon0 ≥ 12 then mon0 - 12 else mon0
         tm_mday := ml.2 + 1
         tm_hour := remsecs.tdiv 3600
         tm_min := (remsecs.tdiv 60).tmod 60
         tm_sec := remsecs.tmod 60 }

/-- The table `secs_through_month` of `__month_to_secs`. -/
def secs_through_month : List Int :=
  [0, 31 * 86400, 59 * 86400, 90 * 86400, 120 * 86400, 151 * 86400, 181 * 86400,
   212 * 86400, 243 * 86400, 273 * 86400, 304 * 86400, 334 * 86400]

/-- Modelled from the spec: `__month_to_secs` (not under `src/`): seconds
from the start of the year to the start of month `month` (0-based). -/
def month_to_secs (month : Int) (is_leap : Bool) : Int :=
  let t := secs_through_month.getD month.toNat 0
  if is_leap ∧ month ≥ 2 then t + 86400 else t

/-- Modelled from the spec: `__year_to_secs` (not under `src/`): unix seconds
of January 1st of the year `1900 + year`, with the leap flag of that year. -/
def year_to_secs (year : Int) : Int × Bool :=
  let cycles0 := (year - 100).tdiv 400
  let rem0 := (year - 100).tmod 400
  let cycles := if rem0 < 0 then cycles0 - 1 else cycles0
  let rem := if rem0 < 0 then rem0 + 400 else rem0
  let r : Int × Int × Bool :=
    if rem = 0 then (0, 0, true)
    else
      let centuries : Int := if rem ≥ 200 then (if rem ≥ 300 then 3 else 2)
                             else (if rem ≥ 100 then 1 else 0)
      let rem1 := rem - 100 * centuries
      if rem1 = 0 then (centuries, 0, false)
      else (centuries, rem1.tdiv 4, decide (rem1.tmod 4 = 0))
  let centuries := r.1
  let is_leap := r.2.2
  let leaps := r.2.1 + 97 * cycles + 24 * centuries - (if is_leap then 1 else 0)
  ((year - 100) * 31536000 + leaps * 86400 + 946684800 + 86400, is_leap)

/-- Modelled from the spec: `__tm_to_secs` (not under `src/`): unix seconds of
a broken-down UTC time, months outside `0..11` being carried into the year. -/
def tm_to_secs (tm : mytm) : Int :=
  let adj0 := tm.tm_mon.tdiv 12
  let month0 := tm.tm_mon.tmod 12
  let out := decide (tm.tm_mon ≥ 12 ∨ tm.tm_mon < 0)
  let month := if out then (if month0 < 0 then month0 + 12 else month0) else tm.tm_mon
  let year := if out then tm.tm_year + (if month0 < 0 then adj0 - 1 else adj0) else tm.tm_year
  let ys := year_to_secs year
  ys.1 + month_to_secs month ys.2 + 86400 * (tm.tm_mday - 1) + 3600 * tm.tm_hour
    + 60 * tm.tm_min + tm.tm_sec

/-! ## open62541 date-time conversions -/

/-- Embedding of `UA_DateTimeStruct`: every field is a `UA_UInt16`. -/
structure UA_DateTimeStruct where
  nanoSec : Nat
  microSec : Nat
  milliSec : Nat
  sec : Nat
  min : Nat
  hour : Nat
  day : Nat
  month : Nat
  year : Nat
deriving DecidableEq, Repr

/-- Embedding of `UA_DateTime_toUnixTime`: `(date - UA_DATETIME_UNIX_EPOCH) / UA_DATETIME_SEC`,
C division (truncation toward zero) on `UA_Int64`. -/
def UA_DateTime_toUnixTime (date : Int) : Int :=
  (wrapInt64 (date - UA_DATETIME_UNIX_EPOCH)).tdiv UA_DATETIME_SEC

/-- Embedding of `UA_DateTime_fromUnixTime`: `unixDate * UA_DATETIME_SEC + UA_DATETIME_UNIX_EPOCH`
on `UA_Int64`. -/
def UA_DateTime_fromUnixTime (unixDate : Int) : Int :=
  wrapInt64 (unixDate * UA_DATETIME_SEC + UA_DATETIME_UNIX_EPOCH)

/-- Modelled from the spec: `UA_DateTime_toStruct` of open62541 (not under
`src/`): the calendar fields of a tick count, each stored as `UA_UInt16`; the
broken-down time stays zeroed when `__secs_to_tm` rejects its argument.  The
sub-second fields are those of a non-negative tick count (a date from 1601 on);
the backend never reads them. -/
def UA_DateTime_toStruct (t : Int) : UA_DateTimeStruct :=
  let secSinceUnixEpoch := (wrapInt64 (t - UA_DATETIME_UNIX_EPOCH)).tdiv UA_DATETIME_SEC
  let ts : mytm := (secs_to_tm secSinceUnixEpoch).getD ⟨0, 0, 0, 0, 0, 0⟩
  let frac := t % UA_DATETIME_SEC
  { nanoSec := toUInt16 ((frac % 10) * 100)
    microSec := toUInt16 ((frac % 10000) / 10)
    milliSec := toUInt16 (frac / 10000)
    sec := toUInt16 ts.tm_sec
    min := toUInt16 ts.tm_min
    hour := toUInt16 ts.tm_hour
    day := toUInt16 ts.tm_mday
    month := toUInt16 (ts.tm_mon + 1)
    year := toUInt16 (ts.tm_year + 1900) }

/-- Modelled from the spec: `UA_DateTime_fromStruct` of open62541 (not under
`src/`): the tick count of a calendar structure. -/
def UA_DateTime_fromStruct (ts : UA_DateTimeStruct) : Int :=
  let tm : mytm :=
    { tm_year := (ts.year : Int) - 1900
      tm_mon := (ts.month : Int) - 1
      tm_mday := ts.day
      tm_hour := ts.hour
      tm_min := ts.min
      tm_sec := ts.sec }
  let sec_epoch := tm_to_secs tm
  wrapInt64 (UA_DATETIME_UNIX_EPOCH + sec_epoch * UA_DATETIME_SEC
    + ts.milliSec * UA_DATETIME_MSEC + ts.microSec * UA_DATETIME_USEC + ts.nanoSec / 100)


/-! ## libc text conversions -/

/-- Decimal digits of `n`, most significant first (`fuel` bounds the number of digits). -/
def decimalDigits : Nat → Nat → List Char
  | 0, _ => []
  | fuel + 1, n =>
    if n < 10 then [Nat.digitChar n]
    else decimalDigits fuel (n / 10) ++ [Nat.digitChar (n % 10)]

/-- A non-negative number printed in decimal without padding (at most 20 digits,
which covers every 64-bit value). -/
def fmtDecimal (n : Nat) : List Char := decimalDigits 20 n

/-- What the conversion `%Y` of `strftime` prints: the number in decimal, with a minus
sign when negative, without padding. -/
def fmtInt (x : Int) : List Char :=
  if x < 0 then '-' :: fmtDecimal (-x).toNat else fmtDecimal x.toNat

/-- What the conversions `%m %d %H %M %S` of `strftime` print: two digits,
zero-padded. -/
def fmtPad2 (x : Int) : List Char :=
  if 0 ≤ x ∧ x < 10 then ['0', Nat.digitChar x.toNat] else fmtInt x

/-- The pieces `strftime` emits, in order, for the format `"%Y-%m-%d %H:%M:%S"`. -/
def strftime_pieces (tm : mytm) : List (List Char) :=
  [fmtInt (tm.tm_year + 1900), ['-'], fmtPad2 (tm.tm_mon + 1), ['-'], fmtPad2 tm.tm_mday,
   [' '], fmtPad2 tm.tm_hour, [':'], fmtPad2 tm.tm_min, [':'], fmtPad2 tm.tm_sec]

/-- How `strftime` fills its buffer: a piece is appended only while it, and the
terminating NUL, still fit in `maxsize` bytes (glibc: `if (n >= maxsize - i) return 0;`);
at the first piece that does not fit the call returns 0 and what was written so far
stays in the buffer. -/
def strftime_fill (maxsize : Nat) : List (List Char) → List Char → List Char
  | [], buf => buf
  | p :: ps, buf =>
    if p.length ≥ maxsize - buf.length then buf else strftime_fill maxsize ps (buf ++ p)

/-- Modelled from the spec: libc's `strftime(buffer, maxsize, "%Y-%m-%d %H:%M:%S", &tm)`
(not under `src/`) into a buffer that was zeroed before the call; the result is the C
string left in the buffer, "a fixed `YYYY-MM-DD HH:MM:SS` field, zero-padded" whenever
it fits. -/
def strftime (maxsize : Nat) (tm : mytm) : List Char :=
  strftime_fill maxsize (strftime_pieces tm) []

/-- The predicate `isspace` in the C locale. -/
def isspace (c : Char) : Bool :=
  c = ' ' || c = '\t' || c = '\n' || c = '\x0b' || c = '\x0c' || c = '\r'

/-- Skip leading white space. -/
def skipSpaces : List Char → List Char
  | [] => []
  | c :: cs => if isspace c then skipSpaces cs else c :: cs

/-- Read the longest run of decimal digits, accumulating its value. -/
def scanDigits : List Char → Nat → Nat × List Char
  | [], acc => (acc, [])
  | c :: cs, acc =>
    if c.isDigit then scanDigits cs (acc * 10 + (c.toNat - 48)) else (acc, c :: cs)

/-- The conversion `%hu` of `sscanf`: white space is skipped, an optional sign and
at least one digit are read as by `strtoul` (clamped at `ULONG_MAX`), and the value
is stored in an `unsigned short`.  `none` is a matching failure. -/
def scanHu (s : List Char) : Option (Nat × List Char) :=
  let s1 := skipSpaces s
  let neg := decide (s1.head? = some '-')
  let s2 := if s1.head? = some '-' ∨ s1.head? = some '+' then s1.tail else s1
  match s2 with
  | [] => none
  | c :: _ =>
    if c.isDigit then
      let r := scanDigits s2 0
      let v : Int := if r.1 > 18446744073709551615 then 18446744073709551615 else r.1
      some (toUInt16 (if neg then -v else v), r.2)
    else none

/-- A literal character of a `sscanf` format. -/
def scanLit (c : Char) : List Char → Option (List Char)
  | [] => none
  | d :: ds => if d = c then some ds else none

/-- The all-zero structure left by `memset(&dts, 0, sizeof(dts))`. -/
def dtsZero : UA_DateTimeStruct := ⟨0, 0, 0, 0, 0, 0, 0, 0, 0⟩

/-- Modelled from the spec: libc's `sscanf(s, "%hu-%hu-%hu %hu:%hu:%hu", &year, &month,
&day, &hour, &min, &sec)` (not under `src/`) on a zeroed structure: fields are
assigned left to right until the first matching failure, the rest stay zero
("malformed text yields an unspecified-but-deterministic zeroed result"). -/
def sscanf_timestamp (s : List Char) : UA_DateTimeStruct :=
  match scanHu s with
  | none => dtsZero
  | some (year, s1) =>
    let d1 := { dtsZero with year := year }
    match (scanLit '-' s1).bind scanHu with
    | none => d1
    | some (month, s2) =>
      let d2 := { d1 with month := month }
      match (scanLit '-' s2).bind scanHu with
      | none => d2
      | some (day, s3) =>
        let d3 := { d2 with day := day }
        match scanHu s3 with
        | none => d3
        | some (hour, s4) =>
          let d4 := { d3 with hour := hour }
          match (scanLit ':' s4).bind scanHu with
          | none => d4
          | some (min, s5) =>
            let d5 := { d4 with min := min }
            match (scanLit ':' s5).bind scanHu with
            | none => d5
            | some (sec, _) => { d5 with sec := sec }

/-! ## The time codec of the backend -/

/-- Embedding of `convertTimestampStringToUnixSeconds`: `sscanf` into a zeroed
`UA_DateTimeStruct`, then `UA_DateTime_fromStruct`, then `UA_DateTime_toUnixTime`. -/
def convertTimestampStringToUnixSeconds (timestampString : List Char) : Int :=
  let dts := sscanf_timestamp timestampString
  let dt := UA_DateTime_fromStruct dts
  UA_DateTime_toUnixTime dt

/-- Embedding of `convertUnixSecondsToTimestampString`: `UA_DateTime_fromUnixTime`,
`UA_DateTime_toStruct`, the fields copied into a `struct tm`, and `strftime`
into the zeroed 20-byte static buffer. -/
def convertUnixSecondsToTimestampString (unixSeconds : Int) : List Char :=
  let dt := UA_DateTime_fromUnixTime unixSeconds
  let dts := UA_DateTime_toStruct dt
  let tm : mytm :=
    { tm_year := (dts.year : Int) - 1900
      tm_mon := (dts.month : Int) - 1
      tm_mday := dts.day
      tm_hour := dts.hour
      tm_min := dts.min
      tm_sec := dts.sec }
  strftime 20 tm

/-! ## The store: one table, scanned by `sqlite3_exec` -/

/-- A row of `PeriodicValues(MeasuringPointID INT, Value DOUBLE, Timestamp DATETIME)`.
A double is embedded by the decimal that `"%f"` prints for it: `Value` counts
millionths.  `Timestamp` is stored as text. -/
structure Row where
  MeasuringPointID : Int
  Value : Int
  Timestamp : List Char
deriving DecidableEq, Repr

/-- Embedding of `SQLITE_OK`. -/
def SQLITE_OK : Int := 0

/-- Embedding of `SQLITE_ERROR`. -/
def SQLITE_ERROR : Int := 1

/-- Embedding of `SQLITE_ABORT`: a callback asked for the scan to stop. -/
def SQLITE_ABORT : Int := 4

/-- Byte-wise comparison of two texts (SQLite's BINARY collation: `memcmp` on the
common length, then the shorter text first): is `a` strictly before `b`? -/
def textLt : List Char → List Char → Bool
  | _, [] => false
  | [], _ :: _ => true
  | a :: as, b :: bs => if a.toNat < b.toNat then true else if a.toNat = b.toNat then textLt as bs else false

/-- The comparison `a <= b` in the BINARY collation. -/
def textLe (a b : List Char) : Bool := !textLt b a

/-- The comparison operators the backend writes into its `WHERE` clauses. -/
inductive Cmp where
  | ge
  | gt
  | le
  | lt
deriving DecidableEq, Repr

/-- The condition `Timestamp <op> '<text>'` on a stored timestamp.  Neither side
looks like a number, so SQLite compares them as text, in the BINARY collation. -/
def Cmp.holds : Cmp → List Char → List Char → Bool
  | .ge, ts, text => textLe text ts
  | .gt, ts, text => textLt text ts
  | .le, ts, text => textLe ts text
  | .lt, ts, text => textLt ts text

/-- The result columns of the three kinds of `SELECT` the backend issues. -/
inductive Columns where
  | timestamp
  | timestampValue
  | countStar
deriving DecidableEq, Repr

/-- The clauses `ORDER BY Timestamp` and `ORDER BY Timestamp DESC`. -/
inductive OrderBy where
  | asc
  | desc
deriving DecidableEq, Repr

/-- The `SELECT` statements of the backend, as the structure of the text that the
`strncpy`/`strncat` calls assemble (none of them comes near the 500-byte query
buffer): the columns, the conjunction of timestamp conditions, the
`MeasuringPointID=` condition, the ordering and the limit. -/
structure SelectQuery where
  columns : Columns
  conds : List (Cmp × List Char)
  measuringPointID : Int
  orderBy : Option OrderBy
  limit : Option Nat

/-- Insert a row into a list ordered by `before`, after every row it is not before
(the sort is stable). -/
def insertRow (before : Row → Row → Bool) (r : Row) : List Row → List Row
  | [] => [r]
  | x :: xs => if before r x then r :: x :: xs else x :: insertRow before r xs

/-- Stable sort of rows. -/
def sortRows (before : Row → Row → Bool) : List Row → List Row
  | [] => []
  | r :: rs => insertRow before r (sortRows before rs)

/-- The rows a `SELECT` visits, in the order it visits them: the rows satisfying the
`WHERE` clause in table (insertion) order, sorted when an `ORDER BY` is present, cut
at the `LIMIT`. -/
def selectRows (table : List Row) (q : SelectQuery) : List Row :=
  let hit := table.filter fun r =>
    q.conds.all (fun c => c.1.holds r.Timestamp c.2) && decide (r.MeasuringPointID = q.measuringPointID)
  let ordered := match q.orderBy with
    | none => hit
    | some .asc => sortRows (fun a b => textLt a.Timestamp b.Timestamp) hit
    | some .desc => sortRows (fun a b => textLt b.Timestamp a.Timestamp) hit
  match q.limit with
  | none => ordered
  | some n => ordered.take n

/-- Six fractional digits, zero-padded (the fraction of `"%f"`). -/
def fmtFrac6 (n : Nat) : List Char :=
  [Nat.digitChar (n / 100000 % 10), Nat.digitChar (n / 10000 % 10), Nat.digitChar (n / 1000 % 10),
   Nat.digitChar (n / 100 % 10), Nat.digitChar (n / 10 % 10), Nat.digitChar (n % 10)]

/-- The conversion `"%f"` of `printf` for a double given in millionths. -/
def fmtF (v : Int) : List Char :=
  (if v < 0 then ['-'] else []) ++ fmtDecimal (v.natAbs / 1000000) ++ ['.'] ++ fmtFrac6 (v.natAbs % 1000000)

/-- Drop trailing zeros of a fraction, keeping at least one digit. -/
def trimFrac (ds : List Char) : List Char :=
  match (ds.reverse.dropWhile (· = '0')).reverse with
  | [] => ['0']
  | r => r

/-- The text SQLite hands to a callback for a REAL column (shortest decimal, at
least one fractional digit), for a double given in millionths, in the plain decimal form
that SQLite uses for magnitudes from 0.0001 up to 10^15 (the exponent form it uses
outside them is not modelled). -/
def sqliteRealText (v : Int) : List Char :=
  (if v < 0 then ['-'] else []) ++ fmtDecimal (v.natAbs / 1000000) ++ ['.'] ++ trimFrac (fmtFrac6 (v.natAbs % 1000000))

/-- Read a decimal literal `[-]digits[.digits]` as millionths; digits after the sixth
fractional one are read and dropped.  The second component is the unread rest. -/
def scanReal (s : List Char) : Option (Int × List Char) :=
  let neg := decide (s.head? = some '-')
  let s2 := if s.head? = some '-' ∨ s.head? = some '+' then s.tail else s
  match s2 with
  | [] => none
  | c :: _ =>
    if c.isDigit then
      let ip := scanDigits s2 0
      let fr : List Char × List Char :=
        if ip.2.head? = some '.' then (ip.2.tail.takeWhile Char.isDigit, ip.2.tail.dropWhile Char.isDigit)
        else ([], ip.2)
      let frac6 := (fr.1 ++ ['0', '0', '0', '0', '0', '0']).take 6
      let v : Int := ip.1 * 1000000 + (scanDigits frac6 0).1
      some (if neg then -v else v, fr.2)
    else none

/-- Embedding of `strtod(text, NULL)` on a decimal literal without exponent, in millionths
(0 when no number is there). -/
def strtod (s : List Char) : Int :=
  match scanReal (skipSpaces s) with
  | none => 0
  | some (v, _) => v

/-- Embedding of `strtol(text, NULL, 10)` on the text of a non-negative count. -/
def strtol (s : List Char) : Int :=
  let s1 := skipSpaces s
  let neg := decide (s1.head? = some '-')
  let s2 := if s1.head? = some '-' ∨ s1.head? = some '+' then s1.tail else s1
  let n : Int := (scanDigits s2 0).1
  if neg then (if n > 9223372036854775808 then -9223372036854775808 else -n)
  else (if n > 9223372036854775807 then 9223372036854775807 else n)

/-- The texts (`char **data`) that SQLite passes to the callback, one list per
result row. -/
def resultRows (table : List Row) (q : SelectQuery) : List (List (List Char)) :=
  match q.columns with
  | .timestamp => (selectRows table q).map fun r => [r.Timestamp]
  | .timestampValue => (selectRows table q).map fun r => [r.Timestamp, sqliteRealText r.Value]
  | .countStar => [[fmtDecimal (selectRows table q).length]]

/-- The callback loop of `sqlite3_exec`: the callback is invoked once per result row;
a non-zero return stops the scan and makes `sqlite3_exec` return `SQLITE_ABORT`. -/
def execRows {σ : Type} (callback : σ → List (List Char) → σ × Int) : List (List (List Char)) → σ → σ × Int
  | [], ctx => (ctx, SQLITE_OK)
  | data :: rest, ctx =>
    let r := callback ctx data
    if r.2 ≠ 0 then (r.1, SQLITE_ABORT) else execRows callback rest r.1

/-- Modelled from the spec: `sqlite3_exec(db, query, callback, ctx, &err)` of SQLite (not
under `src/`) for a `SELECT` on a working store, "used strictly as an ordered
range-scan primitive": the final callback context and the result code. -/
def sqlite3_exec_select {σ : Type} (table : List Row) (q : SelectQuery)
    (callback : σ → List (List Char) → σ × Int) (ctx : σ) : σ × Int :=
  execRows callback (resultRows table q) ctx

/-- Zero-padded four-digit year (`%04d`). -/
def fmtPad4 (x : Int) : List Char :=
  let ds := fmtInt x
  List.replicate (4 - ds.length) '0' ++ ds

/-- Modelled from the spec: SQLite's `CURRENT_TIMESTAMP` (not under `src/`) when the
clock shows `now` unix seconds: the UTC text `YYYY-MM-DD HH:MM:SS`, "fixed-format,
second resolution, default-filled at insert time".  The model is that of a clock within
the years 0000 to 9999, the dates SQLite's date functions cover. -/
def CURRENT_TIMESTAMP (now : Int) : List Char :=
  match secs_to_tm now with
  | none => []
  | some tm =>
    fmtPad4 (tm.tm_year + 1900) ++ ['-'] ++ fmtPad2 (tm.tm_mon + 1) ++ ['-'] ++ fmtPad2 tm.tm_mday
      ++ [' '] ++ fmtPad2 tm.tm_hour ++ [':'] ++ fmtPad2 tm.tm_min ++ [':'] ++ fmtPad2 tm.tm_sec

/-- Remove a literal prefix from a text. -/
def dropLiteral : List Char → List Char → Option (List Char)
  | [], s => some s
  | _ :: _, [] => none
  | p :: ps, c :: cs => if c = p then dropLiteral ps cs else none

/-- The head of the `INSERT` statement, as `strncpy` puts it into the query buffer. -/
def insertHead : List Char := "INSERT INTO PeriodicValues VALUES(1, ".toList

/-- The tail of the `INSERT` statement after the value. -/
def insertTail : List Char := ", CURRENT_TIMESTAMP);".toList

/-- SQLite's reading of the statement `INSERT INTO PeriodicValues VALUES(1, <real>,
CURRENT_TIMESTAMP)` with or without the final semicolon: the value to insert, or
`none` for any other text (a syntax error: the statement is not complete). -/
def parseInsert (query : List Char) : Option Int :=
  match (dropLiteral insertHead query).bind scanReal with
  | none => none
  | some (v, rest) =>
    if rest = ", CURRENT_TIMESTAMP)".toList ∨ rest = ", CURRENT_TIMESTAMP);".toList then some v
    else none

/-- Modelled from the spec: `sqlite3_exec(db, query, NULL, NULL, &err)` of SQLite (not
under `src/`) for the `INSERT` text of the backend, on a working store whose clock
shows `now`: "one call, one row", appended to the table, or `SQLITE_ERROR` and an
unchanged table when the text is not a complete statement. -/
def sqlite3_exec_insert (table : List Row) (now : Int) (query : List Char) : List Row × Int :=
  match parseInsert query with
  | none => (table, SQLITE_ERROR)
  | some v => (table ++ [⟨1, v, CURRENT_TIMESTAMP now⟩], SQLITE_OK)

/-! ## The backend (`src/main/SQLiteBackend.h`) -/

/-- Embedding of `UA_STATUSCODE_GOOD`. -/
def UA_STATUSCODE_GOOD : Nat := 0

/-- Embedding of `UA_STATUSCODE_BADINTERNALERROR`. -/
def UA_STATUSCODE_BADINTERNALERROR : Nat := 0x80020000

/-- Index of `UA_Double` in the table `UA_TYPES`. -/
def UA_TYPES_DOUBLE : Nat := 10

/-- Embedding of `UA_Variant` holding a scalar: the data type (its index in `UA_TYPES`, `none` for
an empty variant) and the payload; a double payload is given in millionths. -/
structure UA_Variant where
  type : Option Nat
  data : Int
deriving DecidableEq, Repr

/-- Embedding of `UA_DataValue`. -/
structure UA_DataValue where
  value : UA_Variant
  sourceTimestamp : Int
  serverTimestamp : Int
  status : Nat
  hasValue : Bool
  hasStatus : Bool
  hasSourceTimestamp : Bool
  hasServerTimestamp : Bool
deriving DecidableEq, Repr

/-- Embedding of `MatchStrategy` of the history plugin API; `MATCH_EQUAL` is the enumerator the
backend leaves to the `default:` branch. -/
inductive MatchStrategy where
  | MATCH_EQUAL
  | MATCH_AFTER
  | MATCH_EQUAL_OR_AFTER
  | MATCH_BEFORE
  | MATCH_EQUAL_OR_BEFORE
deriving DecidableEq, Repr

/-- Embedding of `struct context_copyDataValues`; `values` lists the slots of the caller's buffer
written so far (`values[0]`, `values[1]`, ...). -/
structure context_copyDataValues where
  maxValues : Nat
  counter : Nat
  values : List UA_DataValue
deriving DecidableEq, Repr

/-- Embedding of `struct context_sqlite`: the open database (the rows of `PeriodicValues` in
insertion order) and the measuring point, which `generateContext_sqlite` sets to `"1"`. -/
structure context_sqlite where
  sqlite : List Row
  measuringPointID : Int
deriving DecidableEq, Repr

/-- Embedding of `generateContext_sqlite` on a database that opens: the table is dropped and
created anew. -/
def generateContext_sqlite : context_sqlite := ⟨[], 1⟩

/-- Embedding of `snprintf(remaining, size, "%f, CURRENT_TIMESTAMP);", value)`: the output is cut
to `size - 1` characters. -/
def snprintf_remaining (size : Nat) (value : Int) : List Char :=
  (fmtF value ++ insertTail).take (size - 1)

/-- Embedding of `serverSetHistoryData_sqliteHDB`: the status code and the store
afterwards; `now` is the clock SQLite reads for `CURRENT_TIMESTAMP` (the sample's own
timestamps are not written).  The query is the text `strncpy` and `strncat` leave in the
buffer: the head of the statement followed by `remaining`. -/
def serverSetHistoryData_sqliteHDB (context : context_sqlite) (now : Int) (value : UA_DataValue) :
    Nat × context_sqlite :=
  if value.hasValue ∧ value.status = UA_STATUSCODE_GOOD ∧ value.value.type = some UA_TYPES_DOUBLE then
    let remaining := snprintf_remaining 30 value.value.data
    let query := insertHead ++ remaining
    let res := sqlite3_exec_insert context.sqlite now query
    if res.2 ≠ SQLITE_OK then (UA_STATUSCODE_BADINTERNALERROR, context)
    else (UA_STATUSCODE_GOOD, { context with sqlite := res.1 })
  else (UA_STATUSCODE_BADINTERNALERROR, context)

/-- Embedding of `getEnd_sqliteHDB`. -/
def getEnd_sqliteHDB : Nat := END_OF_DATA

/-- Embedding of `timestamp_callback`: `*(UA_Int64*)result = convertTimestampStringToUnixSeconds(data[0])`,
read back through the `size_t` it was written into; returns 0. -/
def timestamp_callback (_result : Nat) (data : List (List Char)) : Nat × Int :=
  (toSizeT (convertTimestampStringToUnixSeconds (data.getD 0 [])), 0)

/-- Embedding of `resultSize_callback`: `*(size_t*)result = strtol(data[0], NULL, 10)`; returns 0. -/
def resultSize_callback (_result : Nat) (data : List (List Char)) : Nat × Int :=
  (toSizeT (strtol (data.getD 0 [])), 0)

/-- Embedding of `lastIndex_sqliteHDB` on a working store.  The local `size_t result;` has no
initialiser: `uninit` is the value it happens to hold. -/
def lastIndex_sqliteHDB (uninit : Nat) (context : context_sqlite) : Nat :=
  let query : SelectQuery :=
    { columns := .timestamp, conds := [], measuringPointID := context.measuringPointID,
      orderBy := some .desc, limit := some 1 }
  let res := sqlite3_exec_select context.sqlite query timestamp_callback uninit
  if res.2 ≠ SQLITE_OK then END_OF_DATA else res.1

/-- Embedding of `firstIndex_sqliteHDB` on a working store; `uninit` as in `lastIndex_sqliteHDB`. -/
def firstIndex_sqliteHDB (uninit : Nat) (context : context_sqlite) : Nat :=
  let query : SelectQuery :=
    { columns := .timestamp, conds := [], measuringPointID := context.measuringPointID,
      orderBy := some .asc, limit := some 1 }
  let res := sqlite3_exec_select context.sqlite query timestamp_callback uninit
  if res.2 ≠ SQLITE_OK then END_OF_DATA else res.1

/-- The query `search_sqlite` builds for a strategy (`none`: the `default:` branch). -/
def searchQuery (context : context_sqlite) (unixSeconds : Int) : MatchStrategy → Option SelectQuery
  | .MATCH_EQUAL_OR_AFTER => some
      { columns := .timestamp, conds := [(.ge, convertUnixSecondsToTimestampString unixSeconds)],
        measuringPointID := context.measuringPointID, orderBy := some .asc, limit := some 1 }
  | .MATCH_AFTER => some
      { columns := .timestamp, conds := [(.gt, convertUnixSecondsToTimestampString unixSeconds)],
        measuringPointID := context.measuringPointID, orderBy := some .asc, limit := some 1 }
  | .MATCH_EQUAL_OR_BEFORE => some
      { columns := .timestamp, conds := [(.le, convertUnixSecondsToTimestampString unixSeconds)],
        measuringPointID := context.measuringPointID, orderBy := some .desc, limit := some 1 }
  | .MATCH_BEFORE => some
      { columns := .timestamp, conds := [(.lt, convertUnixSecondsToTimestampString unixSeconds)],
        measuringPointID := context.measuringPointID, orderBy := some .desc, limit := some 1 }
  | .MATCH_EQUAL => none

/-- Embedding of `search_sqlite`: the returned flag and the final `*index`, which starts as
`END_OF_DATA`. -/
def search_sqlite (context : context_sqlite) (unixSeconds : Int) (strategy : MatchStrategy) :
    Bool × Nat :=
  match searchQuery context unixSeconds strategy with
  | none => (false, END_OF_DATA)
  | some query =>
    let res := sqlite3_exec_select context.sqlite query timestamp_callback END_OF_DATA
    if res.2 ≠ SQLITE_OK then (false, res.1) else (true, res.1)

/-- Embedding of `getDateTimeMatch_sqliteHDB`: the timestamp is cut to unix seconds and handed to
`search_sqlite`; the result is the index it left. -/
def getDateTimeMatch_sqliteHDB (context : context_sqlite) (timestamp : Int)
    (strategy : MatchStrategy) : Nat :=
  let ts := UA_DateTime_toUnixTime timestamp
  (search_sqlite context ts strategy).2

/-- Embedding of `resultSize_sqliteHDB`; the `size_t` indices are passed as `UA_Int64`. -/
def resultSize_sqliteHDB (context : context_sqlite) (startIndex endIndex : Nat) : Nat :=
  let query : SelectQuery :=
    { columns := .countStar,
      conds := [(.ge, convertUnixSecondsToTimestampString (wrapInt64 startIndex)),
                (.le, convertUnixSecondsToTimestampString (wrapInt64 endIndex))],
      measuringPointID := context.measuringPointID, orderBy := none, limit := none }
  let res := sqlite3_exec_select context.sqlite query resultSize_callback 0
  if res.2 ≠ SQLITE_OK then 0 else res.1

/-- Embedding of `copyDataValues_callback`: build the data value of the row, copy it to
`values[counter]`, count it, and ask for the scan to stop (return 1) when the
counter equals `maxValues`. -/
def copyDataValues_callback (ctx : context_copyDataValues) (data : List (List Char)) :
    context_copyDataValues × Int :=
  let sourceTimestamp :=
    UA_DateTime_fromUnixTime (convertTimestampStringToUnixSeconds (data.getD 0 []))
  let value := strtod (data.getD 1 [])
  let dv : UA_DataValue :=
    { value := ⟨some UA_TYPES_DOUBLE, value⟩
      sourceTimestamp := sourceTimestamp
      serverTimestamp := sourceTimestamp
      status := UA_STATUSCODE_GOOD
      hasValue := true
      hasStatus := true
      hasSourceTimestamp := true
      hasServerTimestamp := true }
  let ctx1 : context_copyDataValues :=
    { ctx with values := ctx.values ++ [dv], counter := ctx.counter + 1 }
  if ctx1.counter = ctx1.maxValues then (ctx1, 1) else (ctx1, 0)

/-- The scan inside `copyDataValues_sqliteHDB`: the query (without `ORDER BY`, with
the measuring point `"1"` written out, `reverse` unused), the fresh callback context
and `int res = sqlite3_exec(...)`: the final context and `res`. -/
def copyDataValues_scan (context : context_sqlite) (startIndex endIndex : Nat) (_reverse : Bool)
    (maxValues : Nat) : context_copyDataValues × Int :=
  let query : SelectQuery :=
    { columns := .timestampValue,
      conds := [(.ge, convertUnixSecondsToTimestampString (wrapInt64 startIndex)),
                (.le, convertUnixSecondsToTimestampString (wrapInt64 endIndex))],
      measuringPointID := 1, orderBy := none, limit := none }
  let ctx : context_copyDataValues := { maxValues := maxValues, counter := 0, values := [] }
  sqlite3_exec_select context.sqlite query copyDataValues_callback ctx

/-- Embedding of `copyDataValues_sqliteHDB`: the status code (an aborted scan is not an
error) and the slots of `values` that were written.  The parameters `range`,
`releaseContinuationPoints`, `continuationPoint`, `outContinuationPoint` and
`providedValues` are never used by the C function and are left out. -/
def copyDataValues_sqliteHDB (context : context_sqlite) (startIndex endIndex : Nat) (reverse : Bool)
    (maxValues : Nat) : Nat × List UA_DataValue :=
  let r := copyDataValues_scan context startIndex endIndex reverse maxValues
  if r.2 ≠ SQLITE_OK then
    if r.2 = SQLITE_ABORT then (UA_STATUSCODE_GOOD, r.1.values)
    else (UA_STATUSCODE_BADINTERNALERROR, r.1.values)
  else (UA_STATUSCODE_GOOD, r.1.values)

/-- The truncation signal of an extraction: the scan was stopped by the callback. -/
def truncated (context : context_sqlite) (startIndex endIndex : Nat) (reverse : Bool)
    (maxValues : Nat) : Bool :=
  decide ((copyDataValues_scan context startIndex endIndex reverse maxValues).2 = SQLITE_ABORT)

/-! ## Vocabulary of the statements -/

/-- The last second of the year 9999, the largest timestamp the 19-character text holds. -/
def MAX_SECONDS : Int := 253402300799

/-- The row that ingesting `value` adds when the store's clock shows `seconds`. -/
def sampleRow (value seconds : Int) : Row := ⟨1, value, CURRENT_TIMESTAMP seconds⟩

/-- Every row of the table carries the timestamp text of a second
between 1970-01-01 00:00:00 and 9999-12-31 23:59:59. -/
def StoreOK (table : List Row) : Prop :=
  ∀ r ∈ table, ∃ s : Int, 0 ≤ s ∧ s ≤ MAX_SECONDS ∧ r.Timestamp = CURRENT_TIMESTAMP s

/-- The stored timestamps of the series, as unix seconds, in table order. -/
def storedSeconds (context : context_sqlite) : List Int :=
  (context.sqlite.filter fun r => decide (r.MeasuringPointID = context.measuringPointID)).map
    fun r => convertTimestampStringToUnixSeconds r.Timestamp

/-- Days of month `mon` (0-based, January first) in a common or leap year. -/
def monthLength (mon : Int) (leap : Bool) : Int :=
  if mon = 1 then (if leap then 29 else 28)
  else if mon = 3 ∨ mon = 5 ∨ mon = 8 ∨ mon = 10 then 30 else 31

/-- A broken-down time that names a real calendar second. -/
def ValidTm (tm : mytm) : Prop :=
  0 ≤ tm.tm_sec ∧ tm.tm_sec ≤ 59 ∧ 0 ≤ tm.tm_min ∧ tm.tm_min ≤ 59 ∧
  0 ≤ tm.tm_hour ∧ tm.tm_hour ≤ 23 ∧ 1 ≤ tm.tm_mday ∧
  tm.tm_mday ≤ monthLength tm.tm_mon (year_to_secs tm.tm_year).2 ∧
  0 ≤ tm.tm_mon ∧ tm.tm_mon ≤ 11

/-- The calendar fields read as one decimal number `YYYYMMDDHHMMSS`: comparing two
of them is comparing the fields lexicographically. -/
def tmKey (tm : mytm) : Int :=
  (tm.tm_year + 1900) * 10000000000 + (tm.tm_mon + 1) * 100000000 + tm.tm_mday * 1000000
    + tm.tm_hour * 10000 + tm.tm_min * 100 + tm.tm_sec

/-- The table of the months of a year: for month `mon` (0-based), `e` days of the year lie
before it and it has `len` days; `l` is 1 in a leap year and 0 otherwise. -/
def MonthRow (l mon e len : Int) : Prop :=
  (mon = 0 ∧ e = 0 ∧ len = 31) ∨
       (mon = 1 ∧ e = 31 ∧ len = 28 + l) ∨
       (mon = 2 ∧ e = 59 + l ∧ len = 31) ∨
       (mon = 3 ∧ e = 90 + l ∧ len = 30) ∨
       (mon = 4 ∧ e = 120 + l ∧ len = 31) ∨
       (mon = 5 ∧ e = 151 + l ∧ len = 30) ∨
       (mon = 6 ∧ e = 181 + l ∧ len = 31) ∨
       (mon = 7 ∧ e = 212 + l ∧ len = 31) ∨
       (mon = 8 ∧ e = 243 + l ∧ len = 30) ∨
       (mon = 9 ∧ e = 273 + l ∧ len = 31) ∨
       (mon = 10 ∧ e = 304 + l ∧ len = 30) ∨
       (mon = 11 ∧ e = 334 + l ∧ len = 31)


/-- The first second of the year 0 (0000-01-01 00:00:00), the smallest timestamp whose
year the unsigned 16-bit field holds. -/
def MIN_SECONDS : Int := -62167219200

/-- The first second of the year 1000 (1000-01-01 00:00:00), the smallest timestamp whose
year is printed with four digits. -/
def MIN_TEXT_SECONDS : Int := -30610224000

/-- The 15 characters `-MM-DD HH:MM:SS` that follow the year. -/
def text15 (M D h m s : Nat) : List Char :=
  ['-', Nat.digitChar (M / 10), Nat.digitChar (M % 10), '-',
   Nat.digitChar (D / 10), Nat.digitChar (D % 10), ' ', Nat.digitChar (h / 10),
   Nat.digitChar (h % 10), ':', Nat.digitChar (m / 10), Nat.digitChar (m % 10), ':',
   Nat.digitChar (s / 10), Nat.digitChar (s % 10)]

/-- The 19 characters `YYYY-MM-DD HH:MM:SS` of six numbers, every field zero-padded to
its width. -/
def text19 (Y M D h m s : Nat) : List Char :=
  [Nat.digitChar (Y / 1000), Nat.digitChar (Y / 100 % 10), Nat.digitChar (Y / 10 % 10),
   Nat.digitChar (Y % 10), '-', Nat.digitChar (M / 10), Nat.digitChar (M % 10), '-',
   Nat.digitChar (D / 10), Nat.digitChar (D % 10), ' ', Nat.digitChar (h / 10),
   Nat.digitChar (h % 10), ':', Nat.digitChar (m / 10), Nat.digitChar (m % 10), ':',
   Nat.digitChar (s / 10), Nat.digitChar (s % 10)]

/-- The fields of `text19` read as the decimal number `YYYYMMDDHHMMSS`. -/
def key19 (Y M D h m s : Nat) : Nat :=
  Y * 10000000000 + M * 100000000 + D * 1000000 + h * 10000 + m * 100 + s

/-- The text of a broken-down time with the year printed without padding, as `%Y`
prints it: `Y-MM-DD HH:MM:SS`. -/
def tmTextV (tm : mytm) : List Char :=
  fmtDecimal (tm.tm_year + 1900).toNat ++ text15 (tm.tm_mon + 1).toNat tm.tm_mday.toNat
    tm.tm_hour.toNat tm.tm_min.toNat tm.tm_sec.toNat

/-- The text `YYYY-MM-DD HH:MM:SS` of a broken-down time. -/
def tmText (tm : mytm) : List Char :=
  text19 (tm.tm_year + 1900).toNat (tm.tm_mon + 1).toNat tm.tm_mday.toNat tm.tm_hour.toNat
    tm.tm_min.toNat tm.tm_sec.toNat

/-- The numeric meaning of a `WHERE` operator: `Timestamp <op> t` on a stored second `s`. -/
def Cmp.rel : Cmp → Int → Int → Bool
  | .ge, s, t => decide (t ≤ s)
  | .gt, s, t => decide (t < s)
  | .le, s, t => decide (s ≤ t)
  | .lt, s, t => decide (s < t)

/-- Does the stored second `s` satisfy the strategy's relation to `t`? -/
def qualifies : MatchStrategy → Int → Int → Bool
  | .MATCH_EQUAL_OR_AFTER, s, t => decide (t ≤ s)
  | .MATCH_AFTER, s, t => decide (t < s)
  | .MATCH_EQUAL_OR_BEFORE, s, t => decide (s ≤ t)
  | .MATCH_BEFORE, s, t => decide (s < t)
  | .MATCH_EQUAL, s, t => decide (s = t)

/-- Is `s` at least as extreme as `s'` in the strategy's direction: not larger for the
"after" strategies, not smaller for the "before" strategies? -/
def extremal : MatchStrategy → Int → Int → Bool
  | .MATCH_EQUAL_OR_AFTER, s, s' => decide (s ≤ s')
  | .MATCH_AFTER, s, s' => decide (s ≤ s')
  | .MATCH_EQUAL_OR_BEFORE, s, s' => decide (s' ≤ s)
  | .MATCH_BEFORE, s, s' => decide (s' ≤ s)
  | .MATCH_EQUAL, _, _ => true

/-- The contract of `matchIndex` over the stored seconds: the result is `END_OF_DATA` and
nothing qualifies, or it is a stored second that qualifies and is extremal among the
qualifying ones.  `t` is the reference time in seconds, `q` the relation to it. -/
def MatchSpec (stored : List Int) (S : MatchStrategy) (q : Int → Bool) (r : Nat) : Prop :=
  (r = END_OF_DATA ∧ ∀ s ∈ stored, q s = false) ∨
  (∃ s ∈ stored, (r : Int) = s ∧ q s = true ∧ ∀ s' ∈ stored, q s' = true → extremal S s s' = true)

instance (stored : List Int) (S : MatchStrategy) (q : Int → Bool) (r : Nat) :
    Decidable (MatchSpec stored S q r) := by
  unfold MatchSpec
  infer_instance

/-- A store as the backend creates and fills it: the measuring point is `1` and every row
carries the timestamp text of a second between 1970 and 9999. -/
def ContextOK (context : context_sqlite) : Prop :=
  context.measuringPointID = 1 ∧ StoreOK context.sqlite

/-- The store of the scenarios: samples 1.0, 2.0, 3.0 ingested at seconds 100, 200, 300. -/
def demoStore : context_sqlite :=
  ⟨[sampleRow 1000000 100, sampleRow 2000000 200, sampleRow 3000000 300], 1⟩

/-- A store with a sample at second 100 and a sample at the last second of the year 9999. -/
def lateStore : context_sqlite :=
  ⟨[sampleRow 1000000 100, sampleRow 2000000 253402300799], 1⟩

/-- The number of stored samples of the series whose second lies in the inclusive interval
`[a, b]`. -/
def samplesInInterval (context : context_sqlite) (a b : Nat) : Nat :=
  ((storedSeconds context).filter fun s => decide ((a : Int) ≤ s ∧ s ≤ (b : Int))).length

/-- The rows the interval queries of `resultSize_sqliteHDB` and `copyDataValues_sqliteHDB`
select for the measuring point `id`: the `WHERE` clause applied to the table. -/
def intervalRows (table : List Row) (id : Int) (startIndex endIndex : Nat) : List Row :=
  table.filter fun r =>
    [(Cmp.ge, convertUnixSecondsToTimestampString (wrapInt64 startIndex)),
     (Cmp.le, convertUnixSecondsToTimestampString (wrapInt64 endIndex))].all
      (fun c => c.1.holds r.Timestamp c.2) && decide (r.MeasuringPointID = id)

/-- A sample with a good status and a `Double` payload (given in millionths), as the
historian hands it to `serverSetHistoryData_sqliteHDB`. -/
def goodDouble (value : Int) : UA_DataValue :=
  { value := ⟨some UA_TYPES_DOUBLE, value⟩
    sourceTimestamp := 0
    serverTimestamp := 0
    status := UA_STATUSCODE_GOOD
    hasValue := true
    hasStatus := true
    hasSourceTimestamp := false
    hasServerTimestamp := false }

/-- What the month loop computes from a day-of-year `r` counted from March 1st. -/
def MonthSplit (r : Int) (p : Int × Int) : Prop :=
  0 ≤ p.2 ∧
    ((p.1 = 0 ∧ r = p.2 ∧ p.2 < 31) ∨ (p.1 = 1 ∧ r = 31 + p.2 ∧ p.2 < 30) ∨
     (p.1 = 2 ∧ r = 61 + p.2 ∧ p.2 < 31) ∨ (p.1 = 3 ∧ r = 92 + p.2 ∧ p.2 < 30) ∨
     (p.1 = 4 ∧ r = 122 + p.2 ∧ p.2 < 31) ∨ (p.1 = 5 ∧ r = 153 + p.2 ∧ p.2 < 31) ∨
     (p.1 = 6 ∧ r = 184 + p.2 ∧ p.2 < 30) ∨ (p.1 = 7 ∧ r = 214 + p.2 ∧ p.2 < 31) ∨
     (p.1 = 8 ∧ r = 245 + p.2 ∧ p.2 < 30) ∨ (p.1 = 9 ∧ r = 275 + p.2 ∧ p.2 < 31) ∨
     (p.1 = 10 ∧ r = 306 + p.2 ∧ p.2 < 31) ∨ (p.1 = 11 ∧ r = 337 + p.2 ∧ p.2 < 29))

/-! ## Calendar arithmetic -/
theorem tdiv_tmod_cases (a b : Int) (hb : 0 < b) :
    (0 ≤ a ∧ a.tdiv b = a / b ∧ a.tmod b = a % b) ∨
    (a < 0 ∧ a.tdiv b = -((-a) / b) ∧ a.tmod b = -((-a) % b)) := by
  by_cases ha : 0 ≤ a
  · exact Or.inl ⟨ha, Int.tdiv_eq_ediv ha (le_of_lt hb), Int.tmod_eq_emod ha (le_of_lt hb)⟩
  · right
    have hna : 0 ≤ -a := by omega
    have h1 : a.tdiv b = -((-a) / b) := by
      have := Int.neg_tdiv (-a) b
      rw [neg_neg] at this
      rw [this, Int.tdiv_eq_ediv hna (le_of_lt hb)]
    refine ⟨by omega, h1, ?_⟩
    rw [Int.tmod_def, h1, Int.emod_def]
    ring

/-- C's truncating division followed by the "negative remainder" fix-up is floor division. -/
theorem floor_fix (a b : Int) (hb : 0 < b) :
    (if a.tmod b < 0 then a.tdiv b - 1 else a.tdiv b) = a / b ∧
    (if a.tmod b < 0 then a.tmod b + b else a.tmod b) = a % b := by
  have hq : a % b + b * (a / b) = a := Int.emod_add_ediv a b
  have hr0 : 0 ≤ a % b := Int.emod_nonneg a (ne_of_gt hb)
  have hr1 : a % b < b := Int.emod_lt_of_pos a hb
  have ht : a.tmod b + b * a.tdiv b = a := Int.tmod_add_tdiv a b
  have ht1 : a.tmod b < b := Int.tmod_lt_of_pos a hb
  by_cases ha : 0 ≤ a
  · have h0 : 0 ≤ a.tmod b := Int.tmod_nonneg b ha
    rw [if_neg (by omega), if_neg (by omega)]
    exact ⟨Int.tdiv_eq_ediv ha (le_of_lt hb), Int.tmod_eq_emod ha (le_of_lt hb)⟩
  · rcases tdiv_tmod_cases a b hb with ⟨h, _, _⟩ | ⟨h, h1, h2⟩
    · omega
    · have hq2 : (-a) % b + b * ((-a) / b) = -a := Int.emod_add_ediv (-a) b
      have hr2 : 0 ≤ (-a) % b := Int.emod_nonneg (-a) (ne_of_gt hb)
      have hr3 : (-a) % b < b := Int.emod_lt_of_pos (-a) hb
      by_cases hz : (-a) % b = 0
      · have e1 : a.tmod b = 0 := by rw [h2, hz]; rfl
        rw [if_neg (by omega), if_neg (by omega)]
        have hd : a / b = -((-a) / b) := by
          have : (a / b + (-a)/b) * b = - (a % b) := by nlinarith
          have h3 : a % b = 0 := by
            have hdiv : b ∣ a % b := ⟨-(a / b + (-a)/b), by nlinarith⟩
            rcases hdiv with ⟨k, hk⟩
            have : k = 0 := by nlinarith
            subst this; simpa using hk
          have : (a / b + (-a)/b) * b = 0 := by rw [this, h3]; rfl
          rcases mul_eq_zero.mp this with h | h
          · omega
          · omega
        refine ⟨by rw [h1, hd], ?_⟩
        rw [e1]
        have : b * (a / b + (-a)/b) = - (a % b) := by nlinarith
        rw [hd] at this
        simp at this
        omega
      · have e1 : a.tmod b < 0 := by rw [h2]; omega
        rw [if_pos e1, if_pos e1]
        have key : a / b = -((-a) / b) - 1 ∧ a % b = b - (-a) % b := by
          have h5 : b * (a / b + (-a) / b + 1) = b - (-a) % b - a % b := by nlinarith
          have h6 : a / b + (-a) / b + 1 = 0 := by
            by_contra hne
            rcases lt_or_gt_of_ne hne with h | h
            · have : b * (a / b + (-a) / b + 1) ≤ b * (-1) := by
                apply mul_le_mul_of_nonneg_left _ (le_of_lt hb); omega
              omega
            · have : b * 1 ≤ b * (a / b + (-a) / b + 1) := by
                apply mul_le_mul_of_nonneg_left _ (le_of_lt hb); omega
              omega
          rw [h6] at h5
          constructor
          · omega
          · simp at h5; omega
        rw [h1, h2]
        omega

theorem monthLoop_cons (d : Int) (ds : List Int) (m r : Int) :
    monthLoop (d :: ds) m r = if d ≤ r then monthLoop ds (m + 1) (r - d) else (m, r) := rfl

theorem monthLoop_spec (r : Int) (h0 : 0 ≤ r) (h1 : r ≤ 365) :
    MonthSplit r (monthLoop days_in_month 0 r) := by
  unfold days_in_month
  by_cases h31 : r < 31
  · rw [monthLoop_cons, if_neg (by omega)]; simp only [MonthSplit]; refine ⟨by omega, ?_⟩; left; exact ⟨trivial, trivial, by omega⟩
  rw [monthLoop_cons, if_pos (by omega)]
  by_cases h61 : r < 61
  · rw [monthLoop_cons, if_neg (by omega)]; simp only [MonthSplit]; refine ⟨by omega, ?_⟩; right; left; exact ⟨by norm_num, by omega, by omega⟩
  rw [monthLoop_cons, if_pos (by omega)]
  by_cases h92 : r < 92
  · rw [monthLoop_cons, if_neg (by omega)]; simp only [MonthSplit]; refine ⟨by omega, ?_⟩; right; right; left; exact ⟨by norm_num, by omega, by omega⟩
  rw [monthLoop_cons, if_pos (by omega)]
  by_cases h122 : r < 122
  · rw [monthLoop_cons, if_neg (by omega)]; simp only [MonthSplit]; refine ⟨by omega, ?_⟩; right; right; right; left; exact ⟨by norm_num, by omega, by omega⟩
  rw [monthLoop_cons, if_pos (by omega)]
  by_cases h153 : r < 153
  · rw [monthLoop_cons, if_neg (by omega)]; simp only [MonthSplit]; refine ⟨by omega, ?_⟩; right; right; right; right; left; exact ⟨by norm_num, by omega, by omega⟩
  rw [monthLoop_cons, if_pos (by omega)]
  by_cases h184 : r < 184
  · rw [monthLoop_cons, if_neg (by omega)]; simp only [MonthSplit]; refine ⟨by omega, ?_⟩; right; right; right; right; right; left; exact ⟨by norm_num, by omega, by omega⟩
  rw [monthLoop_cons, if_pos (by omega)]
  by_cases h214 : r < 214
  · rw [monthLoop_cons, if_neg (by omega)]; simp only [MonthSplit]; refine ⟨by omega, ?_⟩; right; right; right; right; right; right; left; exact ⟨by norm_num, by omega, by omega⟩
  rw [monthLoop_cons, if_pos (by omega)]
  by_cases h245 : r < 245
  · rw [monthLoop_cons, if_neg (by omega)]; simp only [MonthSplit]; refine ⟨by omega, ?_⟩; right; right; right; right; right; right; right; left; exact ⟨by norm_num, by omega, by omega⟩
  rw [monthLoop_cons, if_pos (by omega)]
  by_cases h275 : r < 275
  · rw [monthLoop_cons, if_neg (by omega)]; simp only [MonthSplit]; refine ⟨by omega, ?_⟩; right; right; right; right; right; right; right; right; left; exact ⟨by norm_num, by omega, by omega⟩
  rw [monthLoop_cons, if_pos (by omega)]
  by_cases h306 : r < 306
  · rw [monthLoop_cons, if_neg (by omega)]; simp only [MonthSplit]; refine ⟨by omega, ?_⟩; right; right; right; right; right; right; right; right; right; left; exact ⟨by norm_num, by omega, by omega⟩
  rw [monthLoop_cons, if_pos (by omega)]
  by_cases h337 : r < 337
  · rw [monthLoop_cons, if_neg (by omega)]; simp only [MonthSplit]; refine ⟨by omega, ?_⟩; right; right; right; right; right; right; right; right; right; right; left; exact ⟨by norm_num, by omega, by omega⟩
  rw [monthLoop_cons, if_pos (by omega)]
  rw [monthLoop_cons, if_neg (by omega)]; simp only [MonthSplit]; refine ⟨by omega, ?_⟩; right; right; right; right; right; right; right; right; right; right; right; exact ⟨by norm_num, by omega, by omega⟩

theorem year_to_secs_fst (year : Int) :
    (year_to_secs year).1 =
      86400 * (365 * (year - 100) + (year - 100 + 3) / 4 - (year - 100 + 99) / 100
          + (year - 100 + 399) / 400) + 946684800 := by
  obtain ⟨hq, hr⟩ := floor_fix (year - 100) 400 (by decide)
  have hr0 : 0 ≤ (year - 100) % 400 := Int.emod_nonneg _ (by decide)
  unfold year_to_secs
  simp only [hq, hr]
  generalize hY : year - 100 = Y at *
  have t4 : ∀ a : Int, 0 ≤ a → a.tdiv 4 = a / 4 ∧ a.tmod 4 = a % 4 := fun a ha =>
    ⟨Int.tdiv_eq_ediv ha (by decide), Int.tmod_eq_emod ha (by decide)⟩
  split_ifs with c1 c2 c3 c4 c5 c6 <;> dsimp only at * <;>
    simp only [decide_eq_true_eq, not_true_eq_false, reduceCtorEq, Bool.false_eq_true] at * <;>
    first
    | omega
    | (rw [(t4 _ (by omega)).1]; try rw [(t4 _ (by omega)).2] at *; omega)

theorem year_to_secs_snd (year : Int) :
    (year_to_secs year).2 =
       decide ((year - 100) % 4 = 0 ∧ ((year - 100) % 100 ≠ 0 ∨ (year - 100) % 400 = 0)) := by
  obtain ⟨hq, hr⟩ := floor_fix (year - 100) 400 (by decide)
  have hr0 : 0 ≤ (year - 100) % 400 := Int.emod_nonneg _ (by decide)
  unfold year_to_secs
  simp only [hq, hr]
  generalize hY : year - 100 = Y at *
  have t4 : ∀ a : Int, 0 ≤ a → a.tdiv 4 = a / 4 ∧ a.tmod 4 = a % 4 := fun a ha =>
    ⟨Int.tdiv_eq_ediv ha (by decide), Int.tmod_eq_emod ha (by decide)⟩
  split_ifs with c1 c3 c4 c5 c6 <;> dsimp only at * <;>
    first
    | (symm; rw [decide_eq_true_eq]; omega)
    | (symm; rw [decide_eq_false_iff_not]; omega)
    | (rw [(t4 _ (by omega)).2]; congr 1; apply propext; constructor <;> intro h <;> omega)

theorem DAYS_PER_400Y_eq : DAYS_PER_400Y = 146097 := rfl
theorem DAYS_PER_100Y_eq : DAYS_PER_100Y = 36524 := rfl
theorem DAYS_PER_4Y_eq : DAYS_PER_4Y = 1461 := rfl
theorem LEAPOCH_eq : LEAPOCH = 951868800 := rfl

theorem month_to_secs_lit (b : Bool) :
    month_to_secs 0 b = 0 ∧
    month_to_secs 1 b = 2678400 ∧
    (month_to_secs 2 b = if b then 5184000 else 5097600) ∧
    (month_to_secs 3 b = if b then 7862400 else 7776000) ∧
    (month_to_secs 4 b = if b then 10454400 else 10368000) ∧
    (month_to_secs 5 b = if b then 13132800 else 13046400) ∧
    (month_to_secs 6 b = if b then 15724800 else 15638400) ∧
    (month_to_secs 7 b = if b then 18403200 else 18316800) ∧
    (month_to_secs 8 b = if b then 21081600 else 20995200) ∧
    (month_to_secs 9 b = if b then 23673600 else 23587200) ∧
    (month_to_secs 10 b = if b then 26352000 else 26265600) ∧
    (month_to_secs 11 b = if b then 28944000 else 28857600) := by
  cases b <;> decide

theorem leap_count (y q c qc lp : Int) (hy0 : 0 ≤ y) (hy3 : y ≤ 3) (hq0 : 0 ≤ q) (hq3 : q ≤ 24)
    (hc0 : 0 ≤ c) (hc3 : c ≤ 3)
    (hlp : (lp = 1 ∧ y = 0 ∧ (q ≠ 0 ∨ c = 0)) ∨ (lp = 0 ∧ ¬ (y = 0 ∧ (q ≠ 0 ∨ c = 0)))) :
    (y + 4 * q + 100 * c + 400 * qc + 3) / 4 - (y + 4 * q + 100 * c + 400 * qc + 99) / 100
        + (y + 4 * q + 100 * c + 400 * qc + 399) / 400 = 97 * qc + 24 * c + q + 1 - lp ∧
    (((y + 4 * q + 100 * c + 400 * qc) % 4 = 0 ∧
      ((y + 4 * q + 100 * c + 400 * qc) % 100 ≠ 0 ∨ (y + 4 * q + 100 * c + 400 * qc) % 400 = 0))
        ↔ lp = 1) ∧
    (y + 4 * q + 100 * c + 400 * qc + 1 + 3) / 4 - (y + 4 * q + 100 * c + 400 * qc + 1 + 99) / 100
        + (y + 4 * q + 100 * c + 400 * qc + 1 + 399) / 400 = 97 * qc + 24 * c + q + 1 := by
  have a1 : (y + 4 * q + 100 * c + 400 * qc + 3) / 4 = q + 25 * c + 100 * qc + (y + 3) / 4 := by omega
  have a2 : (y + 4 * q + 100 * c + 400 * qc + 99) / 100 = c + 4 * qc + (y + 4 * q + 99) / 100 := by omega
  have a3 : (y + 4 * q + 100 * c + 400 * qc + 399) / 400 = qc + (y + 4 * q + 100 * c + 399) / 400 := by omega
  have b1 : (y + 4 * q + 100 * c + 400 * qc) % 4 = y := by omega
  have b2 : (y + 4 * q + 100 * c + 400 * qc) % 100 = y + 4 * q := by omega
  have b3 : (y + 4 * q + 100 * c + 400 * qc) % 400 = y + 4 * q + 100 * c := by omega
  have k4 : (y + 4 * q + 100 * c + 400 * qc + 1 + 3) / 4 = q + 25 * c + 100 * qc + 1 := by omega
  have k5 : (y + 4 * q + 100 * c + 400 * qc + 1 + 99) / 100 = c + 4 * qc + 1 := by omega
  have k6 : (y + 4 * q + 100 * c + 400 * qc + 1 + 399) / 400 = qc + 1 := by omega
  rw [a1, a2, a3, b1, b2, b3, k4, k5, k6]
  refine ⟨?_, ?_, by omega⟩
  · by_cases h1 : y = 0
    · subst h1
      by_cases h2 : q = 0
      · subst h2
        by_cases h3 : c = 0
        · subst h3; omega
        · have : (0 + 4 * 0 + 100 * c + 399) / 400 = 1 := by omega
          omega
      · have e1 : (0 + 4 * q + 99) / 100 = 1 := by omega
        have e2 : (0 + 4 * q + 100 * c + 399) / 400 = 1 := by omega
        omega
    · have e0 : (y + 3) / 4 = 1 := by omega
      have e1 : (y + 4 * q + 99) / 100 = 1 := by omega
      have e2 : (y + 4 * q + 100 * c + 399) / 400 = 1 := by omega
      omega
  · omega

theorem leap_next_iff (y q c : Int) (hy0 : 0 ≤ y) (hy3 : y ≤ 3) (hq0 : 0 ≤ q) (hq3 : q ≤ 24)
    (hc0 : 0 ≤ c) (hc3 : c ≤ 3) :
    ((y + 1) % 4 = 0 ∧ ((y + 1 + 4 * q) % 100 ≠ 0 ∨ (y + 1 + 4 * q + 100 * c) % 400 = 0)) ↔
      (y = 3 ∧ (q < 24 ∨ c = 3)) := by
  by_cases h : y = 3
  · subst h
    by_cases h2 : q < 24
    · have : (3 + 1 + 4 * q) % 100 ≠ 0 := by omega
      exact ⟨fun _ => ⟨rfl, Or.inl h2⟩, fun _ => ⟨by decide, Or.inl this⟩⟩
    · have hq : q = 24 := by omega
      subst hq
      by_cases h3 : c = 3
      · subst h3; decide
      · have : (3 + 1 + 4 * 24 + 100 * c) % 400 ≠ 0 := by omega
        constructor
        · rintro ⟨_, h | h⟩
          · exact absurd (by decide) h
          · exact absurd h this
        · rintro ⟨_, h | h⟩
          · exact absurd h h2
          · exact absurd h h3
  · have : (y + 1) % 4 ≠ 0 := by omega
    exact ⟨fun hh => absurd hh.1 this, fun hh => absurd hh.1 h⟩

theorem leap_next (y q c qc : Int) (hy0 : 0 ≤ y) (hy3 : y ≤ 3) (hq0 : 0 ≤ q) (hq3 : q ≤ 24)
    (hc0 : 0 ≤ c) (hc3 : c ≤ 3) :
    (year_to_secs (y + 4 * q + 100 * c + 400 * qc + 100 + 1)).2 =
      decide (y = 3 ∧ (q < 24 ∨ c = 3)) := by
  rw [year_to_secs_snd, decide_eq_decide, show y + 4 * q + 100 * c + 400 * qc + 100 + 1 - 100
    = y + 4 * q + 100 * c + 400 * qc + 1 by ring]
  have c1 : (y + 4 * q + 100 * c + 400 * qc + 1) % 4 = (y + 1) % 4 := by omega
  have c2 : (y + 4 * q + 100 * c + 400 * qc + 1) % 100 = (y + 1 + 4 * q) % 100 := by omega
  have c3 : (y + 4 * q + 100 * c + 400 * qc + 1) % 400 = (y + 1 + 4 * q + 100 * c) % 400 := by omega
  rw [c1, c2, c3]
  exact leap_next_iff y q c hy0 hy3 hq0 hq3 hc0 hc3

theorem tm_to_secs_of_valid (tm : mytm) (h0 : 0 ≤ tm.tm_mon) (h1 : tm.tm_mon ≤ 11) :
    tm_to_secs tm = (year_to_secs tm.tm_year).1 + month_to_secs tm.tm_mon (year_to_secs tm.tm_year).2
      + 86400 * (tm.tm_mday - 1) + 3600 * tm.tm_hour + 60 * tm.tm_min + tm.tm_sec := by
  have h : ¬ (tm.tm_mon ≥ 12 ∨ tm.tm_mon < 0) := by omega
  simp [tm_to_secs, h]

theorem secs_to_tm_roundtrip (t : Int) (hlo : -1000000000000 ≤ t) (hhi : t ≤ 1000000000000) :
    ∃ tm, secs_to_tm t = some tm ∧ tm_to_secs tm = t ∧ ValidTm tm := by
  obtain ⟨hd, hs⟩ := floor_fix (t - LEAPOCH) 86400 (by decide)
  have hs0 : 0 ≤ (t - LEAPOCH) % 86400 := Int.emod_nonneg _ (by decide)
  have hs1 : (t - LEAPOCH) % 86400 < 86400 := Int.emod_lt_of_pos _ (by decide)
  have hds : (t - LEAPOCH) % 86400 + 86400 * ((t - LEAPOCH) / 86400) = t - LEAPOCH :=
    Int.emod_add_ediv _ _
  unfold secs_to_tm
  rw [LEAPOCH_eq] at *
  rw [if_neg (by omega)]
  simp only [hd, hs]
  clear hd hs
  generalize (t - 951868800) / 86400 = days at *
  generalize (t - 951868800) % 86400 = remsecs at *
  obtain ⟨hq, hr⟩ := floor_fix days DAYS_PER_400Y (by decide)
  simp only [hq, hr]
  clear hq hr
  have hr0 : 0 ≤ days % DAYS_PER_400Y := Int.emod_nonneg _ (by decide)
  have hr1 : days % DAYS_PER_400Y < DAYS_PER_400Y := Int.emod_lt_of_pos _ (by decide)
  have hqr : days % DAYS_PER_400Y + DAYS_PER_400Y * (days / DAYS_PER_400Y) = days :=
    Int.emod_add_ediv _ _
  generalize days / DAYS_PER_400Y = qc at *
  generalize days % DAYS_PER_400Y = rd1 at *
  rw [DAYS_PER_400Y_eq] at hr1 hqr
  simp only [DAYS_PER_100Y_eq, DAYS_PER_4Y_eq]
  -- centuries
  have e1 : rd1.tdiv 36524 = rd1 / 36524 := Int.tdiv_eq_ediv hr0 (by decide)
  simp only [e1]
  have hc : ∃ c, (if rd1 / 36524 = 4 then rd1 / 36524 - 1 else rd1 / 36524) = c ∧ 0 ≤ c ∧ c ≤ 3 ∧
      0 ≤ rd1 - c * 36524 ∧ rd1 - c * 36524 ≤ 36524 ∧ (rd1 - c * 36524 = 36524 → c = 3) := by
    refine ⟨_, rfl, ?_⟩
    split_ifs <;> omega
  obtain ⟨c, hc, hc0, hc3, h20, h21, h22⟩ := hc
  simp only [hc]
  clear hc e1
  generalize hrd2 : rd1 - c * 36524 = rd2 at *
  -- four-year cycles
  have e2 : rd2.tdiv 1461 = rd2 / 1461 := Int.tdiv_eq_ediv h20 (by decide)
  simp only [e2]
  have hq : ∃ q, (if rd2 / 1461 = 25 then rd2 / 1461 - 1 else rd2 / 1461) = q ∧ 0 ≤ q ∧ q ≤ 24 ∧
      0 ≤ rd2 - q * 1461 ∧ rd2 - q * 1461 ≤ 1461 ∧ (rd2 - q * 1461 = 1461 → q = 24 ∧ c = 3) ∧
      (q = 24 → c < 3 → rd2 - q * 1461 < 1460) := by
    refine ⟨_, rfl, ?_⟩
    split_ifs <;> omega
  obtain ⟨q, hq, hq0, hq3, h30, h31, h32, h33⟩ := hq
  simp only [hq]
  clear hq e2
  generalize hrd3 : rd2 - q * 1461 = rd3 at *
  -- single years
  have e3 : rd3.tdiv 365 = rd3 / 365 := Int.tdiv_eq_ediv h30 (by decide)
  simp only [e3]
  have hy : ∃ y, (if rd3 / 365 = 4 then rd3 / 365 - 1 else rd3 / 365) = y ∧ 0 ≤ y ∧ y ≤ 3 ∧
      0 ≤ rd3 - y * 365 ∧ rd3 - y * 365 ≤ 365 ∧
      (rd3 - y * 365 = 365 → y = 3 ∧ (q < 24 ∨ c = 3)) := by
    refine ⟨_, rfl, ?_⟩
    split_ifs <;> omega
  obtain ⟨y, hy, hy0, hy3, h40, h41, h42⟩ := hy
  simp only [hy]
  clear hy e3
  generalize hrd4 : rd3 - y * 365 = rd4 at *
  have hlp : ∃ lp : Int, (lp = 1 ∧ y = 0 ∧ (q ≠ 0 ∨ c = 0)) ∨ (lp = 0 ∧ ¬ (y = 0 ∧ (q ≠ 0 ∨ c = 0))) := by
    by_cases hh : y = 0 ∧ (q ≠ 0 ∨ c = 0)
    · exact ⟨1, Or.inl ⟨rfl, hh⟩⟩
    · exact ⟨0, Or.inr ⟨rfl, hh⟩⟩
  obtain ⟨lp, hlp⟩ := hlp
  obtain ⟨l1, l2, l3⟩ := leap_count y q c qc lp hy0 hy3 hq0 hq3 hc0 hc3 hlp
  have f1 : (year_to_secs (y + 4 * q + 100 * c + 400 * qc + 100)).1 =
      86400 * (365 * (y + 4 * q + 100 * c + 400 * qc) + 97 * qc + 24 * c + q + 1 - lp) + 946684800 := by
    rw [year_to_secs_fst, add_sub_cancel_right]; omega
  have f2 : (year_to_secs (y + 4 * q + 100 * c + 400 * qc + 100)).2 = decide (lp = 1) := by
    rw [year_to_secs_snd, decide_eq_decide, add_sub_cancel_right]; exact l2
  have f3 : (year_to_secs (y + 4 * q + 100 * c + 400 * qc + 100 + 1)).1 =
      86400 * (365 * (y + 4 * q + 100 * c + 400 * qc + 1) + 97 * qc + 24 * c + q + 1) + 946684800 := by
    rw [year_to_secs_fst, show y + 4 * q + 100 * c + 400 * qc + 100 + 1 - 100
      = y + 4 * q + 100 * c + 400 * qc + 1 by ring]
    omega
  have f4 := leap_next y q c qc hy0 hy3 hq0 hq3 hc0 hc3
  clear l1 l2 l3
  have hm := monthLoop_spec rd4 h40 h41
  generalize monthLoop days_in_month 0 rd4 = p at *
  obtain ⟨m, d⟩ := p
  simp only [MonthSplit] at hm
  obtain ⟨hd0, hm⟩ := hm
  rw [if_neg (by omega)]
  have e4 : remsecs.tmod 60 = remsecs % 60 := Int.tmod_eq_emod hs0 (by decide)
  have e5 : remsecs.tdiv 60 = remsecs / 60 := Int.tdiv_eq_ediv hs0 (by decide)
  have e6 : (remsecs / 60).tmod 60 = (remsecs / 60) % 60 := Int.tmod_eq_emod (by omega) (by decide)
  have e7 : remsecs.tdiv 3600 = remsecs / 3600 := Int.tdiv_eq_ediv hs0 (by decide)
  have k7 : 3600 * (remsecs / 3600) + 60 * (remsecs / 60 % 60) + remsecs % 60 = remsecs := by omega
  rcases hm with h | h | h | h | h | h | h | h | h | h | h | h <;>
    obtain ⟨rfl, h1, h2⟩ := h <;>
    refine ⟨_, rfl, ?_, ?_⟩ <;>
    first
    | (rw [tm_to_secs_of_valid _ (by norm_num) (by norm_num)]
       norm_num [month_to_secs_lit, f1, f2, f3, e4, e5, e6, e7]
       omega)
    | (simp only [ValidTm, e4, e5, e6, e7]
       norm_num [monthLength]
       try simp only [f4, decide_eq_true_eq]
       omega)

theorem year_to_secs_succ (a : Int) :
    (year_to_secs (a + 1)).1 =
      (year_to_secs a).1 + 86400 * (365 + if (year_to_secs a).2 then 1 else 0) := by
  rw [year_to_secs_fst, year_to_secs_fst, year_to_secs_snd]
  simp only [decide_eq_true_eq]
  split_ifs <;> omega

theorem year_to_secs_mono (a b : Int) (h : a ≤ b) :
    (year_to_secs a).1 + 31536000 * (b - a) ≤ (year_to_secs b).1 := by
  refine @Int.le_induction (fun n => (year_to_secs a).1 + 31536000 * (n - a) ≤ (year_to_secs n).1) a
    (by simp) (fun n _ ih => ?_) b h
  simp only [] at ih ⊢
  rw [year_to_secs_succ]
  split_ifs <;> omega

/-- Seconds from the start of the year to the end of a valid date stay inside the year. -/
theorem tm_to_secs_bounds (tm : mytm) (hv : ValidTm tm) :
    (year_to_secs tm.tm_year).1 ≤ tm_to_secs tm ∧
      tm_to_secs tm < (year_to_secs (tm.tm_year + 1)).1 := by
  obtain ⟨h1, h2, h3, h4, h5, h6, h7, h8, h9, h10⟩ := hv
  rw [tm_to_secs_of_valid tm h9 h10, year_to_secs_succ]
  generalize (year_to_secs tm.tm_year).2 = leap at *
  generalize (year_to_secs tm.tm_year).1 = y0 at *
  have hm : tm.tm_mon = 0 ∨ tm.tm_mon = 1 ∨ tm.tm_mon = 2 ∨ tm.tm_mon = 3 ∨ tm.tm_mon = 4 ∨
      tm.tm_mon = 5 ∨ tm.tm_mon = 6 ∨ tm.tm_mon = 7 ∨ tm.tm_mon = 8 ∨ tm.tm_mon = 9 ∨
      tm.tm_mon = 10 ∨ tm.tm_mon = 11 := by omega
  rcases hm with h | h | h | h | h | h | h | h | h | h | h | h <;> rw [h] at h8 ⊢ <;>
    cases leap <;> norm_num [monthLength, month_to_secs_lit] at h8 ⊢ <;> omega
theorem month_row_mono (l amon ae alen bmon be blen : Int) (hl0 : 0 ≤ l) (hl1 : l ≤ 1)
    (ha : MonthRow l amon ae alen) (hb : MonthRow l bmon be blen) (h : amon < bmon) :
    ae + alen ≤ be := by
  unfold MonthRow at ha hb
  rcases ha with h1 | h1 | h1 | h1 | h1 | h1 | h1 | h1 | h1 | h1 | h1 | h1 <;>
    obtain ⟨rfl, rfl, rfl⟩ := h1 <;>
    rcases hb with h2 | h2 | h2 | h2 | h2 | h2 | h2 | h2 | h2 | h2 | h2 | h2 <;>
    obtain ⟨rfl, rfl, rfl⟩ := h2 <;>
    omega

theorem month_row_inj (l amon ae alen be blen : Int)
    (ha : MonthRow l amon ae alen) (hb : MonthRow l amon be blen) :
    ae = be ∧ alen = blen := by
  unfold MonthRow at ha hb
  rcases ha with h1 | h1 | h1 | h1 | h1 | h1 | h1 | h1 | h1 | h1 | h1 | h1 <;>
    obtain ⟨h1, rfl, rfl⟩ := h1 <;>
    rcases hb with h2 | h2 | h2 | h2 | h2 | h2 | h2 | h2 | h2 | h2 | h2 | h2 <;>
    obtain ⟨h2, rfl, rfl⟩ := h2 <;>
    omega

theorem monthLength_le (mon : Int) (leap : Bool) : monthLength mon leap ≤ 31 := by
  unfold monthLength
  cases leap <;> split_ifs <;> decide

theorem month_cases (tm : mytm) (hv : ValidTm tm) :
    ∃ e len : Int, month_to_secs tm.tm_mon (year_to_secs tm.tm_year).2 = 86400 * e ∧
      tm.tm_mday ≤ len ∧
      MonthRow (if (year_to_secs tm.tm_year).2 then 1 else 0) tm.tm_mon e len := by
  obtain ⟨h1, h2, h3, h4, h5, h6, h7, h8, h9, h10⟩ := hv
  generalize (year_to_secs tm.tm_year).2 = leap at *
  have hm : tm.tm_mon = 0 ∨ tm.tm_mon = 1 ∨ tm.tm_mon = 2 ∨ tm.tm_mon = 3 ∨ tm.tm_mon = 4 ∨
      tm.tm_mon = 5 ∨ tm.tm_mon = 6 ∨ tm.tm_mon = 7 ∨ tm.tm_mon = 8 ∨ tm.tm_mon = 9 ∨
      tm.tm_mon = 10 ∨ tm.tm_mon = 11 := by omega
  have lit := month_to_secs_lit leap
  unfold MonthRow
  rcases hm with h | h | h | h | h | h | h | h | h | h | h | h
  · rw [h] at h8 ⊢
    refine ⟨0, 31, ?_, ?_, ?_⟩
    · cases leap <;> simp [lit]
    · cases leap <;> simp [monthLength] at h8 ⊢ <;> omega
    · left; exact ⟨rfl, rfl, rfl⟩
  · rw [h] at h8 ⊢
    refine ⟨31, 28 + (if leap = true then 1 else 0), ?_, ?_, ?_⟩
    · cases leap <;> simp [lit]
    · cases leap <;> simp [monthLength] at h8 ⊢ <;> omega
    · right; left; exact ⟨rfl, rfl, rfl⟩
  · rw [h] at h8 ⊢
    refine ⟨59 + (if leap = true then 1 else 0), 31, ?_, ?_, ?_⟩
    · cases leap <;> simp [lit]
    · cases leap <;> simp [monthLength] at h8 ⊢ <;> omega
    · right; right; left; exact ⟨rfl, rfl, rfl⟩
  · rw [h] at h8 ⊢
    refine ⟨90 + (if leap = true then 1 else 0), 30, ?_, ?_, ?_⟩
    · cases leap <;> simp [lit]
    · cases leap <;> simp [monthLength] at h8 ⊢ <;> omega
    · right; right; right; left; exact ⟨rfl, rfl, rfl⟩
  · rw [h] at h8 ⊢
    refine ⟨120 + (if leap = true then 1 else 0), 31, ?_, ?_, ?_⟩
    · cases leap <;> simp [lit]
    · cases leap <;> simp [monthLength] at h8 ⊢ <;> omega
    · right; right; right; right; left; exact ⟨rfl, rfl, rfl⟩
  · rw [h] at h8 ⊢
    refine ⟨151 + (if leap = true then 1 else 0), 30, ?_, ?_, ?_⟩
    · cases leap <;> simp [lit]
    · cases leap <;> simp [monthLength] at h8 ⊢ <;> omega
    · right; right; right; right; right; left; exact ⟨rfl, rfl, rfl⟩
  · rw [h] at h8 ⊢
    refine ⟨181 + (if leap = true then 1 else 0), 31, ?_, ?_, ?_⟩
    · cases leap <;> simp [lit]
    · cases leap <;> simp [monthLength] at h8 ⊢ <;> omega
    · right; right; right; right; right; right; left; exact ⟨rfl, rfl, rfl⟩
  · rw [h] at h8 ⊢
    refine ⟨212 + (if leap = true then 1 else 0), 31, ?_, ?_, ?_⟩
    · cases leap <;> simp [lit]
    · cases leap <;> simp [monthLength] at h8 ⊢ <;> omega
    · right; right; right; right; right; right; right; left; exact ⟨rfl, rfl, rfl⟩
  · rw [h] at h8 ⊢
    refine ⟨243 + (if leap = true then 1 else 0), 30, ?_, ?_, ?_⟩
    · cases leap <;> simp [lit]
    · cases leap <;> simp [monthLength] at h8 ⊢ <;> omega
    · right; right; right; right; right; right; right; right; left; exact ⟨rfl, rfl, rfl⟩
  · rw [h] at h8 ⊢
    refine ⟨273 + (if leap = true then 1 else 0), 31, ?_, ?_, ?_⟩
    · cases leap <;> simp [lit]
    · cases leap <;> simp [monthLength] at h8 ⊢ <;> omega
    · right; right; right; right; right; right; right; right; right; left; exact ⟨rfl, rfl, rfl⟩
  · rw [h] at h8 ⊢
    refine ⟨304 + (if leap = true then 1 else 0), 30, ?_, ?_, ?_⟩
    · cases leap <;> simp [lit]
    · cases leap <;> simp [monthLength] at h8 ⊢ <;> omega
    · right; right; right; right; right; right; right; right; right; right; left; exact ⟨rfl, rfl, rfl⟩
  · rw [h] at h8 ⊢
    refine ⟨334 + (if leap = true then 1 else 0), 31, ?_, ?_, ?_⟩
    · cases leap <;> simp [lit]
    · cases leap <;> simp [monthLength] at h8 ⊢ <;> omega
    · right; right; right; right; right; right; right; right; right; right; right; exact ⟨rfl, rfl, rfl⟩

theorem tm_to_secs_le_of_key_le (a b : mytm) (ha : ValidTm a) (hb : ValidTm b)
    (hk : tmKey a ≤ tmKey b) : tm_to_secs a ≤ tm_to_secs b := by
  have ba := tm_to_secs_bounds a ha
  have bb := tm_to_secs_bounds b hb
  have la := monthLength_le a.tm_mon (year_to_secs a.tm_year).2
  have lb := monthLength_le b.tm_mon (year_to_secs b.tm_year).2
  obtain ⟨ea, lena, hea, hla, ca⟩ := month_cases a ha
  obtain ⟨eb, lenb, heb, hlb, cb⟩ := month_cases b hb
  obtain ⟨a1, a2, a3, a4, a5, a6, a7, a8, a9, a10⟩ := ha
  obtain ⟨b1, b2, b3, b4, b5, b6, b7, b8, b9, b10⟩ := hb
  unfold tmKey at hk
  rcases lt_trichotomy a.tm_year b.tm_year with hy | hy | hy
  · have := year_to_secs_mono (a.tm_year + 1) b.tm_year (by omega)
    omega
  · rw [tm_to_secs_of_valid a a9 a10, tm_to_secs_of_valid b b9 b10, hea, heb]
    rw [hy] at ca ⊢
    generalize (year_to_secs b.tm_year).2 = leap at *
    generalize (year_to_secs b.tm_year).1 = y0 at *
    have hl : ∃ l : Int, (if leap = true then (1:Int) else 0) = l ∧ 0 ≤ l ∧ l ≤ 1 := by
      cases leap <;> simp
    obtain ⟨l, hl, hl0, hl1⟩ := hl
    rw [hl] at ca cb
    rcases lt_trichotomy a.tm_mon b.tm_mon with hm | hm | hm
    · have := month_row_mono l _ _ _ _ _ _ hl0 hl1 ca cb hm
      omega
    · rw [hm] at ca
      obtain ⟨e1, e2⟩ := month_row_inj l _ _ _ _ _ ca cb
      omega
    · omega
  · omega

/-! ## Text of a timestamp: formatting, parsing, ordering -/

theorem decimalDigits_lt (fuel n : Nat) (h : n < 10) :
    decimalDigits (fuel + 1) n = [Nat.digitChar n] := by
  simp [decimalDigits, h]

theorem decimalDigits_ge (fuel n : Nat) (h : ¬ n < 10) :
    decimalDigits (fuel + 1) n = decimalDigits fuel (n / 10) ++ [Nat.digitChar (n % 10)] := by
  simp [decimalDigits, h]

theorem fmtDecimal_four (n : Nat) (h0 : 1000 ≤ n) (h1 : n ≤ 9999) :
    fmtDecimal n = [Nat.digitChar (n / 1000), Nat.digitChar (n / 100 % 10),
      Nat.digitChar (n / 10 % 10), Nat.digitChar (n % 10)] := by
  have a1 : ¬ n < 10 := by omega
  have a2 : ¬ n / 10 < 10 := by omega
  have a3 : ¬ n / 10 / 10 < 10 := by omega
  have a4 : n / 10 / 10 / 10 < 10 := by omega
  have b1 : n / 10 / 10 / 10 = n / 1000 := by omega
  have b2 : n / 10 / 10 % 10 = n / 100 % 10 := by omega
  unfold fmtDecimal
  rw [show (20 : Nat) = 16 + 1 + 1 + 1 + 1 from rfl, decimalDigits_ge _ _ a1,
    decimalDigits_ge _ _ a2, decimalDigits_ge _ _ a3, decimalDigits_lt _ _ a4, b1, b2]
  rfl

theorem fmtDecimal_two (n : Nat) (h0 : 10 ≤ n) (h1 : n ≤ 99) :
    fmtDecimal n = [Nat.digitChar (n / 10), Nat.digitChar (n % 10)] := by
  have a1 : ¬ n < 10 := by omega
  have a2 : n / 10 < 10 := by omega
  unfold fmtDecimal
  rw [show (20 : Nat) = 18 + 1 + 1 from rfl, decimalDigits_ge _ _ a1, decimalDigits_lt _ _ a2]
  rfl

theorem fmtInt_four (x : Int) (h0 : 1000 ≤ x) (h1 : x ≤ 9999) :
    fmtInt x = [Nat.digitChar (x.toNat / 1000), Nat.digitChar (x.toNat / 100 % 10),
      Nat.digitChar (x.toNat / 10 % 10), Nat.digitChar (x.toNat % 10)] := by
  unfold fmtInt
  rw [if_neg (by omega), fmtDecimal_four _ (by omega) (by omega)]

theorem fmtPad2_two (x : Int) (h0 : 0 ≤ x) (h1 : x ≤ 99) :
    fmtPad2 x = [Nat.digitChar (x.toNat / 10), Nat.digitChar (x.toNat % 10)] := by
  unfold fmtPad2
  by_cases h : x < 10
  · rw [if_pos ⟨h0, h⟩]
    have e1 : x.toNat / 10 = 0 := by omega
    have e2 : x.toNat % 10 = x.toNat := by omega
    rw [e1, e2]; rfl
  · rw [if_neg (by omega)]
    unfold fmtInt
    rw [if_neg (by omega)]
    rw [fmtDecimal_two _ (by omega) (by omega)]

theorem fmtDecimal_one (n : Nat) (h1 : n ≤ 9) : fmtDecimal n = [Nat.digitChar n] := by
  unfold fmtDecimal
  rw [show (20 : Nat) = 19 + 1 from rfl, decimalDigits_lt _ _ (by omega)]

theorem fmtDecimal_three (n : Nat) (h0 : 100 ≤ n) (h1 : n ≤ 999) :
    fmtDecimal n = [Nat.digitChar (n / 100), Nat.digitChar (n / 10 % 10), Nat.digitChar (n % 10)] := by
  have a1 : ¬ n < 10 := by omega
  have a2 : ¬ n / 10 < 10 := by omega
  have a3 : n / 10 / 10 < 10 := by omega
  have b1 : n / 10 / 10 = n / 100 := by omega
  unfold fmtDecimal
  rw [show (20 : Nat) = 17 + 1 + 1 + 1 from rfl, decimalDigits_ge _ _ a1,
    decimalDigits_ge _ _ a2, decimalDigits_lt _ _ a3, b1]
  rfl

theorem text19_eq (Y M D h m s : Nat) (h0 : 1000 ≤ Y) (h1 : Y ≤ 9999) :
    text19 Y M D h m s = fmtDecimal Y ++ text15 M D h m s := by
  rw [fmtDecimal_four Y h0 h1]
  rfl

/-- For a year of at most four digits the whole text fits the 20-byte buffer. -/
theorem strftime_textV (tm : mytm) (hy0 : 0 ≤ tm.tm_year + 1900) (hy1 : tm.tm_year + 1900 ≤ 9999)
    (hm0 : 0 ≤ tm.tm_mon + 1) (hm1 : tm.tm_mon + 1 ≤ 99) (hd0 : 0 ≤ tm.tm_mday) (hd1 : tm.tm_mday ≤ 99)
    (hh0 : 0 ≤ tm.tm_hour) (hh1 : tm.tm_hour ≤ 99) (hi0 : 0 ≤ tm.tm_min) (hi1 : tm.tm_min ≤ 99)
    (hs0 : 0 ≤ tm.tm_sec) (hs1 : tm.tm_sec ≤ 99) :
    strftime 20 tm = tmTextV tm := by
  unfold strftime strftime_pieces tmTextV
  rw [fmtPad2_two _ hm0 hm1, fmtPad2_two _ hd0 hd1, fmtPad2_two _ hh0 hh1,
    fmtPad2_two _ hi0 hi1, fmtPad2_two _ hs0 hs1]
  unfold fmtInt
  rw [if_neg (by omega)]
  have hY : (tm.tm_year + 1900).toNat ≤ 9999 := by omega
  generalize (tm.tm_year + 1900).toNat = Y at *
  by_cases c1 : Y ≤ 9
  · rw [fmtDecimal_one Y c1]
    simp [strftime_fill, text15]
  by_cases c2 : Y ≤ 99
  · rw [fmtDecimal_two Y (by omega) c2]
    simp [strftime_fill, text15]
  by_cases c3 : Y ≤ 999
  · rw [fmtDecimal_three Y (by omega) c3]
    simp [strftime_fill, text15]
  · rw [fmtDecimal_four Y (by omega) hY]
    simp [strftime_fill, text15]

theorem fmtDecimal_five (n : Nat) (h0 : 10000 ≤ n) (h1 : n ≤ 99999) :
    fmtDecimal n = [Nat.digitChar (n / 10000), Nat.digitChar (n / 1000 % 10),
      Nat.digitChar (n / 100 % 10), Nat.digitChar (n / 10 % 10), Nat.digitChar (n % 10)] := by
  have a1 : ¬ n < 10 := by omega
  have a2 : ¬ n / 10 < 10 := by omega
  have a3 : ¬ n / 10 / 10 < 10 := by omega
  have a4 : ¬ n / 10 / 10 / 10 < 10 := by omega
  have a5 : n / 10 / 10 / 10 / 10 < 10 := by omega
  have b1 : n / 10 / 10 / 10 / 10 = n / 10000 := by omega
  have b2 : n / 10 / 10 / 10 % 10 = n / 1000 % 10 := by omega
  have b3 : n / 10 / 10 % 10 = n / 100 % 10 := by omega
  unfold fmtDecimal
  rw [show (20 : Nat) = 15 + 1 + 1 + 1 + 1 + 1 from rfl, decimalDigits_ge _ _ a1,
    decimalDigits_ge _ _ a2, decimalDigits_ge _ _ a3, decimalDigits_ge _ _ a4,
    decimalDigits_lt _ _ a5, b1, b2, b3]
  rfl

/-- For a year of five digits the seconds no longer fit the 20-byte buffer: the text ends
after the second colon. -/
theorem strftime_textV_cut (tm : mytm) (hy0 : 10000 ≤ tm.tm_year + 1900)
    (hy1 : tm.tm_year + 1900 ≤ 99999)
    (hm0 : 0 ≤ tm.tm_mon + 1) (hm1 : tm.tm_mon + 1 ≤ 99) (hd0 : 0 ≤ tm.tm_mday) (hd1 : tm.tm_mday ≤ 99)
    (hh0 : 0 ≤ tm.tm_hour) (hh1 : tm.tm_hour ≤ 99) (hi0 : 0 ≤ tm.tm_min) (hi1 : tm.tm_min ≤ 99)
    (hs0 : 0 ≤ tm.tm_sec) (hs1 : tm.tm_sec ≤ 99) :
    strftime 20 tm = fmtDecimal (tm.tm_year + 1900).toNat ++
      (text15 (tm.tm_mon + 1).toNat tm.tm_mday.toNat tm.tm_hour.toNat tm.tm_min.toNat
        tm.tm_sec.toNat).take 13 := by
  unfold strftime strftime_pieces
  rw [fmtPad2_two _ hm0 hm1, fmtPad2_two _ hd0 hd1, fmtPad2_two _ hh0 hh1,
    fmtPad2_two _ hi0 hi1, fmtPad2_two _ hs0 hs1]
  unfold fmtInt
  rw [if_neg (by omega)]
  have hY0 : 10000 ≤ (tm.tm_year + 1900).toNat := by omega
  have hY : (tm.tm_year + 1900).toNat ≤ 99999 := by omega
  generalize (tm.tm_year + 1900).toNat = Y at *
  rw [fmtDecimal_five Y hY0 hY]
  simp [strftime_fill, text15]

theorem digitChar_isDigit (d : Nat) (h : d < 10) : (Nat.digitChar d).isDigit = true := by
  interval_cases d <;> rfl

theorem digitChar_toNat (d : Nat) (h : d < 10) : (Nat.digitChar d).toNat = 48 + d := by
  interval_cases d <;> rfl

theorem isDigit_not_space (c : Char) (h : c.isDigit = true) : isspace c = false := by
  have ne : ∀ d : Char, d.isDigit = false → decide (c = d) = false := by
    intro d hd
    rw [decide_eq_false_iff_not]
    rintro rfl
    rw [h] at hd
    exact absurd hd (by decide)
  unfold isspace
  rw [ne ' ' (by decide), ne '\t' (by decide), ne '\n' (by decide), ne '\x0b' (by decide),
    ne '\x0c' (by decide), ne '\r' (by decide)]
  rfl

theorem isDigit_not_sign (c : Char) (h : c.isDigit = true) : c ≠ '-' ∧ c ≠ '+' := by
  constructor <;> rintro rfl <;> exact absurd h (by decide)

theorem scanDigits_digit (d : Nat) (h : d < 10) (cs : List Char) (acc : Nat) :
    scanDigits (Nat.digitChar d :: cs) acc = scanDigits cs (acc * 10 + d) := by
  simp [scanDigits, digitChar_isDigit d h, digitChar_toNat d h]

theorem scanDigits_stop (c : Char) (h : c.isDigit = false) (cs : List Char) (acc : Nat) :
    scanDigits (c :: cs) acc = (acc, c :: cs) := by
  simp [scanDigits, h]

theorem scanHu_digit (c : Char) (cs : List Char) (h : c.isDigit = true) :
    scanHu (c :: cs) =
      some (toUInt16 (if (scanDigits (c :: cs) 0).1 > 18446744073709551615
          then (18446744073709551615 : Int) else ((scanDigits (c :: cs) 0).1 : Int)),
        (scanDigits (c :: cs) 0).2) := by
  obtain ⟨n1, n2⟩ := isDigit_not_sign c h
  have hs := isDigit_not_space c h
  have e1 : skipSpaces (c :: cs) = c :: cs := by simp [skipSpaces, hs]
  simp [scanHu, e1, n1, n2, h]

/-- Reading back the decimal digits of `n`: the scanner continues after them with the
accumulator shifted by their number and increased by `n`. -/
theorem scanDigits_decimalDigits (fuel : Nat) :
    ∀ n : Nat, n < 10 ^ fuel → ∀ rest : List Char,
      ∃ k : Nat, ∀ acc : Nat,
        scanDigits (decimalDigits fuel n ++ rest) acc = scanDigits rest (acc * 10 ^ k + n) := by
  induction fuel with
  | zero =>
    intro n hn rest
    refine ⟨0, fun acc => ?_⟩
    have : n = 0 := by simpa using hn
    subst this
    simp [decimalDigits]
  | succ f ih =>
    intro n hn rest
    by_cases h : n < 10
    · refine ⟨1, fun acc => ?_⟩
      rw [decimalDigits_lt f n h]
      simp only [List.singleton_append, pow_one]
      exact scanDigits_digit n h rest acc
    · obtain ⟨k, hk⟩ := ih (n / 10) (by rw [pow_succ] at hn; omega)
        (Nat.digitChar (n % 10) :: rest)
      refine ⟨k + 1, fun acc => ?_⟩
      rw [decimalDigits_ge f n h, List.append_assoc, List.singleton_append, hk acc,
        scanDigits_digit (n % 10) (by omega) rest]
      congr 1
      rw [pow_succ]
      have := Nat.div_add_mod n 10
      nlinarith

theorem decimalDigits_head (fuel n : Nat) :
    ∃ c tl, decimalDigits (fuel + 1) n = c :: tl ∧ c.isDigit = true := by
  induction fuel generalizing n with
  | zero =>
    by_cases h : n < 10
    · exact ⟨_, [], decimalDigits_lt 0 n h, digitChar_isDigit n h⟩
    · refine ⟨Nat.digitChar (n % 10), [], ?_, digitChar_isDigit _ (by omega)⟩
      rw [decimalDigits_ge 0 n h]
      rfl
  | succ f ih =>
    by_cases h : n < 10
    · exact ⟨_, [], decimalDigits_lt _ n h, digitChar_isDigit n h⟩
    · obtain ⟨c, tl, e, hc⟩ := ih (n / 10)
      refine ⟨c, tl ++ [Nat.digitChar (n % 10)], ?_, hc⟩
      rw [decimalDigits_ge _ n h, e]
      rfl


theorem toUInt16_small (n : Nat) (h : n < 65536) : toUInt16 (n : Int) = n := by
  unfold toUInt16
  rw [Int.emod_eq_of_lt (by omega) (by omega)]
  simp

theorem scanHu_four (a b c d : Nat) (ha : a < 10) (hb : b < 10) (hc : c < 10) (hd : d < 10)
    (sep : Char) (hsep : sep.isDigit = false) (rest : List Char) :
    scanHu (Nat.digitChar a :: Nat.digitChar b :: Nat.digitChar c :: Nat.digitChar d :: sep :: rest)
      = some (a * 1000 + b * 100 + c * 10 + d, sep :: rest) := by
  rw [scanHu_digit _ _ (digitChar_isDigit a ha), scanDigits_digit a ha, scanDigits_digit b hb,
    scanDigits_digit c hc, scanDigits_digit d hd, scanDigits_stop sep hsep]
  have e : (0 * 10 + a) * 10 + b = a * 10 + b := by omega
  simp only [e]
  rw [if_neg (by omega)]
  rw [toUInt16_small _ (by omega)]
  congr 2
  omega

theorem scanHu_two (a b : Nat) (ha : a < 10) (hb : b < 10)
    (sep : Char) (hsep : sep.isDigit = false) (rest : List Char) :
    scanHu (Nat.digitChar a :: Nat.digitChar b :: sep :: rest)
      = some (a * 10 + b, sep :: rest) := by
  rw [scanHu_digit _ _ (digitChar_isDigit a ha), scanDigits_digit a ha, scanDigits_digit b hb,
    scanDigits_stop sep hsep]
  simp only []
  rw [if_neg (by omega)]
  rw [toUInt16_small _ (by omega)]
  congr 2
  omega

theorem scanHu_two_end (a b : Nat) (ha : a < 10) (hb : b < 10) :
    scanHu [Nat.digitChar a, Nat.digitChar b] = some (a * 10 + b, []) := by
  rw [scanHu_digit _ _ (digitChar_isDigit a ha), scanDigits_digit a ha, scanDigits_digit b hb]
  simp only [scanDigits]
  rw [if_neg (by omega)]
  rw [toUInt16_small _ (by omega)]
  congr 2
  omega

theorem scanHu_space (cs : List Char) : scanHu (' ' :: cs) = scanHu cs := by
  have : skipSpaces (' ' :: cs) = skipSpaces cs := by
    simp [skipSpaces, isspace]
  simp only [scanHu, this]

theorem sscanf_text19 (Y M D h m s : Nat) (hY : Y ≤ 9999) (hM : M ≤ 99) (hD : D ≤ 99)
    (hh : h ≤ 99) (hm : m ≤ 99) (hs : s ≤ 99) :
    sscanf_timestamp (text19 Y M D h m s) = ⟨0, 0, 0, s, m, h, D, M, Y⟩ := by
  have s1 := scanHu_four (Y / 1000) (Y / 100 % 10) (Y / 10 % 10) (Y % 10) (by omega) (by omega)
    (by omega) (by omega) '-' (by decide)
  have s2 := fun k (hk : k ≤ 99) => scanHu_two (k / 10) (k % 10) (by omega) (by omega)
  have s3 := scanHu_two_end (s / 10) (s % 10) (by omega) (by omega)
  have eY : Y / 1000 * 1000 + Y / 100 % 10 * 100 + Y / 10 % 10 * 10 + Y % 10 = Y := by omega
  have e2 : ∀ k : Nat, k / 10 * 10 + k % 10 = k := fun k => by omega
  unfold sscanf_timestamp text19
  rw [s1]
  simp only [scanLit, if_true, Option.bind_some, Option.some_bind]
  rw [s2 M hM '-' (by decide)]
  simp only [scanLit, if_true, Option.bind_some, Option.some_bind]
  rw [s2 D hD ' ' (by decide)]
  simp only [scanHu_space]
  rw [s2 h hh ':' (by decide)]
  simp only [scanLit, if_true, Option.bind_some, Option.some_bind]
  rw [s2 m hm ':' (by decide)]
  simp only [scanLit, if_true, Option.bind_some, Option.some_bind]
  rw [s3]
  simp only [dtsZero, eY, e2]

/-- The conversion `%hu` reads back a number printed without padding. -/
theorem scanHu_fmtDecimal (n : Nat) (hn : n < 65536) (sep : Char) (hsep : sep.isDigit = false)
    (rest : List Char) :
    scanHu (fmtDecimal n ++ sep :: rest) = some (n, sep :: rest) := by
  obtain ⟨c, tl, e, hc⟩ := decimalDigits_head 19 n
  obtain ⟨k, hk⟩ := scanDigits_decimalDigits 20 n (by norm_num; omega) (sep :: rest)
  have hk0 := hk 0
  rw [scanDigits_stop sep hsep] at hk0
  unfold fmtDecimal
  have e1 : decimalDigits 20 n ++ sep :: rest = c :: (tl ++ sep :: rest) := by
    rw [e]; rfl
  rw [e1, scanHu_digit _ _ hc, ← e1, hk0]
  simp only [zero_mul, zero_add]
  rw [if_neg (by omega), toUInt16_small _ hn]

theorem sscanf_textV (Y M D h m s : Nat) (hY : Y ≤ 65535) (hM : M ≤ 99) (hD : D ≤ 99)
    (hh : h ≤ 99) (hm : m ≤ 99) (hs : s ≤ 99) :
    sscanf_timestamp (fmtDecimal Y ++ text15 M D h m s) = ⟨0, 0, 0, s, m, h, D, M, Y⟩ := by
  have s2 := fun k (hk : k ≤ 99) => scanHu_two (k / 10) (k % 10) (by omega) (by omega)
  have s3 := scanHu_two_end (s / 10) (s % 10) (by omega) (by omega)
  have e2 : ∀ k : Nat, k / 10 * 10 + k % 10 = k := fun k => by omega
  unfold sscanf_timestamp text15
  rw [scanHu_fmtDecimal Y (by omega) '-' (by decide)]
  simp only [scanLit, if_true, Option.bind_some, Option.some_bind]
  rw [s2 M hM '-' (by decide)]
  simp only [scanLit, if_true, Option.bind_some, Option.some_bind]
  rw [s2 D hD ' ' (by decide)]
  simp only [scanHu_space]
  rw [s2 h hh ':' (by decide)]
  simp only [scanLit, if_true, Option.bind_some, Option.some_bind]
  rw [s2 m hm ':' (by decide)]
  simp only [scanLit, if_true, Option.bind_some, Option.some_bind]
  rw [s3]
  simp only [dtsZero, e2]

/-- When the text ends after the second colon the seconds stay zero. -/
theorem sscanf_textV_cut (Y M D h m s : Nat) (hY : Y ≤ 65535) (hM : M ≤ 99) (hD : D ≤ 99)
    (hh : h ≤ 99) (hm : m ≤ 99) :
    sscanf_timestamp (fmtDecimal Y ++ (text15 M D h m s).take 13) = ⟨0, 0, 0, 0, m, h, D, M, Y⟩ := by
  have s2 := fun k (hk : k ≤ 99) => scanHu_two (k / 10) (k % 10) (by omega) (by omega)
  have e2 : ∀ k : Nat, k / 10 * 10 + k % 10 = k := fun k => by omega
  have s4 : scanHu [] = none := rfl
  unfold sscanf_timestamp text15
  simp only [List.take_succ_cons, List.take_zero]
  rw [scanHu_fmtDecimal Y (by omega) '-' (by decide)]
  simp only [scanLit, if_true, Option.bind_some, Option.some_bind]
  rw [s2 M hM '-' (by decide)]
  simp only [scanLit, if_true, Option.bind_some, Option.some_bind]
  rw [s2 D hD ' ' (by decide)]
  simp only [scanHu_space]
  rw [s2 h hh ':' (by decide)]
  simp only [scanLit, if_true, Option.bind_some, Option.some_bind]
  rw [s2 m hm ':' (by decide)]
  simp only [scanLit, if_true, Option.bind_some, Option.some_bind, s4]
  simp only [dtsZero, e2]

theorem textLt_cons_digit (a b : Nat) (ha : a < 10) (hb : b < 10) (as bs : List Char) :
    textLt (Nat.digitChar a :: as) (Nat.digitChar b :: bs) =
      if a < b then true else if a = b then textLt as bs else false := by
  simp only [textLt, digitChar_toNat a ha, digitChar_toNat b hb]
  split_ifs <;> first | rfl | omega

theorem textLt_cons_same (c : Char) (as bs : List Char) :
    textLt (c :: as) (c :: bs) = textLt as bs := by
  simp [textLt]

theorem textLt_nil_nil : textLt [] [] = false := rfl

theorem textLt_two (k k' : Nat) (hk : k ≤ 99) (hk' : k' ≤ 99) (as bs : List Char) :
    textLt (Nat.digitChar (k / 10) :: Nat.digitChar (k % 10) :: as)
        (Nat.digitChar (k' / 10) :: Nat.digitChar (k' % 10) :: bs) =
      if k < k' then true else if k = k' then textLt as bs else false := by
  rw [textLt_cons_digit _ _ (by omega) (by omega), textLt_cons_digit _ _ (by omega) (by omega)]
  by_cases h1 : k / 10 < k' / 10
  · rw [if_pos h1, if_pos (by omega)]
  rw [if_neg h1]
  by_cases h2 : k / 10 = k' / 10
  swap
  · rw [if_neg h2, if_neg (by omega), if_neg (by omega)]
  rw [if_pos h2]
  by_cases h3 : k % 10 < k' % 10
  · rw [if_pos h3, if_pos (by omega)]
  rw [if_neg h3]
  by_cases h4 : k % 10 = k' % 10
  · rw [if_pos h4, if_neg (by omega), if_pos (by omega)]
  · rw [if_neg h4, if_neg (by omega), if_neg (by omega)]

theorem textLt_digits4 (a b c d a' b' c' d' : Nat) (ha : a < 10) (hb : b < 10) (hc : c < 10)
    (hd : d < 10) (ha' : a' < 10) (hb' : b' < 10) (hc' : c' < 10) (hd' : d' < 10)
    (as bs : List Char) :
    textLt (Nat.digitChar a :: Nat.digitChar b :: Nat.digitChar c :: Nat.digitChar d :: as)
        (Nat.digitChar a' :: Nat.digitChar b' :: Nat.digitChar c' :: Nat.digitChar d' :: bs) =
      if a * 1000 + b * 100 + c * 10 + d < a' * 1000 + b' * 100 + c' * 10 + d' then true
      else if a * 1000 + b * 100 + c * 10 + d = a' * 1000 + b' * 100 + c' * 10 + d'
        then textLt as bs else false := by
  rw [textLt_cons_digit _ _ ha ha', textLt_cons_digit _ _ hb hb',
    textLt_cons_digit _ _ hc hc', textLt_cons_digit _ _ hd hd']
  by_cases h1 : a < a'
  · rw [if_pos h1, if_pos (by omega)]
  rw [if_neg h1]
  by_cases h2 : a = a'
  swap
  · rw [if_neg h2, if_neg (by omega), if_neg (by omega)]
  rw [if_pos h2]
  by_cases h3 : b < b'
  · rw [if_pos h3, if_pos (by omega)]
  rw [if_neg h3]
  by_cases h4 : b = b'
  swap
  · rw [if_neg h4, if_neg (by omega), if_neg (by omega)]
  rw [if_pos h4]
  by_cases h5 : c < c'
  · rw [if_pos h5, if_pos (by omega)]
  rw [if_neg h5]
  by_cases h6 : c = c'
  swap
  · rw [if_neg h6, if_neg (by omega), if_neg (by omega)]
  rw [if_pos h6]
  by_cases h7 : d < d'
  · rw [if_pos h7, if_pos (by omega)]
  rw [if_neg h7]
  by_cases h8 : d = d'
  · rw [if_pos h8, if_neg (by omega), if_pos (by omega)]
  · rw [if_neg h8, if_neg (by omega), if_neg (by omega)]

theorem textLt_four (k k' : Nat) (hk : k ≤ 9999) (hk' : k' ≤ 9999) (as bs : List Char) :
    textLt (Nat.digitChar (k / 1000) :: Nat.digitChar (k / 100 % 10) :: Nat.digitChar (k / 10 % 10)
          :: Nat.digitChar (k % 10) :: as)
        (Nat.digitChar (k' / 1000) :: Nat.digitChar (k' / 100 % 10) :: Nat.digitChar (k' / 10 % 10)
          :: Nat.digitChar (k' % 10) :: bs) =
      if k < k' then true else if k = k' then textLt as bs else false := by
  have e : k / 1000 * 1000 + k / 100 % 10 * 100 + k / 10 % 10 * 10 + k % 10 = k := by omega
  have e' : k' / 1000 * 1000 + k' / 100 % 10 * 100 + k' / 10 % 10 * 10 + k' % 10 = k' := by omega
  rw [textLt_digits4 _ _ _ _ _ _ _ _ (by omega) (by omega) (by omega) (by omega) (by omega)
    (by omega) (by omega) (by omega), e, e']

theorem textLt_text19 (Y M D h m s Y' M' D' h' m' s' : Nat)
    (hY : Y ≤ 9999) (hM : M ≤ 99) (hD : D ≤ 99) (hh : h ≤ 99) (hm : m ≤ 99) (hs : s ≤ 99)
    (hY' : Y' ≤ 9999) (hM' : M' ≤ 99) (hD' : D' ≤ 99) (hh' : h' ≤ 99) (hm' : m' ≤ 99)
    (hs' : s' ≤ 99) :
    textLt (text19 Y M D h m s) (text19 Y' M' D' h' m' s') =
      decide (key19 Y M D h m s < key19 Y' M' D' h' m' s') := by
  unfold text19 key19
  rw [textLt_four Y Y' hY hY', textLt_cons_same, textLt_two M M' hM hM', textLt_cons_same,
    textLt_two D D' hD hD', textLt_cons_same, textLt_two h h' hh hh', textLt_cons_same,
    textLt_two m m' hm hm', textLt_cons_same, textLt_two s s' hs hs', textLt_nil_nil]
  by_cases h1 : Y < Y'
  · rw [if_pos h1]; symm; rw [decide_eq_true_eq]; omega
  rw [if_neg h1]
  by_cases h2 : Y = Y'
  swap
  · rw [if_neg h2]; symm; rw [decide_eq_false_iff_not]; omega
  rw [if_pos h2]
  by_cases h3 : M < M'
  · rw [if_pos h3]; symm; rw [decide_eq_true_eq]; omega
  rw [if_neg h3]
  by_cases h4 : M = M'
  swap
  · rw [if_neg h4]; symm; rw [decide_eq_false_iff_not]; omega
  rw [if_pos h4]
  by_cases h5 : D < D'
  · rw [if_pos h5]; symm; rw [decide_eq_true_eq]; omega
  rw [if_neg h5]
  by_cases h6 : D = D'
  swap
  · rw [if_neg h6]; symm; rw [decide_eq_false_iff_not]; omega
  rw [if_pos h6]
  by_cases h7 : h < h'
  · rw [if_pos h7]; symm; rw [decide_eq_true_eq]; omega
  rw [if_neg h7]
  by_cases h8 : h = h'
  swap
  · rw [if_neg h8]; symm; rw [decide_eq_false_iff_not]; omega
  rw [if_pos h8]
  by_cases h9 : m < m'
  · rw [if_pos h9]; symm; rw [decide_eq_true_eq]; omega
  rw [if_neg h9]
  by_cases h10 : m = m'
  swap
  · rw [if_neg h10]; symm; rw [decide_eq_false_iff_not]; omega
  rw [if_pos h10]
  by_cases h11 : s < s'
  · rw [if_pos h11]; symm; rw [decide_eq_true_eq]; omega
  rw [if_neg h11]
  rw [ite_self]
  symm; rw [decide_eq_false_iff_not]; omega
/-- The year of the broken-down time of a second lying between the starts of two years. -/
theorem secs_to_tm_between (s y0 y1 : Int) (hlo : -1000000000000 ≤ s) (hhi : s ≤ 1000000000000)
    (h0 : (year_to_secs y0).1 ≤ s) (h1 : s < (year_to_secs (y1 + 1)).1) :
    ∃ tm, secs_to_tm s = some tm ∧ tm_to_secs tm = s ∧ ValidTm tm ∧
      y0 ≤ tm.tm_year ∧ tm.tm_year ≤ y1 := by
  obtain ⟨tm, e1, e2, hv⟩ := secs_to_tm_roundtrip s hlo hhi
  refine ⟨tm, e1, e2, hv, ?_, ?_⟩
  · by_contra hlt
    have hb := (tm_to_secs_bounds tm hv).2
    have hm := year_to_secs_mono (tm.tm_year + 1) y0 (by omega)
    have hp : 0 ≤ 31536000 * (y0 - (tm.tm_year + 1)) := mul_nonneg (by norm_num) (by omega)
    omega
  · by_contra hgt
    have hb := (tm_to_secs_bounds tm hv).1
    have hm := year_to_secs_mono (y1 + 1) tm.tm_year (by omega)
    have hp : 0 ≤ 31536000 * (tm.tm_year - (y1 + 1)) := mul_nonneg (by norm_num) (by omega)
    omega

/-- From 0000-01-01 00:00:00 through 9999-12-31 23:59:59 the year has at most four digits. -/
theorem secs_to_tm_in_range (s : Int) (h0 : MIN_SECONDS ≤ s) (h1 : s ≤ MAX_SECONDS) :
    ∃ tm, secs_to_tm s = some tm ∧ tm_to_secs tm = s ∧ ValidTm tm ∧
      -1900 ≤ tm.tm_year ∧ tm.tm_year ≤ 8099 := by
  unfold MAX_SECONDS at h1
  unfold MIN_SECONDS at h0
  have e0 : (year_to_secs (-1900)).1 = -62167219200 := by decide
  have e1 : (year_to_secs (8099 + 1)).1 = 253402300800 := by decide
  exact secs_to_tm_between s (-1900) 8099 (by omega) (by omega) (by omega) (by omega)

/-- From 1000-01-01 00:00:00 through 9999-12-31 23:59:59 the year has exactly four digits. -/
theorem secs_to_tm_in_text_range (s : Int) (h0 : MIN_TEXT_SECONDS ≤ s) (h1 : s ≤ MAX_SECONDS) :
    ∃ tm, secs_to_tm s = some tm ∧ tm_to_secs tm = s ∧ ValidTm tm ∧
      -900 ≤ tm.tm_year ∧ tm.tm_year ≤ 8099 := by
  unfold MAX_SECONDS at h1
  unfold MIN_TEXT_SECONDS at h0
  have e0 : (year_to_secs (-900)).1 = -30610224000 := by decide
  have e1 : (year_to_secs (8099 + 1)).1 = 253402300800 := by decide
  exact secs_to_tm_between s (-900) 8099 (by omega) (by omega) (by omega) (by omega)

theorem wrapInt64_id (x : Int) (h0 : -9223372036854775808 ≤ x) (h1 : x ≤ 9223372036854775807) :
    wrapInt64 x = x := by
  unfold wrapInt64
  omega

/-- Adding the epoch offset and subtracting it again in 64-bit arithmetic gives the value
back, also when the sum in between left the range. -/
theorem wrapInt64_add_sub (x : Int) (h0 : -9223372036854775808 ≤ x)
    (h1 : x ≤ 9223372036854775807) :
    wrapInt64 (wrapInt64 (x + 116444736000000000) - 116444736000000000) = x := by
  unfold wrapInt64
  omega

/-- As long as the seconds times ten million fit 64 bits, converting seconds to ticks and
back gives the seconds. -/
theorem UA_DateTime_toUnixTime_fromUnixTime (s : Int) (h0 : -922337203685 ≤ s)
    (h1 : s ≤ 922337203685) :
    UA_DateTime_toUnixTime (UA_DateTime_fromUnixTime s) = s := by
  unfold UA_DateTime_toUnixTime UA_DateTime_fromUnixTime UA_DATETIME_SEC UA_DATETIME_UNIX_EPOCH
  rw [wrapInt64_add_sub (s * 10000000) (by omega) (by omega)]
  exact Int.mul_tdiv_cancel s (by decide)

theorem toNat_toUInt16 (x : Int) (h0 : 0 ≤ x) (h1 : x < 65536) : toUInt16 x = x.toNat := by
  unfold toUInt16
  rw [Int.emod_eq_of_lt h0 h1]

/-- The calendar fields of the tick count of a whole second; the sub-second fields are not
read by the backend. -/
theorem UA_DateTime_toStruct_fromUnixTime (s : Int) (tm : mytm) (h0 : -922337203685 ≤ s)
    (h1 : s ≤ 922337203685)
    (e : secs_to_tm s = some tm) (hv : ValidTm tm) (hy0 : -1900 ≤ tm.tm_year)
    (hy1 : tm.tm_year ≤ 63635) :
    ∃ n u m : Nat, UA_DateTime_toStruct (UA_DateTime_fromUnixTime s) =
      ⟨n, u, m, tm.tm_sec.toNat, tm.tm_min.toNat, tm.tm_hour.toNat, tm.tm_mday.toNat,
        (tm.tm_mon + 1).toNat, (tm.tm_year + 1900).toNat⟩ := by
  have hu := UA_DateTime_toUnixTime_fromUnixTime s h0 h1
  unfold UA_DateTime_toUnixTime at hu
  obtain ⟨v1, v2, v3, v4, v5, v6, v7, v8, v9, v10⟩ := hv
  have hl := monthLength_le tm.tm_mon (year_to_secs tm.tm_year).2
  unfold UA_DateTime_toStruct
  simp only [hu, e, Option.getD_some]
  rw [toNat_toUInt16 tm.tm_sec v1 (by omega), toNat_toUInt16 tm.tm_min v3 (by omega),
    toNat_toUInt16 tm.tm_hour v5 (by omega), toNat_toUInt16 tm.tm_mday (by omega) (by omega),
    toNat_toUInt16 (tm.tm_mon + 1) (by omega) (by omega),
    toNat_toUInt16 (tm.tm_year + 1900) (by omega) (by omega)]
  exact ⟨_, _, _, rfl⟩

/-- The formatter on a year of at most four digits: the year unpadded, then the fixed
15 characters. -/
theorem convertUnixSecondsToTimestampString_eqV (s : Int) (tm : mytm) (h0 : MIN_SECONDS ≤ s)
    (h1 : s ≤ MAX_SECONDS) (e : secs_to_tm s = some tm) (hv : ValidTm tm)
    (hy0 : -1900 ≤ tm.tm_year) (hy1 : tm.tm_year ≤ 8099) :
    convertUnixSecondsToTimestampString s = tmTextV tm := by
  unfold MIN_SECONDS at h0
  unfold MAX_SECONDS at h1
  obtain ⟨n, u, m, hs⟩ :=
    UA_DateTime_toStruct_fromUnixTime s tm (by omega) (by omega) e hv hy0 (by omega)
  obtain ⟨v1, v2, v3, v4, v5, v6, v7, v8, v9, v10⟩ := hv
  have hl := monthLength_le tm.tm_mon (year_to_secs tm.tm_year).2
  unfold convertUnixSecondsToTimestampString
  simp only [hs]
  have a1 : (((tm.tm_year + 1900).toNat : Int)) = tm.tm_year + 1900 := Int.toNat_of_nonneg (by omega)
  have a2 : (((tm.tm_mon + 1).toNat : Int)) = tm.tm_mon + 1 := Int.toNat_of_nonneg (by omega)
  have a3 : ((tm.tm_mday.toNat : Int)) = tm.tm_mday := Int.toNat_of_nonneg (by omega)
  have a4 : ((tm.tm_hour.toNat : Int)) = tm.tm_hour := Int.toNat_of_nonneg (by omega)
  have a5 : ((tm.tm_min.toNat : Int)) = tm.tm_min := Int.toNat_of_nonneg (by omega)
  have a6 : ((tm.tm_sec.toNat : Int)) = tm.tm_sec := Int.toNat_of_nonneg (by omega)
  rw [strftime_textV _ (by simp only []; omega) (by simp only []; omega) (by simp only []; omega)
    (by simp only []; omega) (by simp only []; omega) (by simp only []; omega)
    (by simp only []; omega) (by simp only []; omega) (by simp only []; omega)
    (by simp only []; omega) (by simp only []; omega) (by simp only []; omega)]
  simp only [a1, a2, a3, a4, a5, a6, tmTextV, sub_add_cancel]

/-- The formatter on a year of five digits: the text ends after the second colon. -/
theorem convertUnixSecondsToTimestampString_cut (s : Int) (tm : mytm) (h0 : MAX_SECONDS < s)
    (h1 : s ≤ 922337203685) (e : secs_to_tm s = some tm) (hv : ValidTm tm)
    (hy0 : 8100 ≤ tm.tm_year) (hy1 : tm.tm_year ≤ 63635) :
    convertUnixSecondsToTimestampString s = fmtDecimal (tm.tm_year + 1900).toNat ++
      (text15 (tm.tm_mon + 1).toNat tm.tm_mday.toNat tm.tm_hour.toNat tm.tm_min.toNat
        tm.tm_sec.toNat).take 13 := by
  unfold MAX_SECONDS at h0
  obtain ⟨n, u, m, hs⟩ :=
    UA_DateTime_toStruct_fromUnixTime s tm (by omega) (by omega) e hv (by omega) hy1
  obtain ⟨v1, v2, v3, v4, v5, v6, v7, v8, v9, v10⟩ := hv
  have hl := monthLength_le tm.tm_mon (year_to_secs tm.tm_year).2
  unfold convertUnixSecondsToTimestampString
  simp only [hs]
  have a1 : (((tm.tm_year + 1900).toNat : Int)) = tm.tm_year + 1900 := Int.toNat_of_nonneg (by omega)
  have a2 : (((tm.tm_mon + 1).toNat : Int)) = tm.tm_mon + 1 := Int.toNat_of_nonneg (by omega)
  have a3 : ((tm.tm_mday.toNat : Int)) = tm.tm_mday := Int.toNat_of_nonneg (by omega)
  have a4 : ((tm.tm_hour.toNat : Int)) = tm.tm_hour := Int.toNat_of_nonneg (by omega)
  have a5 : ((tm.tm_min.toNat : Int)) = tm.tm_min := Int.toNat_of_nonneg (by omega)
  have a6 : ((tm.tm_sec.toNat : Int)) = tm.tm_sec := Int.toNat_of_nonneg (by omega)
  rw [strftime_textV_cut _ (by simp only []; omega) (by simp only []; omega)
    (by simp only []; omega)
    (by simp only []; omega) (by simp only []; omega) (by simp only []; omega)
    (by simp only []; omega) (by simp only []; omega) (by simp only []; omega)
    (by simp only []; omega) (by simp only []; omega) (by simp only []; omega)]
  simp only [a1, a2, a3, a4, a5, a6, sub_add_cancel]

theorem tmTextV_eq_tmText (tm : mytm) (hy0 : -900 ≤ tm.tm_year) (hy1 : tm.tm_year ≤ 8099) :
    tmTextV tm = tmText tm := by
  unfold tmTextV tmText
  rw [text19_eq _ _ _ _ _ _ (by omega) (by omega)]

theorem convertUnixSecondsToTimestampString_eq (s : Int) (tm : mytm) (h0 : MIN_TEXT_SECONDS ≤ s)
    (h1 : s ≤ MAX_SECONDS) (e : secs_to_tm s = some tm) (hv : ValidTm tm)
    (hy0 : -900 ≤ tm.tm_year) (hy1 : tm.tm_year ≤ 8099) :
    convertUnixSecondsToTimestampString s = tmText tm := by
  have h2 : MIN_SECONDS ≤ s := by
    unfold MIN_TEXT_SECONDS at h0
    unfold MIN_SECONDS
    omega
  rw [convertUnixSecondsToTimestampString_eqV s tm h2 h1 e hv (by omega) hy1,
    tmTextV_eq_tmText tm hy0 hy1]

theorem fmtPad4_four (x : Int) (h0 : 1000 ≤ x) (h1 : x ≤ 9999) :
    fmtPad4 x = [Nat.digitChar (x.toNat / 1000), Nat.digitChar (x.toNat / 100 % 10),
      Nat.digitChar (x.toNat / 10 % 10), Nat.digitChar (x.toNat % 10)] := by
  unfold fmtPad4
  rw [fmtInt_four x h0 h1]
  rfl

theorem CURRENT_TIMESTAMP_eq (s : Int) (tm : mytm) (e : secs_to_tm s = some tm) (hv : ValidTm tm)
    (hy0 : -900 ≤ tm.tm_year) (hy1 : tm.tm_year ≤ 8099) :
    CURRENT_TIMESTAMP s = tmText tm := by
  obtain ⟨v1, v2, v3, v4, v5, v6, v7, v8, v9, v10⟩ := hv
  have hl := monthLength_le tm.tm_mon (year_to_secs tm.tm_year).2
  unfold CURRENT_TIMESTAMP
  simp only [e]
  rw [fmtPad4_four _ (by omega) (by omega), fmtPad2_two (tm.tm_mon + 1) (by omega) (by omega),
    fmtPad2_two tm.tm_mday (by omega) (by omega), fmtPad2_two tm.tm_hour (by omega) (by omega),
    fmtPad2_two tm.tm_min (by omega) (by omega), fmtPad2_two tm.tm_sec (by omega) (by omega)]
  rfl

/-- Parsing the text of a broken-down time whose year the 16-bit field holds gives its
seconds, as long as the seconds times ten million fit 64 bits. -/
theorem convertTimestampStringToUnixSeconds_tmTextV (tm : mytm) (hv : ValidTm tm)
    (hy0 : -1900 ≤ tm.tm_year) (hy1 : tm.tm_year ≤ 63635) (hs0 : -922337203685 ≤ tm_to_secs tm)
    (hs1 : tm_to_secs tm ≤ 922337203685) :
    convertTimestampStringToUnixSeconds (tmTextV tm) = tm_to_secs tm := by
  obtain ⟨v1, v2, v3, v4, v5, v6, v7, v8, v9, v10⟩ := hv
  have hl := monthLength_le tm.tm_mon (year_to_secs tm.tm_year).2
  unfold convertTimestampStringToUnixSeconds tmTextV
  rw [sscanf_textV _ _ _ _ _ _ (by omega) (by omega) (by omega) (by omega) (by omega) (by omega)]
  unfold UA_DateTime_fromStruct
  simp only []
  have a1 : (((tm.tm_year + 1900).toNat : Int)) - 1900 = tm.tm_year := by
    rw [Int.toNat_of_nonneg (by omega)]; omega
  have a2 : (((tm.tm_mon + 1).toNat : Int)) - 1 = tm.tm_mon := by
    rw [Int.toNat_of_nonneg (by omega)]; omega
  have a3 : ((tm.tm_mday.toNat : Int)) = tm.tm_mday := Int.toNat_of_nonneg (by omega)
  have a4 : ((tm.tm_hour.toNat : Int)) = tm.tm_hour := Int.toNat_of_nonneg (by omega)
  have a5 : ((tm.tm_min.toNat : Int)) = tm.tm_min := Int.toNat_of_nonneg (by omega)
  have a6 : ((tm.tm_sec.toNat : Int)) = tm.tm_sec := Int.toNat_of_nonneg (by omega)
  rw [a1, a2, a3, a4, a5, a6]
  generalize tm_to_secs ⟨tm.tm_sec, tm.tm_min, tm.tm_hour, tm.tm_mday, tm.tm_mon, tm.tm_year⟩ = t
    at hs0 hs1 ⊢
  unfold UA_DateTime_toUnixTime UA_DATETIME_SEC UA_DATETIME_UNIX_EPOCH UA_DATETIME_MSEC
    UA_DATETIME_USEC
  norm_num
  rw [add_comm (116444736000000000 : Int) (t * 10000000),
    wrapInt64_add_sub (t * 10000000) (by omega) (by omega)]
  exact Int.mul_tdiv_cancel t (by decide)

/-- Parsing the text that ends after the second colon gives the seconds of the start of
the minute. -/
theorem convertTimestampStringToUnixSeconds_cut (tm : mytm) (hv : ValidTm tm)
    (hy0 : -1900 ≤ tm.tm_year) (hy1 : tm.tm_year ≤ 63635) (hs0 : -922337203600 ≤ tm_to_secs tm)
    (hs1 : tm_to_secs tm ≤ 922337203685) :
    convertTimestampStringToUnixSeconds (fmtDecimal (tm.tm_year + 1900).toNat ++
      (text15 (tm.tm_mon + 1).toNat tm.tm_mday.toNat tm.tm_hour.toNat tm.tm_min.toNat
        tm.tm_sec.toNat).take 13) = tm_to_secs tm - tm.tm_sec := by
  have hval := tm_to_secs_of_valid tm hv.2.2.2.2.2.2.2.2.1 hv.2.2.2.2.2.2.2.2.2
  have hval0 := tm_to_secs_of_valid ⟨0, tm.tm_min, tm.tm_hour, tm.tm_mday, tm.tm_mon, tm.tm_year⟩
    hv.2.2.2.2.2.2.2.2.1 hv.2.2.2.2.2.2.2.2.2
  simp only [] at hval0
  obtain ⟨v1, v2, v3, v4, v5, v6, v7, v8, v9, v10⟩ := hv
  have hl := monthLength_le tm.tm_mon (year_to_secs tm.tm_year).2
  unfold convertTimestampStringToUnixSeconds
  rw [sscanf_textV_cut _ _ _ _ _ _ (by omega) (by omega) (by omega) (by omega) (by omega)]
  unfold UA_DateTime_fromStruct
  simp only []
  have a1 : (((tm.tm_year + 1900).toNat : Int)) - 1900 = tm.tm_year := by
    rw [Int.toNat_of_nonneg (by omega)]; omega
  have a2 : (((tm.tm_mon + 1).toNat : Int)) - 1 = tm.tm_mon := by
    rw [Int.toNat_of_nonneg (by omega)]; omega
  have a3 : ((tm.tm_mday.toNat : Int)) = tm.tm_mday := Int.toNat_of_nonneg (by omega)
  have a4 : ((tm.tm_hour.toNat : Int)) = tm.tm_hour := Int.toNat_of_nonneg (by omega)
  have a5 : ((tm.tm_min.toNat : Int)) = tm.tm_min := Int.toNat_of_nonneg (by omega)
  rw [a1, a2, a3, a4, a5]
  have e0 : tm_to_secs ⟨((0 : Nat) : Int), tm.tm_min, tm.tm_hour, tm.tm_mday, tm.tm_mon, tm.tm_year⟩
      = tm_to_secs tm - tm.tm_sec := by
    rw [Nat.cast_zero, hval0, hval]
    omega
  rw [e0]
  have hs2 : -922337203685 ≤ tm_to_secs tm - tm.tm_sec := by omega
  have hs3 : tm_to_secs tm - tm.tm_sec ≤ 922337203685 := by omega
  generalize tm_to_secs tm - tm.tm_sec = t at hs2 hs3 ⊢
  unfold UA_DateTime_toUnixTime UA_DATETIME_SEC UA_DATETIME_UNIX_EPOCH UA_DATETIME_MSEC
    UA_DATETIME_USEC
  norm_num
  rw [add_comm (116444736000000000 : Int) (t * 10000000),
    wrapInt64_add_sub (t * 10000000) (by omega) (by omega)]
  exact Int.mul_tdiv_cancel t (by decide)

theorem convertTimestampStringToUnixSeconds_tmText (tm : mytm) (hv : ValidTm tm)
    (hy0 : -900 ≤ tm.tm_year) (hy1 : tm.tm_year ≤ 8099) (hs0 : MIN_TEXT_SECONDS ≤ tm_to_secs tm)
    (hs1 : tm_to_secs tm ≤ MAX_SECONDS) :
    convertTimestampStringToUnixSeconds (tmText tm) = tm_to_secs tm := by
  unfold MIN_TEXT_SECONDS at hs0
  unfold MAX_SECONDS at hs1
  rw [← tmTextV_eq_tmText tm hy0 hy1]
  exact convertTimestampStringToUnixSeconds_tmTextV tm hv (by omega) (by omega) (by omega)
    (by omega)

theorem tmKey_eq_key19 (tm : mytm) (hv : ValidTm tm) (hy0 : -900 ≤ tm.tm_year) :
    ((key19 (tm.tm_year + 1900).toNat (tm.tm_mon + 1).toNat tm.tm_mday.toNat tm.tm_hour.toNat
      tm.tm_min.toNat tm.tm_sec.toNat : Nat) : Int) = tmKey tm := by
  obtain ⟨v1, v2, v3, v4, v5, v6, v7, v8, v9, v10⟩ := hv
  unfold key19 tmKey
  push_cast
  rw [Int.toNat_of_nonneg (by omega), Int.toNat_of_nonneg (by omega : 0 ≤ tm.tm_mon + 1),
    Int.toNat_of_nonneg (by omega : 0 ≤ tm.tm_mday), Int.toNat_of_nonneg v5,
    Int.toNat_of_nonneg v3, Int.toNat_of_nonneg v1]

theorem textLt_tmText (a b : mytm) (ha : ValidTm a) (hb : ValidTm b)
    (ha0 : -900 ≤ a.tm_year) (ha1 : a.tm_year ≤ 8099) (hb0 : -900 ≤ b.tm_year)
    (hb1 : b.tm_year ≤ 8099) :
    textLt (tmText a) (tmText b) = decide (tmKey a < tmKey b) := by
  have ka := tmKey_eq_key19 a ha ha0
  have kb := tmKey_eq_key19 b hb hb0
  have la := monthLength_le a.tm_mon (year_to_secs a.tm_year).2
  have lb := monthLength_le b.tm_mon (year_to_secs b.tm_year).2
  obtain ⟨a1, a2, a3, a4, a5, a6, a7, a8, a9, a10⟩ := ha
  obtain ⟨b1, b2, b3, b4, b5, b6, b7, b8, b9, b10⟩ := hb
  unfold tmText
  rw [textLt_text19 _ _ _ _ _ _ _ _ _ _ _ _ (by omega) (by omega) (by omega) (by omega) (by omega)
    (by omega) (by omega) (by omega) (by omega) (by omega) (by omega) (by omega)]
  rw [decide_eq_decide, ← ka, ← kb]
  exact Nat.cast_lt.symm
theorem min_seconds_le (s : Int) (h : MIN_TEXT_SECONDS ≤ s) : MIN_SECONDS ≤ s := by
  unfold MIN_TEXT_SECONDS at h
  unfold MIN_SECONDS
  omega

theorem min_text_seconds_le (s : Int) (h : 0 ≤ s) : MIN_TEXT_SECONDS ≤ s := by
  unfold MIN_TEXT_SECONDS
  omega

/-- The seconds field of a broken-down time is the remainder of its seconds modulo 60. -/
theorem tm_sec_eq (tm : mytm) (hv : ValidTm tm) : tm.tm_sec = tm_to_secs tm % 60 := by
  obtain ⟨e, len, hm, _, _⟩ := month_cases tm hv
  have hval := tm_to_secs_of_valid tm hv.2.2.2.2.2.2.2.2.1 hv.2.2.2.2.2.2.2.2.2
  have hy := year_to_secs_fst tm.tm_year
  obtain ⟨v1, v2, _⟩ := hv
  rw [hval, hm, hy]
  generalize 365 * (tm.tm_year - 100) + (tm.tm_year - 100 + 3) / 4 - (tm.tm_year - 100 + 99) / 100
    + (tm.tm_year - 100 + 399) / 400 = k
  omega

/-- From 0000-01-01 00:00:00 through 9999-12-31 23:59:59, parsing the formatted text gives
the seconds back. -/
theorem codec_roundtrip_wide (s : Int) (h0 : MIN_SECONDS ≤ s) (h1 : s ≤ MAX_SECONDS) :
    convertTimestampStringToUnixSeconds (convertUnixSecondsToTimestampString s) = s := by
  obtain ⟨tm, e, er, hv, hy0, hy1⟩ := secs_to_tm_in_range s h0 h1
  have h2 : -922337203685 ≤ s := by unfold MIN_SECONDS at h0; omega
  have h3 : s ≤ 922337203685 := by unfold MAX_SECONDS at h1; omega
  rw [convertUnixSecondsToTimestampString_eqV s tm h0 h1 e hv hy0 hy1,
    convertTimestampStringToUnixSeconds_tmTextV tm hv hy0 (by omega) (by rw [er]; exact h2)
      (by rw [er]; exact h3), er]

/-- From 10000-01-01 00:00:00 on, as long as the seconds times ten million fit 64 bits, the
text ends after the second colon and parsing it gives the start of the minute. -/
theorem codec_roundtrip_minute (s : Int) (h0 : MAX_SECONDS < s) (h1 : s ≤ 922337203685) :
    convertTimestampStringToUnixSeconds (convertUnixSecondsToTimestampString s) = s - s % 60 := by
  have e0 : (year_to_secs 8100).1 = 253402300800 := by decide
  have e1 : (year_to_secs (29297 + 1)).1 = 922346611200 := by decide
  have h2 : 253402300800 ≤ s := by unfold MAX_SECONDS at h0; omega
  obtain ⟨tm, e, er, hv, hy0, hy1⟩ := secs_to_tm_between s 8100 29297 (by omega) (by omega)
    (by omega) (by omega)
  have hsec := tm_sec_eq tm hv
  rw [convertUnixSecondsToTimestampString_cut s tm h0 h1 e hv hy0 (by omega),
    convertTimestampStringToUnixSeconds_cut tm hv (by omega) (by omega) (by rw [er]; omega)
      (by rw [er]; exact h1), hsec, er]

/-- In the range of the text format, parsing the formatted text gives the seconds back. -/
theorem codec_roundtrip (s : Int) (h0 : 0 ≤ s) (h1 : s ≤ MAX_SECONDS) :
    convertTimestampStringToUnixSeconds (convertUnixSecondsToTimestampString s) = s :=
  codec_roundtrip_wide s (min_seconds_le s (min_text_seconds_le s h0)) h1

/-- In the range of the text format, SQLite's `CURRENT_TIMESTAMP` and the backend's
formatter write the same text. -/
theorem CURRENT_TIMESTAMP_fmt (s : Int) (h0 : 0 ≤ s) (h1 : s ≤ MAX_SECONDS) :
    CURRENT_TIMESTAMP s = convertUnixSecondsToTimestampString s := by
  obtain ⟨tm, e, er, hv, hy0, hy1⟩ := secs_to_tm_in_text_range s (min_text_seconds_le s h0) h1
  rw [convertUnixSecondsToTimestampString_eq s tm (min_text_seconds_le s h0) h1 e hv hy0 hy1,
    CURRENT_TIMESTAMP_eq s tm e hv hy0 hy1]

/-- From 1000-01-01 00:00:00 through 9999-12-31 23:59:59 the text has 19 characters and the
byte-wise order of the texts is the order of the seconds. -/
theorem textLt_fmt_wide (s1 s2 : Int) (h0 : MIN_TEXT_SECONDS ≤ s1) (h1 : s1 ≤ MAX_SECONDS)
    (h2 : MIN_TEXT_SECONDS ≤ s2) (h3 : s2 ≤ MAX_SECONDS) :
    textLt (convertUnixSecondsToTimestampString s1) (convertUnixSecondsToTimestampString s2) =
      decide (s1 < s2) := by
  obtain ⟨a, ea, ra, va, ya0, ya1⟩ := secs_to_tm_in_text_range s1 h0 h1
  obtain ⟨b, eb, rb, vb, yb0, yb1⟩ := secs_to_tm_in_text_range s2 h2 h3
  rw [convertUnixSecondsToTimestampString_eq s1 a h0 h1 ea va ya0 ya1,
    convertUnixSecondsToTimestampString_eq s2 b h2 h3 eb vb yb0 yb1,
    textLt_tmText a b va vb ya0 ya1 yb0 yb1, decide_eq_decide]
  constructor
  · intro hk
    have hle := tm_to_secs_le_of_key_le a b va vb (le_of_lt hk)
    rw [ra, rb] at hle
    rcases lt_or_eq_of_le hle with h | h
    · exact h
    · exfalso
      rw [h] at ea
      rw [ea] at eb
      injection eb with eb
      rw [eb] at hk
      exact lt_irrefl _ hk
  · intro hs
    by_contra hk
    have hle := tm_to_secs_le_of_key_le b a vb va (not_lt.mp hk)
    rw [ra, rb] at hle
    omega

theorem textLe_fmt_wide (s1 s2 : Int) (h0 : MIN_TEXT_SECONDS ≤ s1) (h1 : s1 ≤ MAX_SECONDS)
    (h2 : MIN_TEXT_SECONDS ≤ s2) (h3 : s2 ≤ MAX_SECONDS) :
    textLe (convertUnixSecondsToTimestampString s1) (convertUnixSecondsToTimestampString s2) =
      decide (s1 ≤ s2) := by
  unfold textLe
  rw [textLt_fmt_wide s2 s1 h2 h3 h0 h1]
  by_cases h : s1 ≤ s2
  · simp [h]
  · simp [h]; omega

/-- In the range of the text format, the byte-wise order of the formatted texts is the order
of the seconds. -/
theorem textLt_fmt (s1 s2 : Int) (h0 : 0 ≤ s1) (h1 : s1 ≤ MAX_SECONDS) (h2 : 0 ≤ s2)
    (h3 : s2 ≤ MAX_SECONDS) :
    textLt (convertUnixSecondsToTimestampString s1) (convertUnixSecondsToTimestampString s2) =
      decide (s1 < s2) :=
  textLt_fmt_wide s1 s2 (min_text_seconds_le s1 h0) h1 (min_text_seconds_le s2 h2) h3

theorem textLe_fmt (s1 s2 : Int) (h0 : 0 ≤ s1) (h1 : s1 ≤ MAX_SECONDS) (h2 : 0 ≤ s2)
    (h3 : s2 ≤ MAX_SECONDS) :
    textLe (convertUnixSecondsToTimestampString s1) (convertUnixSecondsToTimestampString s2) =
      decide (s1 ≤ s2) :=
  textLe_fmt_wide s1 s2 (min_text_seconds_le s1 h0) h1 (min_text_seconds_le s2 h2) h3

/-! ## Scans of the store -/

theorem Cmp_holds_fmt_wide (op : Cmp) (s t : Int) (h0 : MIN_TEXT_SECONDS ≤ s)
    (h1 : s ≤ MAX_SECONDS) (h2 : MIN_TEXT_SECONDS ≤ t) (h3 : t ≤ MAX_SECONDS) :
    op.holds (convertUnixSecondsToTimestampString s) (convertUnixSecondsToTimestampString t) =
      op.rel s t := by
  cases op <;> simp only [Cmp.holds, Cmp.rel]
  · exact textLe_fmt_wide t s h2 h3 h0 h1
  · exact textLt_fmt_wide t s h2 h3 h0 h1
  · exact textLe_fmt_wide s t h0 h1 h2 h3
  · exact textLt_fmt_wide s t h0 h1 h2 h3

theorem Cmp_holds_fmt (op : Cmp) (s t : Int) (h0 : 0 ≤ s) (h1 : s ≤ MAX_SECONDS) (h2 : 0 ≤ t)
    (h3 : t ≤ MAX_SECONDS) :
    op.holds (convertUnixSecondsToTimestampString s) (convertUnixSecondsToTimestampString t) =
      op.rel s t :=
  Cmp_holds_fmt_wide op s t (min_text_seconds_le s h0) h1 (min_text_seconds_le t h2) h3

/-- A row of a well-formed store: its text is the formatted text of the second it parses to. -/
theorem StoreOK_row (table : List Row) (hs : StoreOK table) (r : Row) (hr : r ∈ table) :
    0 ≤ convertTimestampStringToUnixSeconds r.Timestamp ∧
    convertTimestampStringToUnixSeconds r.Timestamp ≤ MAX_SECONDS ∧
    r.Timestamp = convertUnixSecondsToTimestampString
      (convertTimestampStringToUnixSeconds r.Timestamp) := by
  obtain ⟨s, h0, h1, e⟩ := hs r hr
  rw [e, CURRENT_TIMESTAMP_fmt s h0 h1, codec_roundtrip s h0 h1]
  exact ⟨h0, h1, rfl⟩

theorem mem_insertRow (before : Row → Row → Bool) (r x : Row) (l : List Row) :
    x ∈ insertRow before r l ↔ x = r ∨ x ∈ l := by
  induction l with
  | nil => simp [insertRow]
  | cons y ys ih =>
    unfold insertRow
    split_ifs
    · simp
    · simp only [List.mem_cons, ih]
      tauto

theorem mem_sortRows (before : Row → Row → Bool) (x : Row) (l : List Row) :
    x ∈ sortRows before l ↔ x ∈ l := by
  induction l with
  | nil => simp [sortRows]
  | cons y ys ih => simp only [sortRows, mem_insertRow, ih, List.mem_cons]

theorem length_insertRow (before : Row → Row → Bool) (r : Row) (l : List Row) :
    (insertRow before r l).length = l.length + 1 := by
  induction l with
  | nil => simp [insertRow]
  | cons y ys ih =>
    unfold insertRow
    split_ifs
    · simp
    · simp [ih]

theorem length_sortRows (before : Row → Row → Bool) (l : List Row) :
    (sortRows before l).length = l.length := by
  induction l with
  | nil => simp [sortRows]
  | cons y ys ih => simp [sortRows, length_insertRow, ih]

/-- The first row of a sorted scan is a row of the input with the least key. -/
theorem sortRows_head (before : Row → Row → Bool) (k : Row → Int) (l : List Row)
    (hk : ∀ a ∈ l, ∀ b ∈ l, before a b = decide (k a < k b)) :
    (l = [] ∧ sortRows before l = []) ∨
    (∃ h tl, sortRows before l = h :: tl ∧ h ∈ l ∧ ∀ x ∈ l, k h ≤ k x) := by
  induction l with
  | nil => left; exact ⟨rfl, rfl⟩
  | cons r rs ih =>
    right
    have ih' := ih (fun a ha b hb => hk a (List.mem_cons_of_mem _ ha) b (List.mem_cons_of_mem _ hb))
    rcases ih' with ⟨e1, e2⟩ | ⟨h, tl, e, hm, hmin⟩
    · subst e1
      exact ⟨r, [], by simp [sortRows, insertRow], List.mem_cons_self _ _, by simp⟩
    · simp only [sortRows, e, insertRow]
      have hb := hk r (List.mem_cons_self _ _) h (List.mem_cons_of_mem _ hm)
      by_cases hlt : k r < k h
      · rw [hb, if_pos (by simpa using hlt)]
        refine ⟨r, h :: tl, rfl, List.mem_cons_self _ _, ?_⟩
        intro x hx
        rcases List.mem_cons.mp hx with rfl | hx
        · exact le_refl _
        · have := hmin x hx
          omega
      · rw [hb, if_neg (by simpa using hlt)]
        refine ⟨h, insertRow before r tl, rfl, List.mem_cons_of_mem _ hm, ?_⟩
        intro x hx
        rcases List.mem_cons.mp hx with rfl | hx
        · omega
        · exact hmin x hx

theorem toSizeT_cast (x : Int) (h0 : 0 ≤ x) (h1 : x ≤ MAX_SECONDS) : ((toSizeT x : Nat) : Int) = x := by
  unfold MAX_SECONDS at h1
  unfold toSizeT
  rw [Int.emod_eq_of_lt h0 (by omega), Int.toNat_of_nonneg h0]

/-- The single-row timestamp queries of `search_sqlite`, `firstIndex` and `lastIndex`: the scan
ends with `SQLITE_OK`; the index is left untouched when no row is selected, and otherwise is
the second of a selected row that is least (`ASC`) or greatest (`DESC`) among the selected. -/
theorem first_row_scan (table : List Row) (hs : StoreOK table) (id : Int)
    (conds : List (Cmp × List Char)) (ord : OrderBy) (init : Nat) (sel : Row → Bool)
    (hsel : ∀ r ∈ table, (conds.all (fun c => c.1.holds r.Timestamp c.2)
      && decide (r.MeasuringPointID = id)) = sel r) :
    ∃ r, sqlite3_exec_select table ⟨.timestamp, conds, id, some ord, some 1⟩
        timestamp_callback init = (r, SQLITE_OK) ∧
      ((r = init ∧ ∀ row ∈ table, sel row = false) ∨
       (∃ row ∈ table, sel row = true ∧
          (r : Int) = convertTimestampStringToUnixSeconds row.Timestamp ∧
          ∀ row' ∈ table, sel row' = true →
            (match ord with
             | .asc => convertTimestampStringToUnixSeconds row.Timestamp
                        ≤ convertTimestampStringToUnixSeconds row'.Timestamp
             | .desc => convertTimestampStringToUnixSeconds row'.Timestamp
                        ≤ convertTimestampStringToUnixSeconds row.Timestamp))) := by
  have hfilter : table.filter (fun r => conds.all (fun c => c.1.holds r.Timestamp c.2)
      && decide (r.MeasuringPointID = id)) = table.filter sel :=
    List.filter_congr hsel
  have hmem : ∀ x, x ∈ table.filter sel ↔ x ∈ table ∧ sel x = true := fun x => List.mem_filter
  have hlt : ∀ a ∈ table.filter sel, ∀ b ∈ table.filter sel,
      textLt a.Timestamp b.Timestamp = decide (convertTimestampStringToUnixSeconds a.Timestamp
        < convertTimestampStringToUnixSeconds b.Timestamp) := by
    intro a ha b hb
    obtain ⟨a0, a1, ea⟩ := StoreOK_row table hs a ((hmem a).mp ha).1
    obtain ⟨b0, b1, eb⟩ := StoreOK_row table hs b ((hmem b).mp hb).1
    conv_lhs => rw [ea, eb]
    exact textLt_fmt _ _ a0 a1 b0 b1
  unfold sqlite3_exec_select resultRows selectRows
  simp only [hfilter]
  cases ord with
  | asc =>
    simp only []
    rcases sortRows_head (fun a b => textLt a.Timestamp b.Timestamp)
      (fun r => convertTimestampStringToUnixSeconds r.Timestamp) (table.filter sel) hlt with
      ⟨e1, e2⟩ | ⟨h, tl, e, hm, hmin⟩
    · refine ⟨init, ?_, Or.inl ⟨rfl, ?_⟩⟩
      · rw [e2]; rfl
      · intro row hrow
        by_contra hc
        have : row ∈ table.filter sel := (hmem row).mpr ⟨hrow, by simpa using hc⟩
        rw [e1] at this
        exact absurd this (List.not_mem_nil _)
    · obtain ⟨hmt, hsl⟩ := (hmem h).mp hm
      obtain ⟨k0, k1, _⟩ := StoreOK_row table hs h hmt
      refine ⟨toSizeT (convertTimestampStringToUnixSeconds h.Timestamp), ?_, Or.inr ⟨h, hmt, hsl,
        toSizeT_cast _ k0 k1, ?_⟩⟩
      · rw [e]; rfl
      · intro row' hr' hs'
        exact hmin row' ((hmem row').mpr ⟨hr', hs'⟩)
  | desc =>
    simp only []
    have hlt' : ∀ a ∈ table.filter sel, ∀ b ∈ table.filter sel,
        (fun a b : Row => textLt b.Timestamp a.Timestamp) a b
          = decide (-convertTimestampStringToUnixSeconds a.Timestamp
            < -convertTimestampStringToUnixSeconds b.Timestamp) := by
      intro a ha b hb
      simp only [hlt b hb a ha, decide_eq_decide]
      omega
    rcases sortRows_head (fun a b => textLt b.Timestamp a.Timestamp)
      (fun r => -convertTimestampStringToUnixSeconds r.Timestamp) (table.filter sel) hlt' with
      ⟨e1, e2⟩ | ⟨h, tl, e, hm, hmin⟩
    · refine ⟨init, ?_, Or.inl ⟨rfl, ?_⟩⟩
      · rw [e2]; rfl
      · intro row hrow
        by_contra hc
        have : row ∈ table.filter sel := (hmem row).mpr ⟨hrow, by simpa using hc⟩
        rw [e1] at this
        exact absurd this (List.not_mem_nil _)
    · obtain ⟨hmt, hsl⟩ := (hmem h).mp hm
      obtain ⟨k0, k1, _⟩ := StoreOK_row table hs h hmt
      refine ⟨toSizeT (convertTimestampStringToUnixSeconds h.Timestamp), ?_, Or.inr ⟨h, hmt, hsl,
        toSizeT_cast _ k0 k1, ?_⟩⟩
      · rw [e]; rfl
      · intro row' hr' hs'
        have := hmin row' ((hmem row').mpr ⟨hr', hs'⟩)
        simp only [] at this
        omega

theorem qualifies_eq_rel (S : MatchStrategy) (op : Cmp) (s t : Int)
    (h : (S = .MATCH_EQUAL_OR_AFTER ∧ op = .ge) ∨ (S = .MATCH_AFTER ∧ op = .gt) ∨
      (S = .MATCH_EQUAL_OR_BEFORE ∧ op = .le) ∨ (S = .MATCH_BEFORE ∧ op = .lt)) :
    op.rel s t = qualifies S s t := by
  rcases h with ⟨rfl, rfl⟩ | ⟨rfl, rfl⟩ | ⟨rfl, rfl⟩ | ⟨rfl, rfl⟩ <;> rfl

/-- The byte-wise order is asymmetric. -/
theorem textLt_asymm (x y : List Char) (h : textLt x y = true) : textLt y x = false := by
  induction x generalizing y with
  | nil =>
    cases y with
    | nil => rfl
    | cons d ds => rfl
  | cons a as ih =>
    cases y with
    | nil => simp [textLt] at h
    | cons d ds =>
      simp only [textLt] at h ⊢
      by_cases h1 : a.toNat < d.toNat
      · rw [if_neg (by omega), if_neg (by omega)]
      · rw [if_neg h1] at h
        by_cases h2 : a.toNat = d.toNat
        · rw [if_pos h2] at h
          rw [if_neg (by omega), if_pos h2.symm]
          exact ih ds h
        · rw [if_neg h2] at h
          exact absurd h (by decide)

/-- The byte-wise order is a weak order: a text strictly before another is strictly before
any third text or that third text is strictly before the other. -/
theorem textLt_cotrans (x y z : List Char) (h : textLt x z = true) :
    textLt x y = true ∨ textLt y z = true := by
  induction x generalizing y z with
  | nil =>
    cases z with
    | nil => simp [textLt] at h
    | cons c cs =>
      cases y with
      | nil => right; rfl
      | cons d ds => left; rfl
  | cons a as ih =>
    cases z with
    | nil => simp [textLt] at h
    | cons c cs =>
      cases y with
      | nil => right; rfl
      | cons d ds =>
        simp only [textLt] at h ⊢
        by_cases h1 : a.toNat < d.toNat
        · left; rw [if_pos h1]
        · by_cases h2 : d.toNat < c.toNat
          · right; rw [if_pos h2]
          · have h3 : ¬ a.toNat < c.toNat := by omega
            rw [if_neg h3] at h
            by_cases h4 : a.toNat = c.toNat
            · rw [if_pos h4] at h
              have h5 : a.toNat = d.toNat := by omega
              have h6 : d.toNat = c.toNat := by omega
              rw [if_neg h1, if_pos h5, if_neg h2, if_pos h6]
              exact ih ds cs h
            · rw [if_neg h4] at h
              exact absurd h (by decide)

/-- A second before 1970 whose text is byte-wise before the text of second 0 compares, as
text, with every second of the years 1970 to 9999 the way the seconds compare. -/
theorem Cmp_holds_fmt_early (op : Cmp) (s t : Int) (h0 : 0 ≤ s) (h1 : s ≤ MAX_SECONDS)
    (ht : t < 0)
    (hx : textLt (convertUnixSecondsToTimestampString t)
      (convertUnixSecondsToTimestampString 0) = true) :
    op.holds (convertUnixSecondsToTimestampString s) (convertUnixSecondsToTimestampString t) =
      op.rel s t := by
  have hs0 := textLt_fmt s 0 h0 h1 (le_refl 0) (by decide)
  rw [decide_eq_false (by omega)] at hs0
  have a : textLt (convertUnixSecondsToTimestampString t)
      (convertUnixSecondsToTimestampString s) = true := by
    rcases textLt_cotrans _ (convertUnixSecondsToTimestampString s) _ hx with h | h
    · exact h
    · rw [hs0] at h
      exact absurd h (by decide)
  have b := textLt_asymm _ _ a
  cases op <;> simp only [Cmp.holds, Cmp.rel, textLe, a, b]
  · simp; omega
  · simp; omega
  · simp; omega
  · simp; omega

/-- The seconds whose text the queries can compare with the stored texts: those of the
years 1000 to 9999, whose text has a four-digit year, and earlier ones whose text is
byte-wise before the text of second 0. -/
theorem Cmp_holds_fmt_ref (op : Cmp) (s t : Int) (h0 : 0 ≤ s) (h1 : s ≤ MAX_SECONDS)
    (h2 : MIN_TEXT_SECONDS ≤ t ∨ (MIN_SECONDS ≤ t ∧
      textLt (convertUnixSecondsToTimestampString t)
        (convertUnixSecondsToTimestampString 0) = true))
    (h3 : t ≤ MAX_SECONDS) :
    op.holds (convertUnixSecondsToTimestampString s) (convertUnixSecondsToTimestampString t) =
      op.rel s t := by
  by_cases ht : 0 ≤ t
  · exact Cmp_holds_fmt op s t h0 h1 ht h3
  · rcases h2 with h2 | ⟨_, h2⟩
    · exact Cmp_holds_fmt_wide op s t (min_text_seconds_le s h0) h1 h2 h3
    · exact Cmp_holds_fmt_early op s t h0 h1 (not_le.mp ht) h2

/-- What `search_sqlite` leaves in `*index`, for a store with well-formed timestamps and a
reference second whose text has a four-digit year (years 1000 to 9999) or, before that, is
byte-wise before the text of second 0. -/
theorem search_sqlite_spec (context : context_sqlite) (hs : StoreOK context.sqlite) (t : Int)
    (h0 : MIN_TEXT_SECONDS ≤ t ∨ (MIN_SECONDS ≤ t ∧
      textLt (convertUnixSecondsToTimestampString t)
        (convertUnixSecondsToTimestampString 0) = true))
    (h1 : t ≤ MAX_SECONDS) (S : MatchStrategy)
    (hS : S ≠ .MATCH_EQUAL) :
    MatchSpec (storedSeconds context) S (fun s => qualifies S s t) (search_sqlite context t S).2 := by
  have key : ∀ (op : Cmp) (ord : OrderBy),
      ((S = .MATCH_EQUAL_OR_AFTER ∧ op = .ge) ∨ (S = .MATCH_AFTER ∧ op = .gt) ∨
        (S = .MATCH_EQUAL_OR_BEFORE ∧ op = .le) ∨ (S = .MATCH_BEFORE ∧ op = .lt)) →
      ((S = .MATCH_EQUAL_OR_AFTER ∨ S = .MATCH_AFTER) ∧ ord = .asc ∨
        (S = .MATCH_EQUAL_OR_BEFORE ∨ S = .MATCH_BEFORE) ∧ ord = .desc) →
      searchQuery context t S = some ⟨.timestamp, [(op, convertUnixSecondsToTimestampString t)],
        context.measuringPointID, some ord, some 1⟩ →
      MatchSpec (storedSeconds context) S (fun s => qualifies S s t)
        (search_sqlite context t S).2 := by
    intro op ord hop hord hq
    have hsel : ∀ r ∈ context.sqlite,
        ([(op, convertUnixSecondsToTimestampString t)].all (fun c => c.1.holds r.Timestamp c.2)
          && decide (r.MeasuringPointID = context.measuringPointID)) =
        (qualifies S (convertTimestampStringToUnixSeconds r.Timestamp) t
          && decide (r.MeasuringPointID = context.measuringPointID)) := by
      intro r hr
      obtain ⟨k0, k1, e⟩ := StoreOK_row _ hs r hr
      simp only [List.all_cons, List.all_nil, Bool.and_true]
      conv_lhs => rw [e]
      rw [Cmp_holds_fmt_ref op _ t k0 k1 h0 h1, qualifies_eq_rel S op _ t hop]
    obtain ⟨r, er, hr⟩ := first_row_scan context.sqlite hs context.measuringPointID
      [(op, convertUnixSecondsToTimestampString t)] ord END_OF_DATA _ hsel
    unfold search_sqlite
    simp only [hq, er]
    rw [if_neg (by simp)]
    simp only []
    unfold MatchSpec storedSeconds
    rcases hr with ⟨e1, hnone⟩ | ⟨row, hrow, hsl, hkey, hmin⟩
    · left
      refine ⟨e1, ?_⟩
      intro s hsm
      obtain ⟨x, hx, rfl⟩ := List.mem_map.mp hsm
      obtain ⟨hxt, hxid⟩ := List.mem_filter.mp hx
      have := hnone x hxt
      rw [hxid, Bool.and_true] at this
      exact this
    · right
      rw [Bool.and_eq_true] at hsl
      refine ⟨_, List.mem_map.mpr ⟨row, List.mem_filter.mpr ⟨hrow, hsl.2⟩, rfl⟩, hkey, hsl.1, ?_⟩
      intro s' hs' hq'
      obtain ⟨x, hx, rfl⟩ := List.mem_map.mp hs'
      obtain ⟨hxt, hxid⟩ := List.mem_filter.mp hx
      have hq2 : qualifies S (convertTimestampStringToUnixSeconds x.Timestamp) t = true := hq'
      have hm := hmin x hxt (by rw [hq2, hxid]; rfl)
      rcases hord with ⟨hS', rfl⟩ | ⟨hS', rfl⟩
      · rcases hS' with rfl | rfl <;> simpa [extremal] using hm
      · rcases hS' with rfl | rfl <;> simpa [extremal] using hm
  cases S with
  | MATCH_EQUAL => exact absurd rfl hS
  | MATCH_AFTER => exact key .gt .asc (by simp) (by simp) rfl
  | MATCH_EQUAL_OR_AFTER => exact key .ge .asc (by simp) (by simp) rfl
  | MATCH_BEFORE => exact key .lt .desc (by simp) (by simp) rfl
  | MATCH_EQUAL_OR_BEFORE => exact key .le .desc (by simp) (by simp) rfl

theorem copyDataValues_callback_step (ctx : context_copyDataValues) (d : List (List Char)) :
    (copyDataValues_callback ctx d).1.counter = ctx.counter + 1 ∧
    (copyDataValues_callback ctx d).1.maxValues = ctx.maxValues ∧
    (copyDataValues_callback ctx d).1.values.length = ctx.values.length + 1 ∧
    (copyDataValues_callback ctx d).2 = if ctx.counter + 1 = ctx.maxValues then 1 else 0 := by
  unfold copyDataValues_callback
  simp only []
  split_ifs <;> simp

theorem execRows_cons {σ : Type} (callback : σ → List (List Char) → σ × Int)
    (d : List (List Char)) (ds : List (List (List Char))) (ctx : σ) :
    execRows callback (d :: ds) ctx =
      if (callback ctx d).2 ≠ 0 then ((callback ctx d).1, SQLITE_ABORT)
      else execRows callback ds (callback ctx d).1 := rfl

/-- The callback loop of the extraction: the cap `maxValues` stays, one slot is written per
counted row; starting below the cap the scan stops with `SQLITE_ABORT` exactly when the cap
is reached, and starting at or above the cap it never stops. -/
theorem execRows_copy (rows : List (List (List Char))) :
    ∀ ctx : context_copyDataValues,
      (execRows copyDataValues_callback rows ctx).1.maxValues = ctx.maxValues ∧
      (execRows copyDataValues_callback rows ctx).1.values.length
        = ctx.values.length + ((execRows copyDataValues_callback rows ctx).1.counter - ctx.counter) ∧
      (ctx.counter < ctx.maxValues →
        (rows.length < ctx.maxValues - ctx.counter →
          (execRows copyDataValues_callback rows ctx).2 = SQLITE_OK ∧
          (execRows copyDataValues_callback rows ctx).1.counter = ctx.counter + rows.length) ∧
        (ctx.maxValues - ctx.counter ≤ rows.length →
          (execRows copyDataValues_callback rows ctx).2 = SQLITE_ABORT ∧
          (execRows copyDataValues_callback rows ctx).1.counter = ctx.maxValues)) ∧
      (ctx.maxValues ≤ ctx.counter →
        (execRows copyDataValues_callback rows ctx).2 = SQLITE_OK ∧
        (execRows copyDataValues_callback rows ctx).1.counter = ctx.counter + rows.length) := by
  induction rows with
  | nil =>
    intro ctx
    simp [execRows]
    intro h1 h2
    omega
  | cons d ds ih =>
    intro ctx
    obtain ⟨c1, c2, c3, c4⟩ := copyDataValues_callback_step ctx d
    have e := execRows_cons copyDataValues_callback d ds ctx
    by_cases hc : ctx.counter + 1 = ctx.maxValues
    · rw [c4, if_pos hc, if_pos (by decide)] at e
      rw [e]
      simp only [c1, c2, c3, List.length_cons]
      refine ⟨trivial, by omega, fun h => ⟨fun h2 => by omega, fun _ => ⟨trivial, hc⟩⟩,
        fun h => by omega⟩
    · rw [c4, if_neg hc, if_neg (by decide)] at e
      rw [e]
      obtain ⟨i1, i2, i3, i4⟩ := ih (copyDataValues_callback ctx d).1
      rw [c1, c2] at i3 i4
      rw [c2] at i1
      rw [c3, c1] at i2
      simp only [List.length_cons]
      refine ⟨i1, ?_, ?_, ?_⟩
      · have hge : ctx.counter + 1 ≤ (execRows copyDataValues_callback ds
            (copyDataValues_callback ctx d).1).1.counter := by
          by_cases hlt : ctx.counter + 1 < ctx.maxValues
          · by_cases hl : ds.length < ctx.maxValues - (ctx.counter + 1)
            · rw [((i3 hlt).1 hl).2]; omega
            · rw [((i3 hlt).2 (by omega)).2]; omega
          · rw [(i4 (by omega)).2]; omega
        omega
      · intro h
        have hlt : ctx.counter + 1 < ctx.maxValues := by omega
        refine ⟨fun h2 => ?_, fun h2 => ?_⟩
        · have := (i3 hlt).1 (by omega)
          exact ⟨this.1, by rw [this.2]; omega⟩
        · exact (i3 hlt).2 (by omega)
      · intro h
        have := i4 (by omega)
        exact ⟨this.1, by rw [this.2]; omega⟩

theorem copyDataValues_scan_eq (context : context_sqlite) (a b : Nat) (reverse : Bool) (m : Nat) :
    copyDataValues_scan context a b reverse m =
      execRows copyDataValues_callback
        ((intervalRows context.sqlite 1 a b).map fun r => [r.Timestamp, sqliteRealText r.Value])
        ⟨m, 0, []⟩ := rfl

/-- The outcome of an extraction in terms of the number of rows the `WHERE` clause selects. -/
theorem copyDataValues_scan_spec (context : context_sqlite) (a b : Nat) (reverse : Bool) (m : Nat) :
    (copyDataValues_scan context a b reverse m).1.values.length
      = (copyDataValues_scan context a b reverse m).1.counter ∧
    (1 ≤ m →
      ((intervalRows context.sqlite 1 a b).length < m →
        (copyDataValues_scan context a b reverse m).2 = SQLITE_OK ∧
        (copyDataValues_scan context a b reverse m).1.counter
          = (intervalRows context.sqlite 1 a b).length) ∧
      (m ≤ (intervalRows context.sqlite 1 a b).length →
        (copyDataValues_scan context a b reverse m).2 = SQLITE_ABORT ∧
        (copyDataValues_scan context a b reverse m).1.counter = m)) ∧
    (m = 0 →
      (copyDataValues_scan context a b reverse m).2 = SQLITE_OK ∧
      (copyDataValues_scan context a b reverse m).1.counter
        = (intervalRows context.sqlite 1 a b).length) := by
  rw [copyDataValues_scan_eq]
  obtain ⟨i1, i2, i3, i4⟩ := execRows_copy
    ((intervalRows context.sqlite 1 a b).map fun r => [r.Timestamp, sqliteRealText r.Value])
    ⟨m, 0, []⟩
  simp only [List.length_map, List.length_nil, Nat.sub_zero, Nat.zero_add] at i2 i3 i4
  refine ⟨i2, fun hm => ?_, fun hm => ?_⟩
  · exact i3 (by omega)
  · exact i4 (by omega)

theorem wrapInt64_index (a : Nat) (ha : (a : Int) ≤ MAX_SECONDS) : wrapInt64 (a : Int) = a := by
  unfold MAX_SECONDS at ha
  exact wrapInt64_id _ (by omega) (by omega)

/-- On a store with well-formed timestamps and for interval bounds in the range of the text
format, the `WHERE` clause of the interval queries selects the rows whose second lies in the
interval. -/
theorem intervalRows_eq (table : List Row) (hs : StoreOK table) (id : Int) (a b : Nat)
    (ha : (a : Int) ≤ MAX_SECONDS) (hb : (b : Int) ≤ MAX_SECONDS) :
    intervalRows table id a b =
      table.filter fun r =>
        decide ((a : Int) ≤ convertTimestampStringToUnixSeconds r.Timestamp ∧
          convertTimestampStringToUnixSeconds r.Timestamp ≤ (b : Int))
        && decide (r.MeasuringPointID = id) := by
  unfold intervalRows
  apply List.filter_congr
  intro r hr
  obtain ⟨k0, k1, e⟩ := StoreOK_row table hs r hr
  rw [wrapInt64_index a ha, wrapInt64_index b hb]
  simp only [List.all_cons, List.all_nil, Bool.and_true]
  conv_lhs => rw [e]
  rw [Cmp_holds_fmt .ge _ a k0 k1 (by omega) ha, Cmp_holds_fmt .le _ b k0 k1 (by omega) hb]
  simp only [Cmp.rel, Bool.decide_and]

theorem intervalRows_length (context : context_sqlite) (hc : ContextOK context) (a b : Nat)
    (ha : (a : Int) ≤ MAX_SECONDS) (hb : (b : Int) ≤ MAX_SECONDS) :
    (intervalRows context.sqlite 1 a b).length = samplesInInterval context a b := by
  rw [intervalRows_eq _ hc.2 1 a b ha hb]
  unfold samplesInInterval storedSeconds
  rw [hc.1, List.filter_map, List.length_map, List.filter_filter]
  rfl


/-- Reading back with `strtol` the decimal text of a count below `2^63` gives the count. -/
theorem strtol_fmtDecimal (n : Nat) (h : n < 9223372036854775808) :
    strtol (fmtDecimal n) = n := by
  obtain ⟨c, tl, e, hc⟩ := decimalDigits_head 19 n
  obtain ⟨k, hk⟩ := scanDigits_decimalDigits 20 n (by norm_num; omega) []
  have hk0 := hk 0
  rw [List.append_nil] at hk0
  obtain ⟨n1, n2⟩ := isDigit_not_sign c hc
  have hs := isDigit_not_space c hc
  unfold strtol fmtDecimal
  have e1 : skipSpaces (decimalDigits 20 n) = decimalDigits 20 n := by
    rw [e]; simp [skipSpaces, hs]
  have e2 : (decimalDigits 20 n).head? = some c := by rw [e]; rfl
  simp only [e1, e2, Option.some.injEq, n1, n2, or_self, if_false, decide_False, hk0]
  simp [scanDigits]
  omega

/-- The function `resultSize_sqliteHDB` returns the number of rows its `WHERE` clause selects. -/
theorem resultSize_eq (context : context_sqlite) (a b : Nat)
    (hl : context.sqlite.length < 9223372036854775808) :
    resultSize_sqliteHDB context a b
      = (intervalRows context.sqlite context.measuringPointID a b).length := by
  have hle : (intervalRows context.sqlite context.measuringPointID a b).length
      ≤ context.sqlite.length := List.length_filter_le _ _
  have e : resultSize_sqliteHDB context a b
      = toSizeT (strtol (fmtDecimal
          (intervalRows context.sqlite context.measuringPointID a b).length)) := rfl
  rw [e, strtol_fmtDecimal _ (by omega)]
  unfold toSizeT
  rw [Int.emod_eq_of_lt (by omega) (by omega)]
  simp

/-- An inverted interval whose start lies in the range of the text format selects no row,
whatever the table holds. -/
theorem intervalRows_inverted (table : List Row) (id : Int) (a b : Nat)
    (ha : (a : Int) ≤ MAX_SECONDS) (hba : b < a) :
    intervalRows table id a b = [] := by
  have hb : (b : Int) ≤ MAX_SECONDS := by omega
  have hlt := textLt_fmt (b : Int) (a : Int) (by omega) hb (by omega) ha
  rw [decide_eq_true (by exact_mod_cast hba)] at hlt
  unfold intervalRows
  rw [List.filter_eq_nil_iff]
  intro r _
  rw [wrapInt64_index a ha, wrapInt64_index b hb]
  simp only [List.all_cons, List.all_nil, Bool.and_true, Cmp.holds, textLe]
  rcases textLt_cotrans _ r.Timestamp _ hlt with h | h <;> simp [h]

/-- The count over an inverted interval whose start lies in the range of the text format is
zero on every store. -/
theorem resultSize_inverted (context : context_sqlite) (a b : Nat)
    (ha : (a : Int) ≤ MAX_SECONDS) (hba : b < a) :
    resultSize_sqliteHDB context a b = 0 := by
  have e : resultSize_sqliteHDB context a b
      = toSizeT (strtol (fmtDecimal
          (intervalRows context.sqlite context.measuringPointID a b).length)) := rfl
  rw [e, intervalRows_inverted _ _ a b ha hba]
  decide

/-! ## The properties of the specification -/

theorem demoStore_ok : ContextOK demoStore := by
  refine ⟨rfl, ?_⟩
  intro r hr
  simp only [demoStore, List.mem_cons, List.mem_singleton, List.not_mem_nil, or_false] at hr
  rcases hr with rfl | rfl | rfl
  · exact ⟨100, by decide, by decide, rfl⟩
  · exact ⟨200, by decide, by decide, rfl⟩
  · exact ⟨300, by decide, by decide, rfl⟩

/-- C1 (amended): on a store whose rows carry timestamps of the years 1970 to 9999, for every
whole-second timestamp `t ≤ 253402300799` (9999-12-31 23:59:59) that is at least
`-30610224000` (1000-01-01 00:00:00, the first second whose text has a four-digit year), or
that lies in the years 0 to 999 and has a text byte-wise before `1970-01-01 00:00:00`, and
for each of the four strategies, `getDateTimeMatch_sqliteHDB` returns `END_OF_DATA` when no
stored timestamp of the series satisfies the strategy's relation to `t`, and otherwise a
stored timestamp that satisfies it and is extremal among those that do (smallest for the
"after" strategies, largest for the "before" strategies). -/
theorem matchIndex_whole_seconds (context : context_sqlite) (t : Int) (S : MatchStrategy)
    (hs : StoreOK context.sqlite)
    (h0 : MIN_TEXT_SECONDS ≤ t ∨ (MIN_SECONDS ≤ t ∧
      textLt (convertUnixSecondsToTimestampString t)
        (convertUnixSecondsToTimestampString 0) = true))
    (h1 : t ≤ MAX_SECONDS) (hS : S ≠ .MATCH_EQUAL) :
    MatchSpec (storedSeconds context) S (fun s => qualifies S s t)
      (getDateTimeMatch_sqliteHDB context (UA_DateTime_fromUnixTime t) S) := by
  have h2 : -922337203685 ≤ t := by
    unfold MIN_TEXT_SECONDS MIN_SECONDS at h0
    omega
  have h3 : t ≤ 922337203685 := by unfold MAX_SECONDS at h1; omega
  unfold getDateTimeMatch_sqliteHDB
  simp only [UA_DateTime_toUnixTime_fromUnixTime t h2 h3]
  exact search_sqlite_spec context hs t h0 h1 S hS

/-- Witness of `matchIndex_whole_seconds` on the scenario store (samples at seconds 100, 200,
300), with the four results of the scenario, and at the first second of the year 0, whose
text `0-01-01 00:00:00` is byte-wise before `1970-01-01 00:00:00`. -/
theorem matchIndex_whole_seconds_witness :
    (StoreOK demoStore.sqlite ∧ MIN_TEXT_SECONDS ≤ 150 ∧ (150 : Int) ≤ MAX_SECONDS ∧
     MatchStrategy.MATCH_EQUAL_OR_AFTER ≠ MatchStrategy.MATCH_EQUAL ∧
     MatchSpec (storedSeconds demoStore) .MATCH_EQUAL_OR_AFTER
      (fun s => qualifies .MATCH_EQUAL_OR_AFTER s 150)
      (getDateTimeMatch_sqliteHDB demoStore (UA_DateTime_fromUnixTime 150)
        .MATCH_EQUAL_OR_AFTER)) ∧
    (MIN_SECONDS ≤ -62167219200 ∧
     textLt (convertUnixSecondsToTimestampString (-62167219200))
      (convertUnixSecondsToTimestampString 0) = true ∧
     (-62167219200 : Int) ≤ MAX_SECONDS ∧
     MatchSpec (storedSeconds demoStore) .MATCH_EQUAL_OR_AFTER
      (fun s => qualifies .MATCH_EQUAL_OR_AFTER s (-62167219200))
      (getDateTimeMatch_sqliteHDB demoStore (UA_DateTime_fromUnixTime (-62167219200))
        .MATCH_EQUAL_OR_AFTER)) ∧
    getDateTimeMatch_sqliteHDB demoStore (UA_DateTime_fromUnixTime 150) .MATCH_EQUAL_OR_AFTER = 200 ∧
    getDateTimeMatch_sqliteHDB demoStore (UA_DateTime_fromUnixTime 200) .MATCH_AFTER = 300 ∧
    getDateTimeMatch_sqliteHDB demoStore (UA_DateTime_fromUnixTime 200) .MATCH_EQUAL_OR_BEFORE = 200 ∧
    getDateTimeMatch_sqliteHDB demoStore (UA_DateTime_fromUnixTime 50) .MATCH_BEFORE = END_OF_DATA ∧
    getDateTimeMatch_sqliteHDB demoStore (UA_DateTime_fromUnixTime (-30610224000))
      .MATCH_EQUAL_OR_AFTER = 100 :=
  ⟨⟨demoStore_ok.2, by decide, by decide, by decide,
    matchIndex_whole_seconds demoStore 150 .MATCH_EQUAL_OR_AFTER demoStore_ok.2
      (Or.inl (by decide)) (by decide) (by decide)⟩,
   ⟨by decide, by decide, by decide,
    matchIndex_whole_seconds demoStore (-62167219200) .MATCH_EQUAL_OR_AFTER demoStore_ok.2
      (Or.inr ⟨by decide, by decide⟩) (by decide) (by decide)⟩,
   by decide, by decide, by decide, by decide, by decide⟩

/-- C1 (counterexample): where the text of `t` does not compare with the stored texts the
way the seconds do, the answer is wrong.  For `t = 253402300800` (10000-01-01 00:00:00)
the 20-byte buffer cannot hold the text; the query compares against `10000-01-01 00:00:`
and `EQUAL_OR_AFTER` returns the sample at second 100, which is before `t`, although no
stored timestamp qualifies.  For `t = -30610224001` (0999-12-31 23:59:59) the year is
printed as `999`; the query compares against `999-12-31 23:59:59` and `EQUAL_OR_AFTER`
returns `END_OF_DATA` although every stored timestamp qualifies.  For `t = -62167219201`,
the last second before the year 0, the year wraps in its unsigned 16-bit field, the query
compares against `65535-12-31 23:59:` and `EQUAL_OR_AFTER` returns `END_OF_DATA` as well.
For `t = 600000000000` (year 20983) on a store with a sample at 9999-12-31 23:59:59,
`EQUAL_OR_BEFORE` returns 100 although that later sample is before `t` too. -/
theorem matchIndex_whole_seconds_counterexample :
    (getDateTimeMatch_sqliteHDB demoStore (UA_DateTime_fromUnixTime 253402300800)
        .MATCH_EQUAL_OR_AFTER = 100 ∧
     ¬ MatchSpec (storedSeconds demoStore) .MATCH_EQUAL_OR_AFTER
      (fun s => qualifies .MATCH_EQUAL_OR_AFTER s 253402300800)
      (getDateTimeMatch_sqliteHDB demoStore (UA_DateTime_fromUnixTime 253402300800)
        .MATCH_EQUAL_OR_AFTER)) ∧
    (getDateTimeMatch_sqliteHDB demoStore (UA_DateTime_fromUnixTime (-30610224001))
        .MATCH_EQUAL_OR_AFTER = END_OF_DATA ∧
     ¬ MatchSpec (storedSeconds demoStore) .MATCH_EQUAL_OR_AFTER
      (fun s => qualifies .MATCH_EQUAL_OR_AFTER s (-30610224001))
      (getDateTimeMatch_sqliteHDB demoStore (UA_DateTime_fromUnixTime (-30610224001))
        .MATCH_EQUAL_OR_AFTER)) ∧
    (getDateTimeMatch_sqliteHDB demoStore (UA_DateTime_fromUnixTime (-62167219201))
        .MATCH_EQUAL_OR_AFTER = END_OF_DATA ∧
     ¬ MatchSpec (storedSeconds demoStore) .MATCH_EQUAL_OR_AFTER
      (fun s => qualifies .MATCH_EQUAL_OR_AFTER s (-62167219201))
      (getDateTimeMatch_sqliteHDB demoStore (UA_DateTime_fromUnixTime (-62167219201))
        .MATCH_EQUAL_OR_AFTER)) ∧
    (storedSeconds lateStore = [100, 253402300799] ∧
     getDateTimeMatch_sqliteHDB lateStore (UA_DateTime_fromUnixTime 600000000000)
        .MATCH_EQUAL_OR_BEFORE = 100 ∧
     ¬ MatchSpec (storedSeconds lateStore) .MATCH_EQUAL_OR_BEFORE
      (fun s => qualifies .MATCH_EQUAL_OR_BEFORE s 600000000000)
      (getDateTimeMatch_sqliteHDB lateStore (UA_DateTime_fromUnixTime 600000000000)
        .MATCH_EQUAL_OR_BEFORE)) := by
  decide
/-- C9 (amended): for every high-resolution timestamp `T` (100 ns ticks) and each of the four
strategies, `getDateTimeMatch_sqliteHDB` answers for the whole second of `T`,
`UA_DateTime_toUnixTime T` (the ticks since 1970 divided by ten million, cut toward zero):
when that second is at most `253402300799` (9999-12-31 23:59:59) and either at least
`-30610224000` (1000-01-01 00:00:00) or in the years 0 to 999 with a text byte-wise before
`1970-01-01 00:00:00`, the result is the stored timestamp that is extremal among the stored
timestamps satisfying the strategy's relation to the whole second, or `END_OF_DATA` if none
does. -/
theorem matchIndex_truncates (context : context_sqlite) (T : Int) (S : MatchStrategy)
    (hs : StoreOK context.sqlite)
    (h0 : MIN_TEXT_SECONDS ≤ UA_DateTime_toUnixTime T ∨ (MIN_SECONDS ≤ UA_DateTime_toUnixTime T ∧
      textLt (convertUnixSecondsToTimestampString (UA_DateTime_toUnixTime T))
        (convertUnixSecondsToTimestampString 0) = true))
    (h1 : UA_DateTime_toUnixTime T ≤ MAX_SECONDS) (hS : S ≠ .MATCH_EQUAL) :
    MatchSpec (storedSeconds context) S (fun s => qualifies S s (UA_DateTime_toUnixTime T))
      (getDateTimeMatch_sqliteHDB context T S) := by
  unfold getDateTimeMatch_sqliteHDB
  exact search_sqlite_spec context hs _ h0 h1 S hS

/-- Witness of `matchIndex_truncates` on the scenario store at `T` = 200.5 s, with the four
results there: `BEFORE` gives 100, `EQUAL_OR_BEFORE` and `EQUAL_OR_AFTER` give 200, `AFTER`
gives 300; and half a second before 1970-01-01 00:00:00, where the whole second is 0. -/
theorem matchIndex_truncates_witness :
    StoreOK demoStore.sqlite ∧
    MIN_TEXT_SECONDS ≤ UA_DateTime_toUnixTime (UA_DateTime_fromUnixTime 200 + 5000000) ∧
    UA_DateTime_toUnixTime (UA_DateTime_fromUnixTime 200 + 5000000) ≤ MAX_SECONDS ∧
    MatchStrategy.MATCH_BEFORE ≠ MatchStrategy.MATCH_EQUAL ∧
    MatchSpec (storedSeconds demoStore) .MATCH_BEFORE
      (fun s => qualifies .MATCH_BEFORE s (UA_DateTime_toUnixTime (UA_DateTime_fromUnixTime 200 + 5000000)))
      (getDateTimeMatch_sqliteHDB demoStore (UA_DateTime_fromUnixTime 200 + 5000000) .MATCH_BEFORE) ∧
    UA_DateTime_toUnixTime (UA_DateTime_fromUnixTime 200 + 5000000) = 200 ∧
    getDateTimeMatch_sqliteHDB demoStore (UA_DateTime_fromUnixTime 200 + 5000000) .MATCH_BEFORE = 100 ∧
    getDateTimeMatch_sqliteHDB demoStore (UA_DateTime_fromUnixTime 200 + 5000000)
      .MATCH_EQUAL_OR_BEFORE = 200 ∧
    getDateTimeMatch_sqliteHDB demoStore (UA_DateTime_fromUnixTime 200 + 5000000)
      .MATCH_EQUAL_OR_AFTER = 200 ∧
    getDateTimeMatch_sqliteHDB demoStore (UA_DateTime_fromUnixTime 200 + 5000000) .MATCH_AFTER = 300 ∧
    UA_DateTime_toUnixTime (UA_DATETIME_UNIX_EPOCH - 5000000) = 0 ∧
    getDateTimeMatch_sqliteHDB demoStore (UA_DATETIME_UNIX_EPOCH - 5000000)
      .MATCH_EQUAL_OR_AFTER = 100 :=
  ⟨demoStore_ok.2, by decide, by decide, by decide,
    matchIndex_truncates demoStore (UA_DateTime_fromUnixTime 200 + 5000000) .MATCH_BEFORE
      demoStore_ok.2 (Or.inl (by decide)) (by decide) (by decide),
    by decide, by decide, by decide, by decide, by decide, by decide, by decide⟩

/-- C9 (counterexample): at `T` = 200.5 s on the scenario store the sample at second 200 is
strictly before `T`, yet `BEFORE` returns 100: the result is not the largest stored timestamp
below `T` when the comparison is made at full resolution.  And the answer for the whole
second is right only while its text compares with the stored texts the way the seconds do:
at `T` = 10000-01-01 00:00:00 `EQUAL_OR_AFTER` returns the sample at second 100 although no
stored timestamp qualifies, at `T` = 0999-12-31 23:59:59 and at the last second before the
year 0 it returns `END_OF_DATA` although every stored timestamp qualifies, and at second
600000000000 (year 20983) on a store with a sample at 9999-12-31 23:59:59
`EQUAL_OR_BEFORE` returns 100 although that later sample is before `T` too. -/
theorem matchIndex_full_resolution_counterexample :
    (getDateTimeMatch_sqliteHDB demoStore (UA_DateTime_fromUnixTime 200 + 5000000) .MATCH_BEFORE = 100 ∧
     ¬ MatchSpec (storedSeconds demoStore) .MATCH_BEFORE
      (fun s => qualifies .MATCH_BEFORE (UA_DateTime_fromUnixTime s)
        (UA_DateTime_fromUnixTime 200 + 5000000))
      (getDateTimeMatch_sqliteHDB demoStore (UA_DateTime_fromUnixTime 200 + 5000000) .MATCH_BEFORE)) ∧
    (UA_DateTime_toUnixTime (UA_DateTime_fromUnixTime 253402300800) = 253402300800 ∧
     ¬ MatchSpec (storedSeconds demoStore) .MATCH_EQUAL_OR_AFTER
      (fun s => qualifies .MATCH_EQUAL_OR_AFTER s
        (UA_DateTime_toUnixTime (UA_DateTime_fromUnixTime 253402300800)))
      (getDateTimeMatch_sqliteHDB demoStore (UA_DateTime_fromUnixTime 253402300800)
        .MATCH_EQUAL_OR_AFTER)) ∧
    (UA_DateTime_toUnixTime (UA_DateTime_fromUnixTime (-30610224001)) = -30610224001 ∧
     ¬ MatchSpec (storedSeconds demoStore) .MATCH_EQUAL_OR_AFTER
      (fun s => qualifies .MATCH_EQUAL_OR_AFTER s
        (UA_DateTime_toUnixTime (UA_DateTime_fromUnixTime (-30610224001))))
      (getDateTimeMatch_sqliteHDB demoStore (UA_DateTime_fromUnixTime (-30610224001))
        .MATCH_EQUAL_OR_AFTER)) ∧
    (UA_DateTime_toUnixTime (UA_DateTime_fromUnixTime (-62167219201)) = -62167219201 ∧
     ¬ MatchSpec (storedSeconds demoStore) .MATCH_EQUAL_OR_AFTER
      (fun s => qualifies .MATCH_EQUAL_OR_AFTER s
        (UA_DateTime_toUnixTime (UA_DateTime_fromUnixTime (-62167219201))))
      (getDateTimeMatch_sqliteHDB demoStore (UA_DateTime_fromUnixTime (-62167219201))
        .MATCH_EQUAL_OR_AFTER)) ∧
    (UA_DateTime_toUnixTime (UA_DateTime_fromUnixTime 600000000000) = 600000000000 ∧
     ¬ MatchSpec (storedSeconds lateStore) .MATCH_EQUAL_OR_BEFORE
      (fun s => qualifies .MATCH_EQUAL_OR_BEFORE s
        (UA_DateTime_toUnixTime (UA_DateTime_fromUnixTime 600000000000)))
      (getDateTimeMatch_sqliteHDB lateStore (UA_DateTime_fromUnixTime 600000000000)
        .MATCH_EQUAL_OR_BEFORE)) := by
  decide
/-- C7 (amended): `convertTimestampStringToUnixSeconds (convertUnixSecondsToTimestampString s)
= s` for every number of unix seconds `s` from `-62167219200` (0000-01-01 00:00:00) through
`253402300799` (9999-12-31 23:59:59), and for every later `s` up to `922337203685` that is a
whole minute (`s % 60 = 0`), the seconds being the part of the text that the buffer drops
from the year 10000 on.  The text is the 19-character `YYYY-MM-DD HH:MM:SS` from
`-30610224000` (1000-01-01 00:00:00) through `253402300799`. -/
theorem time_codec_round_trip (s : Int) (h0 : MIN_SECONDS ≤ s)
    (h1 : s ≤ MAX_SECONDS ∨ (s % 60 = 0 ∧ s ≤ 922337203685)) :
    convertTimestampStringToUnixSeconds (convertUnixSecondsToTimestampString s) = s ∧
    (MIN_TEXT_SECONDS ≤ s → s ≤ MAX_SECONDS →
      (convertUnixSecondsToTimestampString s).length = 19) := by
  constructor
  · by_cases h : s ≤ MAX_SECONDS
    · exact codec_roundtrip_wide s h0 h
    · rcases h1 with h1 | ⟨h1, h2⟩
      · exact absurd h1 h
      · rw [codec_roundtrip_minute s (not_le.mp h) h2, h1, sub_zero]
  · intro h2 h3
    obtain ⟨tm, e, _, hv, hy0, hy1⟩ := secs_to_tm_in_text_range s h2 h3
    rw [convertUnixSecondsToTimestampString_eq s tm h2 h3 e hv hy0 hy1]
    rfl

/-- Witness of `time_codec_round_trip` at second 1709164800 (2024-02-29 00:00:00), at the
first second of the year 0 and at a whole minute of the year 10000. -/
theorem time_codec_round_trip_witness :
    (MIN_SECONDS ≤ 1709164800 ∧ (1709164800 : Int) ≤ MAX_SECONDS ∧
     convertUnixSecondsToTimestampString 1709164800 = "2024-02-29 00:00:00".toList ∧
     convertTimestampStringToUnixSeconds (convertUnixSecondsToTimestampString 1709164800)
      = 1709164800) ∧
    (MIN_SECONDS ≤ -62167219200 ∧ (-62167219200 : Int) ≤ MAX_SECONDS ∧
     convertUnixSecondsToTimestampString (-62167219200) = "0-01-01 00:00:00".toList ∧
     convertTimestampStringToUnixSeconds (convertUnixSecondsToTimestampString (-62167219200))
      = -62167219200) ∧
    (MIN_SECONDS ≤ 253402300860 ∧ (253402300860 : Int) % 60 = 0 ∧
     (253402300860 : Int) ≤ 922337203685 ∧
     convertUnixSecondsToTimestampString 253402300860 = "10000-01-01 00:01:".toList ∧
     convertTimestampStringToUnixSeconds (convertUnixSecondsToTimestampString 253402300860)
      = 253402300860) :=
  ⟨⟨by decide, by decide, by decide,
    (time_codec_round_trip 1709164800 (by decide) (Or.inl (by decide))).1⟩,
   ⟨by decide, by decide, by decide,
    (time_codec_round_trip (-62167219200) (by decide) (Or.inl (by decide))).1⟩,
   ⟨by decide, by decide, by decide, by decide,
    (time_codec_round_trip 253402300860 (by decide) (Or.inr ⟨by decide, by decide⟩)).1⟩⟩

/-- C7 (counterexample): second 253402300801 is 10000-01-01 00:00:01; its 20 characters do
not fit the 20-byte buffer with the terminating NUL, `strftime` leaves
`10000-01-01 00:00:`, and parsing that gives 253402300800.  Second -62167219201 is the last
second of the year before the year 0; its year does not fit the unsigned 16-bit field, the
text is `65535-12-31 23:59:` and parsing that gives 161274738169.  Second 922337203740 is the
first whole minute whose seconds times ten million leave 64 bits; it comes back as
-698895159850. -/
theorem time_codec_round_trip_counterexample :
    (convertUnixSecondsToTimestampString 253402300801 = "10000-01-01 00:00:".toList ∧
     convertTimestampStringToUnixSeconds (convertUnixSecondsToTimestampString 253402300801)
      = 253402300800 ∧
     convertTimestampStringToUnixSeconds (convertUnixSecondsToTimestampString 253402300801)
      ≠ 253402300801) ∧
    (convertUnixSecondsToTimestampString (-62167219201) = "65535-12-31 23:59:".toList ∧
     convertTimestampStringToUnixSeconds (convertUnixSecondsToTimestampString (-62167219201))
      = 161274738169 ∧
     convertTimestampStringToUnixSeconds (convertUnixSecondsToTimestampString (-62167219201))
      ≠ -62167219201) ∧
    (convertTimestampStringToUnixSeconds (convertUnixSecondsToTimestampString 922337203740)
      = -698895159850 ∧
     convertTimestampStringToUnixSeconds (convertUnixSecondsToTimestampString 922337203740)
      ≠ 922337203740) := by
  decide

/-- C10: for all unix seconds `s1 < s2` in `0 .. 253402300799` the text of `s1` is strictly
smaller than the text of `s2` in byte-wise order, and each of the four SQL comparisons
`Timestamp >= / > / <= / <` between such texts holds exactly when the numeric comparison of
the seconds does. -/
theorem timestamp_text_order (s1 s2 : Int) (h0 : 0 ≤ s1) (h1 : s1 ≤ MAX_SECONDS) (h2 : 0 ≤ s2)
    (h3 : s2 ≤ MAX_SECONDS) :
    (s1 < s2 → textLt (convertUnixSecondsToTimestampString s1)
      (convertUnixSecondsToTimestampString s2) = true) ∧
    (textLt (convertUnixSecondsToTimestampString s1)
      (convertUnixSecondsToTimestampString s2) = true → s1 < s2) ∧
    (∀ op : Cmp, op.holds (convertUnixSecondsToTimestampString s1)
      (convertUnixSecondsToTimestampString s2) = op.rel s1 s2) := by
  refine ⟨fun h => ?_, fun h => ?_, fun op => Cmp_holds_fmt op s1 s2 h0 h1 h2 h3⟩
  · rw [textLt_fmt s1 s2 h0 h1 h2 h3]; exact decide_eq_true h
  · rw [textLt_fmt s1 s2 h0 h1 h2 h3] at h; exact of_decide_eq_true h

/-- Witness of `timestamp_text_order` at seconds 100 and 200. -/
theorem timestamp_text_order_witness :
    (0 : Int) ≤ 100 ∧ (100 : Int) ≤ MAX_SECONDS ∧ (0 : Int) ≤ 200 ∧ (200 : Int) ≤ MAX_SECONDS ∧
    (100 : Int) < 200 ∧
    textLt (convertUnixSecondsToTimestampString 100) (convertUnixSecondsToTimestampString 200)
      = true :=
  ⟨by decide, by decide, by decide, by decide, by decide,
    (timestamp_text_order 100 200 (by decide) (by decide) (by decide) (by decide)).1 (by decide)⟩

/-- C4 (amended): on a store whose rows carry timestamps of the years 1970 to 9999, for
interval bounds up to 253402300799 and `maxValues ≥ 1`, the truncated signal of an
extraction is true if and only if the inclusive interval contains at least `maxValues`
samples of the series. -/
theorem truncated_iff_cap_reached (context : context_sqlite) (a b : Nat) (reverse : Bool)
    (maxValues : Nat) (hc : ContextOK context) (ha : (a : Int) ≤ MAX_SECONDS)
    (hb : (b : Int) ≤ MAX_SECONDS) (hm : 1 ≤ maxValues) :
    truncated context a b reverse maxValues = true ↔ maxValues ≤ samplesInInterval context a b := by
  obtain ⟨_, h1, _⟩ := copyDataValues_scan_spec context a b reverse maxValues
  rw [intervalRows_length context hc a b ha hb] at h1
  unfold truncated
  rw [decide_eq_true_eq]
  constructor
  · intro h
    by_contra hlt
    have := ((h1 hm).1 (by omega)).1
    rw [this] at h
    exact absurd h (by decide)
  · intro h
    exact ((h1 hm).2 h).1

/-- Witness of `truncated_iff_cap_reached` on the scenario store: `extract(100, 300,
reverse=false, maxValues=2)` is truncated, and so is the extraction with `maxValues = 3`. -/
theorem truncated_iff_cap_reached_witness :
    ContextOK demoStore ∧ ((100 : Nat) : Int) ≤ MAX_SECONDS ∧ ((300 : Nat) : Int) ≤ MAX_SECONDS ∧
    1 ≤ 2 ∧
    (truncated demoStore 100 300 false 2 = true ↔ 2 ≤ samplesInInterval demoStore 100 300) ∧
    truncated demoStore 100 300 false 2 = true ∧ samplesInInterval demoStore 100 300 = 3 :=
  ⟨demoStore_ok, by decide, by decide, by decide,
    truncated_iff_cap_reached demoStore 100 300 false 2 demoStore_ok (by decide) (by decide)
      (by decide), by decide, by decide⟩

/-- C4 (counterexample): the interval `[100, 300]` of the scenario store contains exactly
three samples, not more than `maxValues = 3`, and the extraction is truncated. -/
theorem truncated_counterexample :
    samplesInInterval demoStore 100 300 = 3 ∧ truncated demoStore 100 300 false 3 = true ∧
    ¬ (truncated demoStore 100 300 false 3 = true ↔ 3 < samplesInInterval demoStore 100 300) := by
  decide

/-- For `maxValues ≥ 1` an extraction writes at most `maxValues` slots. -/
theorem extract_cap_positive (context : context_sqlite) (a b : Nat) (reverse : Bool)
    (maxValues : Nat) (hm : 1 ≤ maxValues) :
    (copyDataValues_scan context a b reverse maxValues).1.counter ≤ maxValues ∧
    (copyDataValues_sqliteHDB context a b reverse maxValues).2.length ≤ maxValues := by
  obtain ⟨h0, h1, _⟩ := copyDataValues_scan_spec context a b reverse maxValues
  have hcnt : (copyDataValues_scan context a b reverse maxValues).1.counter ≤ maxValues := by
    by_cases hl : (intervalRows context.sqlite 1 a b).length < maxValues
    · rw [((h1 hm).1 hl).2]; omega
    · rw [((h1 hm).2 (by omega)).2]
  refine ⟨hcnt, ?_⟩
  have : (copyDataValues_sqliteHDB context a b reverse maxValues).2
      = (copyDataValues_scan context a b reverse maxValues).1.values := by
    unfold copyDataValues_sqliteHDB
    simp only []
    split_ifs <;> rfl
  rw [this, h0]
  exact hcnt

/-- C3 (failing input): with `maxValues = 0` the callback's test `counter == maxValues` is
made after the row was copied and counted, so it never fires: on the scenario store
`extract(100, 300, reverse=false, maxValues=0)` writes the slots `values[0..2]` and ends
with `counter = 3`. -/
theorem extract_cap_zero_overrun :
    (copyDataValues_scan demoStore 100 300 false 0).1.counter = 3 ∧
    (copyDataValues_sqliteHDB demoStore 100 300 false 0).2.length = 3 ∧
    (copyDataValues_sqliteHDB demoStore 100 300 false 0).1 = UA_STATUSCODE_GOOD := by
  decide

/-- The value (in millionths) and second of an extracted sample. -/
theorem extract_scenario_forward :
    (copyDataValues_sqliteHDB demoStore 100 300 false 2).2.map
        (fun dv => (dv.value.data, UA_DateTime_toUnixTime dv.sourceTimestamp))
      = [(1000000, 100), (2000000, 200)] := by
  decide

/-- C5 (failing input): `copyDataValues_sqliteHDB` never looks at `reverse` and its query has
no `ORDER BY`: on the scenario store `extract(100, 300, reverse=true, maxValues=2)` yields
`[1.0@100, 2.0@200]`, the same as with `reverse=false`, not `[3.0@300, 2.0@200]`. -/
theorem extract_ignores_reverse :
    (copyDataValues_sqliteHDB demoStore 100 300 true 2).2.map
        (fun dv => (dv.value.data, UA_DateTime_toUnixTime dv.sourceTimestamp))
      = [(1000000, 100), (2000000, 200)] ∧
    (∀ (context : context_sqlite) (a b maxValues : Nat),
      copyDataValues_sqliteHDB context a b true maxValues
        = copyDataValues_sqliteHDB context a b false maxValues) :=
  ⟨by decide, fun _ _ _ _ => rfl⟩

/-- C6 (amended): for every store of the measuring point `1` (shorter than `2^63` rows) and
every interval `[a, b]`, `count(a, b)` equals the number of samples that
`extract(a, b, reverse=false)` produces when `maxValues` exceeds the number of stored
samples; and on every store whatsoever `count(a, b) = 0` whenever `a > b` and
`a ≤ 253402300799`. -/
theorem count_matches_extract (context : context_sqlite) (a b maxValues : Nat) :
    (context.measuringPointID = 1 → context.sqlite.length < 9223372036854775808 →
      context.sqlite.length < maxValues →
      resultSize_sqliteHDB context a b
        = (copyDataValues_sqliteHDB context a b false maxValues).2.length ∧
      resultSize_sqliteHDB context a b
        = (copyDataValues_scan context a b false maxValues).1.counter) ∧
    ((a : Int) ≤ MAX_SECONDS → b < a → resultSize_sqliteHDB context a b = 0) := by
  refine ⟨fun hid hl hm => ?_, fun ha hba => resultSize_inverted context a b ha hba⟩
  have hle : (intervalRows context.sqlite 1 a b).length ≤ context.sqlite.length :=
    List.length_filter_le _ _
  obtain ⟨h0, h1, _⟩ := copyDataValues_scan_spec context a b false maxValues
  have hcnt := ((h1 (by omega)).1 (by omega)).2
  have hval : (copyDataValues_sqliteHDB context a b false maxValues).2
      = (copyDataValues_scan context a b false maxValues).1.values := by
    unfold copyDataValues_sqliteHDB
    simp only []
    split_ifs <;> rfl
  have hr := resultSize_eq context a b hl
  rw [hid] at hr
  exact ⟨by rw [hval, h0, hcnt, hr], by rw [hcnt, hr]⟩

/-- Witness of `count_matches_extract` on the scenario store, with the counts of the
scenario: `count(100, 300) = 3`, `count(150, 250) = 1`, `count(400, 500) = 0`, and the
inverted interval `count(300, 100) = 0`. -/
theorem count_matches_extract_witness :
    demoStore.measuringPointID = 1 ∧ demoStore.sqlite.length < 9223372036854775808 ∧
    demoStore.sqlite.length < 4 ∧ ((300 : Nat) : Int) ≤ MAX_SECONDS ∧ (100 : Nat) < 300 ∧
    resultSize_sqliteHDB demoStore 100 300
      = (copyDataValues_sqliteHDB demoStore 100 300 false 4).2.length ∧
    resultSize_sqliteHDB demoStore 300 100 = 0 ∧
    resultSize_sqliteHDB demoStore 100 300 = 3 ∧ resultSize_sqliteHDB demoStore 150 250 = 1 ∧
    resultSize_sqliteHDB demoStore 400 500 = 0 :=
  ⟨rfl, by decide, by decide, by decide, by decide,
    ((count_matches_extract demoStore 100 300 4).1 rfl (by decide) (by decide)).1,
    (count_matches_extract demoStore 300 100 4).2 (by decide) (by decide),
    by decide, by decide, by decide⟩

/-- C6 (counterexample): `a = 253402300800` is the index 10000-01-01 00:00:00, whose text the
buffer cuts to `10000-01-01 00:00:`; with `b = 253402300799 < a` the count over the scenario
store is 3, not 0. -/
theorem count_inverted_counterexample :
    (253402300799 : Nat) < 253402300800 ∧
    resultSize_sqliteHDB demoStore 253402300800 253402300799 = 3 ∧
    resultSize_sqliteHDB demoStore 253402300800 253402300799 ≠ 0 := by
  decide

/-- C2 (failing input): on an empty series no row reaches `timestamp_callback`, and
`firstIndex_sqliteHDB` and `lastIndex_sqliteHDB` return whatever their uninitialised local
`result` holds, which is `END_OF_DATA` only by accident. -/
theorem index_of_empty_series (uninit : Nat) :
    firstIndex_sqliteHDB uninit generateContext_sqlite = uninit ∧
    lastIndex_sqliteHDB uninit generateContext_sqlite = uninit ∧
    firstIndex_sqliteHDB 0 generateContext_sqlite ≠ END_OF_DATA ∧
    lastIndex_sqliteHDB 0 generateContext_sqlite ≠ END_OF_DATA :=
  ⟨rfl, rfl, by decide, by decide⟩

/-- On a non-empty series with well-formed timestamps `firstIndex_sqliteHDB` returns the
minimum stored second and `lastIndex_sqliteHDB` the maximum. -/
theorem first_last_index_nonempty (uninit : Nat) (context : context_sqlite)
    (hs : StoreOK context.sqlite) (hne : storedSeconds context ≠ []) :
    (∃ s ∈ storedSeconds context, (firstIndex_sqliteHDB uninit context : Int) = s ∧
      ∀ s' ∈ storedSeconds context, s ≤ s') ∧
    (∃ s ∈ storedSeconds context, (lastIndex_sqliteHDB uninit context : Int) = s ∧
      ∀ s' ∈ storedSeconds context, s' ≤ s) := by
  have hsel : ∀ r ∈ context.sqlite,
      (([] : List (Cmp × List Char)).all (fun c => c.1.holds r.Timestamp c.2)
        && decide (r.MeasuringPointID = context.measuringPointID)) =
      decide (r.MeasuringPointID = context.measuringPointID) := by
    intro r _
    simp
  obtain ⟨x, hx⟩ := List.exists_mem_of_ne_nil _ hne
  obtain ⟨x0, hx0, _⟩ := List.mem_map.mp hx
  obtain ⟨hx0t, hx0id⟩ := List.mem_filter.mp hx0
  have conv : ∀ (ord : OrderBy) (P : Int → Int → Prop),
      (∀ u v : Int, (match ord with | .asc => u ≤ v | .desc => v ≤ u) → P u v) →
      ∃ s ∈ storedSeconds context,
        (((sqlite3_exec_select context.sqlite ⟨.timestamp, [], context.measuringPointID, some ord,
          some 1⟩ timestamp_callback uninit).1 : Nat) : Int) = s ∧
        (sqlite3_exec_select context.sqlite ⟨.timestamp, [], context.measuringPointID, some ord,
          some 1⟩ timestamp_callback uninit).2 = SQLITE_OK ∧
        ∀ s' ∈ storedSeconds context, P s s' := by
    intro ord P hP
    obtain ⟨r, er, hr⟩ := first_row_scan context.sqlite hs context.measuringPointID [] ord uninit
      _ hsel
    rcases hr with ⟨_, hnone⟩ | ⟨row, hrow, hsl, hkey, hmin⟩
    · exact absurd hx0id (by rw [hnone x0 hx0t]; decide)
    · refine ⟨_, List.mem_map.mpr ⟨row, List.mem_filter.mpr ⟨hrow, hsl⟩, rfl⟩, ?_, ?_, ?_⟩
      · rw [er]; exact hkey
      · rw [er]
      · intro s' hs'
        obtain ⟨y, hy, rfl⟩ := List.mem_map.mp hs'
        obtain ⟨hyt, hyid⟩ := List.mem_filter.mp hy
        exact hP _ _ (hmin y hyt hyid)
  constructor
  · obtain ⟨s, hs1, hs2, hs3, hs4⟩ := conv .asc (fun u v => u ≤ v) (fun _ _ h => h)
    refine ⟨s, hs1, ?_, hs4⟩
    unfold firstIndex_sqliteHDB
    simp only [hs3, ne_eq, not_true_eq_false, if_false]
    exact hs2
  · obtain ⟨s, hs1, hs2, hs3, hs4⟩ := conv .desc (fun u v => v ≤ u) (fun _ _ h => h)
    refine ⟨s, hs1, ?_, hs4⟩
    unfold lastIndex_sqliteHDB
    simp only [hs3, ne_eq, not_true_eq_false, if_false]
    exact hs2

/-- A sample without value, with a bad status or with a payload that is not a `Double` is
refused and the store stays as it was. -/
theorem setSample_rejects (context : context_sqlite) (now : Int) (value : UA_DataValue)
    (h : ¬ (value.hasValue = true ∧ value.status = UA_STATUSCODE_GOOD ∧
      value.value.type = some UA_TYPES_DOUBLE)) :
    serverSetHistoryData_sqliteHDB context now value = (UA_STATUSCODE_BADINTERNALERROR, context) := by
  unfold serverSetHistoryData_sqliteHDB
  rw [if_neg h]

/-- The doubles 1.0 and 17.2 are stored: one row is added. -/
theorem setSample_accepts_short (context : context_sqlite) (now : Int) :
    serverSetHistoryData_sqliteHDB context now (goodDouble 1000000)
      = (UA_STATUSCODE_GOOD,
          { context with sqlite := context.sqlite ++ [⟨1, 1000000, CURRENT_TIMESTAMP now⟩] }) ∧
    serverSetHistoryData_sqliteHDB context now (goodDouble 17200000)
      = (UA_STATUSCODE_GOOD,
          { context with sqlite := context.sqlite ++ [⟨1, 17200000, CURRENT_TIMESTAMP now⟩] }) := by
  have p1 : parseInsert (insertHead ++ snprintf_remaining 30 1000000) = some 1000000 := by decide
  have p2 : parseInsert (insertHead ++ snprintf_remaining 30 17200000) = some 17200000 := by decide
  constructor
  · unfold serverSetHistoryData_sqliteHDB sqlite3_exec_insert
    simp [goodDouble, p1, SQLITE_OK]
  · unfold serverSetHistoryData_sqliteHDB sqlite3_exec_insert
    simp [goodDouble, p2, SQLITE_OK]

/-- C8 (failing input): the good `Double` samples 100.0 and -17.2 print as ten characters
under `"%f"`; `snprintf(remaining, 30, ...)` cuts the statement before its closing
parenthesis, SQLite refuses the text, and the call returns `BadInternalError` without adding
a row. -/
theorem setSample_long_rendering_refused (context : context_sqlite) (now : Int) :
    insertHead ++ snprintf_remaining 30 100000000
      = "INSERT INTO PeriodicValues VALUES(1, 100.000000, CURRENT_TIMESTAMP".toList ∧
    serverSetHistoryData_sqliteHDB context now (goodDouble 100000000)
      = (UA_STATUSCODE_BADINTERNALERROR, context) ∧
    serverSetHistoryData_sqliteHDB context now (goodDouble (-17200000))
      = (UA_STATUSCODE_BADINTERNALERROR, context) := by
  have p1 : parseInsert (insertHead ++ snprintf_remaining 30 100000000) = none := by decide
  have p2 : parseInsert (insertHead ++ snprintf_remaining 30 (-17200000)) = none := by decide
  refine ⟨by decide, ?_, ?_⟩
  · unfold serverSetHistoryData_sqliteHDB sqlite3_exec_insert
    simp [goodDouble, p1, SQLITE_OK, SQLITE_ERROR]
  · unfold serverSetHistoryData_sqliteHDB sqlite3_exec_insert
    simp [goodDouble, p2, SQLITE_OK, SQLITE_ERROR]

end SQLiteBackend
